import Mathlib

/-!
# Stream-out buffer manager of `advanced_aperiodic_stream_out.cpp`

A shallow embedding of the `StreamOut` class of the LJM example
`more/stream/advanced_aperiodic_stream_out.cpp`.

* C `int` values are `Int`.  Every quantity that occurs below is bounded by a
  vector length or by a constant, so no 32-bit overflow arises on the paths
  that are modelled; a negative sample count, which would hand an invalid
  iterator range to the `std::vector` constructor, is reported as
  `Outcome.undefined`.
* C `double` values are idealised as exact rationals (`ℚ`).
* The LJM library is external.  A device is an oracle that gives the error
  code (and, for reads, the value) of the k-th library call; the calls
  themselves are recorded, in call order, in a trace.
* `ErrorCheck` and `exit` end the process: `Outcome.exited`.
* The `while` loops of `UpdateStreamOutBuffer` and `CheckUpdateBuffer` take a
  fuel argument that bounds the number of iterations; `Outcome.outOfFuel`
  reports exhaustion.
* The class `OutContext` of `OutContext.h` is embedded a second time, from its
  own source, and compared with `StreamOut`.
-/

namespace StreamOutModel

/-- One call into the LJM library that talks to the device, with its arguments. -/
inductive DevOp where
  | eWriteName (handle : Int) (name : String) (value : ℚ)
  | eWriteNameArray (handle : Int) (name : String) (numValues : Int) (aValues : List ℚ)
  | eNames (handle : Int) (numFrames : Int) (aNames : List String) (aWrites : List Int)
      (aNumValues : List Int) (aValues : List ℚ)
  | eReadName (handle : Int) (name : String)
  | eStreamStop (handle : Int)
  | close (handle : Int)
  deriving DecidableEq

/-- The device as seen through the library: `err k` is the error code returned
by the k-th device call (counted from 0 over the whole session) and `value k`
the value that call stores through its output pointer when it is a read. -/
structure Device where
  err : Nat → Int
  value : Nat → ℚ

/-- Result of running a piece of the program from a given trace. -/
inductive Outcome (α : Type) where
  | done (result : α) (trace : List DevOp)
  | exited (code : Int) (trace : List DevOp)
  | undefined (trace : List DevOp)
  | outOfFuel (trace : List DevOp)

/-- Issue one device call: append it to the trace and return the error code the
device gives for it. -/
def call (dev : Device) (trace : List DevOp) (op : DevOp) : Int × List DevOp :=
  (dev.err trace.length, trace ++ [op])

/-- Modelled from the spec: `ErrorCheck` of `LJM_Utilities.h`, which is not
among the sources.  It is the provided error-check helper: a non-zero error
code ends the process with that code, a zero code lets execution continue. -/
def ErrorCheck {α : Type} (err : Int) (trace : List DevOp) (k : Outcome α) : Outcome α :=
  if err ≠ 0 then Outcome.exited err trace else k

/-- The part of the library that answers without device traffic:
`LJM_NameToAddress` (error code, address, type), the `MaxBytesPerMB` output of
`LJM_GetHandleInfo`, and the register data type codes `LJM_UINT16`,
`LJM_UINT32` and `LJM_FLOAT32`, constants of the header `LabJackM.h`, which is
not among the sources. -/
structure Lib where
  nameToAddress : String → Int × Int × Int
  maxBytes : Int
  LJM_UINT16 : Int
  LJM_UINT32 : Int
  LJM_FLOAT32 : Int

structure StreamInfo where
  target : String
  bufferNumBytes : Int
  streamOutIndex : Int
  setLoop : Int
  indexString : String

structure StateInfo where
  stateString : String
  values : List ℚ
  deriving DecidableEq

structure StreamOut where
  maxBytes : Int
  handle : Int
  targetAddress : Int
  currentIndex : Int
  states : List StateInfo
  stateSize : Int
  targetTypeString : String
  target : String
  bufferNumBytes : Int
  setLoop : Int
  streamOutIndex : String
  streamOutRegString : String
  targetRegString : String
  bufferSizeRegString : String
  loopSizeRegString : String
  setLoopRegString : String
  bufferStatusRegString : String
  enableRegString : String
  bufferRegString : String
  maxSamples : Int
  deriving DecidableEq

/-- The value a 32-bit `int` holds after a computation whose mathematical
result is `x`: two's-complement wrap-around into `-2^31 .. 2^31 - 1`. -/
def toInt32 (x : Int) : Int := (x + 2147483648) % 4294967296 - 2147483648

def BYTES_PER_VALUE : Int := 2

def INITIAL_SCAN_RATE_HZ : ℚ := 200

def BUFFER_NUM_BYTES : Int := 512

/-- `PrepareForExit`: stop the stream, then close the device, each followed by
`ErrorCheck`. -/
def PrepareForExit (dev : Device) (handle : Int) (trace : List DevOp) : Outcome Unit :=
  let r := call dev trace (DevOp.eStreamStop handle)
  ErrorCheck r.1 r.2 <|
  let r := call dev r.2 (DevOp.close handle)
  ErrorCheck r.1 r.2 <|
  Outcome.done () r.2

/-- The counted loop of `GenerateState`: `k` iterations remain, `i` is the loop
counter, `values` the vector built so far. -/
def GenerateState.loop (startVal changeInVal increment : ℚ) : Nat → Int → List ℚ → List ℚ
  | 0, _, values => values
  | k + 1, i, values =>
    let sample := startVal + changeInVal * increment * (i : ℚ)
    GenerateState.loop startVal changeInVal increment k (i + 1) (values ++ [sample])

/-- `StreamOut::GenerateState`: `for (i = 0; i < stateSize; i++)` runs
`stateSize` times when `stateSize` is positive and not at all otherwise. -/
def GenerateState (stateSize : Int) (startVal changeInVal : ℚ) : List ℚ :=
  let increment : ℚ := (1 : ℚ) / (stateSize : ℚ)
  GenerateState.loop startVal changeInVal increment stateSize.toNat 0 []

/-- The `while` loop of `StreamOut::UpdateStreamOutBuffer` over the vector
`values`, from offset `start`. -/
def UpdateStreamOutBuffer.loop (dev : Device) (isStreamRunning : Bool) (s : StreamOut)
    (values : List ℚ) : Nat → Int → List DevOp → Outcome Unit
  | 0, start, trace =>
    if start < (values.length : Int) then Outcome.outOfFuel trace else Outcome.done () trace
  | fuel + 1, start, trace =>
    if start < (values.length : Int) then
      let numSamples : Int := (values.length : Int) - start
      let numSamples : Int := if numSamples > s.maxSamples then s.maxSamples else numSamples
      let end_ : Int := start + numSamples
      if numSamples < 0 then Outcome.undefined trace else
      let writeValues : List ℚ := (values.drop start.toNat).take numSamples.toNat
      if end_ ≥ (values.length : Int) then
        let aWrites : List Int := [1, 1]
        let aNames : List String := [s.bufferRegString, s.setLoopRegString]
        let aNumValues : List Int := [numSamples, 1]
        let writeValues := writeValues ++ [(s.setLoop : ℚ)]
        let r := call dev trace (DevOp.eNames s.handle 2 aNames aWrites aNumValues writeValues)
        ErrorCheck r.1 r.2 <|
        UpdateStreamOutBuffer.loop dev isStreamRunning s values fuel (start + numSamples) r.2
      else
        let r := call dev trace
          (DevOp.eWriteNameArray s.handle s.bufferRegString numSamples writeValues)
        let continue_ (trace : List DevOp) : Outcome Unit :=
          ErrorCheck r.1 trace <|
          UpdateStreamOutBuffer.loop dev isStreamRunning s values fuel (start + numSamples) trace
        if r.1 ≠ 0 ∧ isStreamRunning = true then
          match PrepareForExit dev s.handle r.2 with
          | Outcome.done _ trace => continue_ trace
          | Outcome.exited code trace => Outcome.exited code trace
          | Outcome.undefined trace => Outcome.undefined trace
          | Outcome.outOfFuel trace => Outcome.outOfFuel trace
        else continue_ r.2
    else Outcome.done () trace

/-- `StreamOut::UpdateStreamOutBuffer`.  Indexing `states` outside its bounds
is undefined behaviour. -/
def UpdateStreamOutBuffer (fuel : Nat) (dev : Device) (isStreamRunning : Bool) (s : StreamOut)
    (trace : List DevOp) : Outcome StreamOut :=
  if s.currentIndex < 0 then Outcome.undefined trace else
  match s.states[s.currentIndex.toNat]? with
  | none => Outcome.undefined trace
  | some state =>
    match UpdateStreamOutBuffer.loop dev isStreamRunning s state.values fuel 0 trace with
    | Outcome.done _ trace =>
      Outcome.done
        { s with currentIndex := (s.currentIndex + 1) % (s.states.length : Int) } trace
    | Outcome.exited code trace => Outcome.exited code trace
    | Outcome.undefined trace => Outcome.undefined trace
    | Outcome.outOfFuel trace => Outcome.outOfFuel trace

/-- `StreamOut::ConvertNameToOutBufferTypeStr`: the buffer register variant
follows the data type of the target register.  The `switch` takes the case
whose label equals `type`, and the default otherwise. -/
def ConvertNameToOutBufferTypeStr (lib : Lib) (s : StreamOut) (trace : List DevOp) :
    Outcome StreamOut :=
  let r := lib.nameToAddress s.target
  let err := r.1
  let type := r.2.2
  ErrorCheck err trace <|
  if type = lib.LJM_UINT16 then Outcome.done { s with targetTypeString := "U16" } trace
  else if type = lib.LJM_UINT32 then Outcome.done { s with targetTypeString := "U32" } trace
  else if type = lib.LJM_FLOAT32 then Outcome.done { s with targetTypeString := "F32" } trace
  else Outcome.done { s with targetTypeString := "U32" } trace

/-- `StreamOut::CreateStreamOutNames`. -/
def CreateStreamOutNames (s : StreamOut) : StreamOut :=
  let streamOutRegString := s.streamOutRegString ++ s.streamOutIndex
  { s with
    streamOutRegString := streamOutRegString
    targetRegString := streamOutRegString ++ "_TARGET"
    bufferSizeRegString := streamOutRegString ++ "_BUFFER_SIZE"
    loopSizeRegString := streamOutRegString ++ "_LOOP_SIZE"
    setLoopRegString := streamOutRegString ++ "_SET_LOOP"
    bufferStatusRegString := streamOutRegString ++ "_BUFFER_STATUS"
    enableRegString := streamOutRegString ++ "_ENABLE"
    bufferRegString := (streamOutRegString ++ "_BUFFER_") ++ s.targetTypeString }

/-- `StreamOut::InitializeStreamOut`: four register writes, each followed by
`ErrorCheck`. -/
def InitializeStreamOut (dev : Device) (s : StreamOut) (trace : List DevOp) : Outcome Unit :=
  let r := call dev trace (DevOp.eWriteName s.handle s.targetRegString (s.targetAddress : ℚ))
  ErrorCheck r.1 r.2 <|
  let r := call dev r.2 (DevOp.eWriteName s.handle s.bufferSizeRegString (s.bufferNumBytes : ℚ))
  ErrorCheck r.1 r.2 <|
  let r := call dev r.2 (DevOp.eWriteName s.handle s.enableRegString 1)
  ErrorCheck r.1 r.2 <|
  let r := call dev r.2 (DevOp.eWriteName s.handle s.loopSizeRegString (s.stateSize : ℚ))
  ErrorCheck r.1 r.2 <|
  Outcome.done () r.2

/-- `StreamOut::GetStateSize`. -/
def GetStateSize (s : StreamOut) : Int := s.stateSize

/-- The object at the start of the constructor body: string and vector members
are default-constructed (empty); the `int` members are not yet assigned, which
is rendered as 0 (each is written before it is read).  The members
`deviceType`, `connectionType`, `serialNum`, `ip` and `port`, which are
written by `LJM_GetHandleInfo` and never read, are left out of the model. -/
def StreamOut.blank : StreamOut :=
  { maxBytes := 0, handle := 0, targetAddress := 0, currentIndex := 0, states := [],
    stateSize := 0, targetTypeString := "", target := "", bufferNumBytes := 0, setLoop := 0,
    streamOutIndex := "", streamOutRegString := "", targetRegString := "",
    bufferSizeRegString := "", loopSizeRegString := "", setLoopRegString := "",
    bufferStatusRegString := "", enableRegString := "", bufferRegString := "",
    maxSamples := 0 }

/-- The constructor `StreamOut::StreamOut(StreamInfo myStreamOut, int &handle)`.
C integer division truncates (`Int.tdiv`), and the subtraction
`maxBytes - NUM_HEADER_BYTES` is made on 32-bit `int`s (`toInt32`). -/
def StreamOut.new (fuel : Nat) (lib : Lib) (dev : Device) (myStreamOut : StreamInfo)
    (handle : Int) (trace : List DevOp) : Outcome StreamOut :=
  let outBufferNumValues : Int := myStreamOut.bufferNumBytes.tdiv BYTES_PER_VALUE
  let s : StreamOut :=
    { StreamOut.blank with
      currentIndex := 0
      streamOutRegString := "STREAM_OUT"
      handle := handle
      bufferNumBytes := myStreamOut.bufferNumBytes
      stateSize := outBufferNumValues.tdiv 2
      target := myStreamOut.target
      setLoop := myStreamOut.setLoop
      streamOutIndex := myStreamOut.indexString }
  match ConvertNameToOutBufferTypeStr lib s trace with
  | Outcome.exited code trace => Outcome.exited code trace
  | Outcome.undefined trace => Outcome.undefined trace
  | Outcome.outOfFuel trace => Outcome.outOfFuel trace
  | Outcome.done s trace =>
    let r := lib.nameToAddress s.target
    let err := r.1
    let s := { s with targetAddress := r.2.1 }
    ErrorCheck err trace <|
    let SINGLE_ARRAY_SEND_MAX_BYTES : Int := 524
    let maxBytes : Int :=
      if lib.maxBytes > SINGLE_ARRAY_SEND_MAX_BYTES then SINGLE_ARRAY_SEND_MAX_BYTES
      else lib.maxBytes
    let NUM_HEADER_BYTES : Int := 12
    let NUM_BYTES_PER_F32 : Int := 4
    let s := { s with
      maxBytes := maxBytes
      maxSamples := ((toInt32 (maxBytes - NUM_HEADER_BYTES)).tdiv NUM_BYTES_PER_F32) - 1 }
    let s := CreateStreamOutNames s
    let myState : StateInfo :=
      { stateString := "increase from 0.0 to 2.5", values := GenerateState s.stateSize 0 (5 / 2) }
    let s := { s with states := s.states ++ [myState] }
    let myState : StateInfo :=
      { stateString := "decrease from 5.0 to 2.5", values := GenerateState s.stateSize 5 (-(5 / 2)) }
    let s := { s with states := s.states ++ [myState] }
    match InitializeStreamOut dev s trace with
    | Outcome.exited code trace => Outcome.exited code trace
    | Outcome.undefined trace => Outcome.undefined trace
    | Outcome.outOfFuel trace => Outcome.outOfFuel trace
    | Outcome.done _ trace => UpdateStreamOutBuffer fuel dev false s trace

/-- Issue one device read: append it to the trace and return the content of
the output variable after the call.  The error code of the read is never
inspected by the callers below. -/
def read (dev : Device) (trace : List DevOp) (op : DevOp) : ℚ × List DevOp :=
  (dev.value trace.length, trace ++ [op])

/-- The statement `exit(code);` reached after a call `o` that may itself have
ended the process. -/
def exitAfter {α : Type} (o : Outcome Unit) (code : Int) : Outcome α :=
  match o with
  | Outcome.done _ trace => Outcome.exited code trace
  | Outcome.exited c trace => Outcome.exited c trace
  | Outcome.undefined trace => Outcome.undefined trace
  | Outcome.outOfFuel trace => Outcome.outOfFuel trace

/-- `StreamOut::PrintUpdateInfo`: the text it prints. -/
def PrintUpdateInfo (s : StreamOut) : String :=
  "Updating " ++ s.streamOutRegString ++ " buffer whenever " ++ s.bufferStatusRegString
    ++ " is greater or equal to " ++ toString s.stateSize ++ " \n"

/-- The `while` loop of `StreamOut::CheckUpdateBuffer`, from the current values
of `bufferStatus` and `infinityPreventer`.  The comparison
`bufferStatus < stateSize - 1` is made in `double`. -/
def CheckUpdateBuffer.loop (dev : Device) (s : StreamOut) :
    Nat → ℚ → Int → List DevOp → Outcome Unit
  | 0, bufferStatus, _, trace =>
    if bufferStatus < ((s.stateSize - 1 : Int) : ℚ) then Outcome.outOfFuel trace
    else Outcome.done () trace
  | fuel + 1, bufferStatus, infinityPreventer, trace =>
    if bufferStatus < ((s.stateSize - 1 : Int) : ℚ) then
      let r := read dev trace (DevOp.eReadName s.handle s.bufferStatusRegString)
      let bufferStatus := r.1
      let infinityPreventer := infinityPreventer + 1
      if (infinityPreventer : ℚ) > INITIAL_SCAN_RATE_HZ then
        exitAfter (PrepareForExit dev s.handle r.2) (-1)
      else CheckUpdateBuffer.loop dev s fuel bufferStatus infinityPreventer r.2
    else Outcome.done () trace

/-- `StreamOut::CheckUpdateBuffer`.  The fuel bounds the iterations of the wait
loop and those of the chunk loop of `UpdateStreamOutBuffer`. -/
def CheckUpdateBuffer (fuel : Nat) (dev : Device) (s : StreamOut) (trace : List DevOp) :
    Outcome StreamOut :=
  match CheckUpdateBuffer.loop dev s fuel 0 0 trace with
  | Outcome.done _ trace => UpdateStreamOutBuffer fuel dev true s trace
  | Outcome.exited code trace => Outcome.exited code trace
  | Outcome.undefined trace => Outcome.undefined trace
  | Outcome.outOfFuel trace => Outcome.outOfFuel trace

/-- The four register writes of `InitializeStreamOut`, in program order. -/
def configWrites (s : StreamOut) : List DevOp :=
  [DevOp.eWriteName s.handle s.targetRegString (s.targetAddress : ℚ),
   DevOp.eWriteName s.handle s.bufferSizeRegString (s.bufferNumBytes : ℚ),
   DevOp.eWriteName s.handle s.enableRegString 1,
   DevOp.eWriteName s.handle s.loopSizeRegString (s.stateSize : ℚ)]

/-- The object the constructor has built when it reaches `InitializeStreamOut`
(the target name having resolved), field by field. -/
def StreamOut.configured (lib : Lib) (myStreamOut : StreamInfo) (handle : Int) : StreamOut :=
  let type := (lib.nameToAddress myStreamOut.target).2.2
  let targetTypeString :=
    if type = lib.LJM_UINT16 then "U16"
    else if type = lib.LJM_UINT32 then "U32"
    else if type = lib.LJM_FLOAT32 then "F32"
    else "U32"
  let maxBytes : Int := if lib.maxBytes > 524 then 524 else lib.maxBytes
  let stateSize : Int := (myStreamOut.bufferNumBytes.tdiv 2).tdiv 2
  let streamOutRegString := "STREAM_OUT" ++ myStreamOut.indexString
  { maxBytes := maxBytes
    handle := handle
    targetAddress := (lib.nameToAddress myStreamOut.target).2.1
    currentIndex := 0
    states := [
      { stateString := "increase from 0.0 to 2.5", values := GenerateState stateSize 0 (5 / 2) },
      { stateString := "decrease from 5.0 to 2.5",
        values := GenerateState stateSize 5 (-(5 / 2)) }]
    stateSize := stateSize
    targetTypeString := targetTypeString
    target := myStreamOut.target
    bufferNumBytes := myStreamOut.bufferNumBytes
    setLoop := myStreamOut.setLoop
    streamOutIndex := myStreamOut.indexString
    streamOutRegString := streamOutRegString
    targetRegString := streamOutRegString ++ "_TARGET"
    bufferSizeRegString := streamOutRegString ++ "_BUFFER_SIZE"
    loopSizeRegString := streamOutRegString ++ "_LOOP_SIZE"
    setLoopRegString := streamOutRegString ++ "_SET_LOOP"
    bufferStatusRegString := streamOutRegString ++ "_BUFFER_STATUS"
    enableRegString := streamOutRegString ++ "_ENABLE"
    bufferRegString := (streamOutRegString ++ "_BUFFER_") ++ targetTypeString
    maxSamples := (toInt32 (maxBytes - 12)).tdiv 4 - 1 }

/-- The samples a write sends to the buffer register: the `numValues` values
of an `LJM_eWriteNameArray`, and the values of the first frame of an
`LJM_eNames` (the set-loop value that follows them belongs to the second
frame). -/
def samplePayload : DevOp → List ℚ
  | DevOp.eWriteNameArray _ _ numValues aValues => aValues.take numValues.toNat
  | DevOp.eNames _ _ _ _ aNumValues aValues => aValues.take (aNumValues.headD 0).toNat
  | _ => []

/-- The value array handed to a write call (empty for the calls that carry none). -/
def aValuesOf : DevOp → List ℚ
  | DevOp.eWriteName _ _ value => [value]
  | DevOp.eWriteNameArray _ _ _ aValues => aValues
  | DevOp.eNames _ _ _ _ _ aValues => aValues
  | _ => []

/-- The trace at the end of a run, whatever the way it ended. -/
def Outcome.trace {α : Type} : Outcome α → List DevOp
  | Outcome.done _ trace => trace
  | Outcome.exited _ trace => trace
  | Outcome.undefined trace => trace
  | Outcome.outOfFuel trace => trace

/-- Successive `UpdateStreamOutBuffer` calls on one manager, `n` of them, as
the update cycles of `main` make them; the second component of the result
lists, in call order, the `currentIndex` each call wrote. -/
def flushStates (fuel : Nat) (dev : Device) (isStreamRunning : Bool) :
    Nat → StreamOut → List DevOp → Outcome (StreamOut × List Int)
  | 0, s, trace => Outcome.done (s, []) trace
  | n + 1, s, trace =>
    match UpdateStreamOutBuffer fuel dev isStreamRunning s trace with
    | Outcome.done s1 trace1 =>
      match flushStates fuel dev isStreamRunning n s1 trace1 with
      | Outcome.done r trace2 => Outcome.done (r.1, s.currentIndex :: r.2) trace2
      | Outcome.exited code trace2 => Outcome.exited code trace2
      | Outcome.undefined trace2 => Outcome.undefined trace2
      | Outcome.outOfFuel trace2 => Outcome.outOfFuel trace2
    | Outcome.exited code trace1 => Outcome.exited code trace1
    | Outcome.undefined trace1 => Outcome.undefined trace1
    | Outcome.outOfFuel trace1 => Outcome.outOfFuel trace1

/-! ## `OutContext`, the copy of the manager in `OutContext.h`

The class `OutContext` declares the same data members as `StreamOut`, and its
constructor argument `stream_outs` the same members as `StreamInfo`; the
records `StreamOut` and `StreamInfo` hold them here as well.  The functions
are translated from `OutContext.h` and
`in_stream_with_non_looping_out_stream_supplement.h`.  Where `OutContext`
compares an `int` with `values->size()` without a cast, the `int` is
converted to `size_t`, of `w` bits. -/

/-- Conversion of an `int` to a `size_t` of `w` bits. -/
def toSizeT (w : Nat) (x : Int) : Int := x % 2 ^ w

/-- `OutContext::BYTES_PER_VALUE`. -/
def OutContext.BYTES_PER_VALUE : Int := 2

/-- `INITIAL_SCAN_RATE_HZ` of the supplement header. -/
def OutContext.INITIAL_SCAN_RATE_HZ : ℚ := 200

/-- `PrepareForExit` of the supplement header. -/
def OutContext.PrepareForExit (dev : Device) (handle : Int) (trace : List DevOp) :
    Outcome Unit :=
  let r := call dev trace (DevOp.eStreamStop handle)
  ErrorCheck r.1 r.2 <|
  let r := call dev r.2 (DevOp.close handle)
  ErrorCheck r.1 r.2 <|
  Outcome.done () r.2

/-- The counted loop of `OutContext::GenerateState`. -/
def OutContext.GenerateState.loop (startVal changeInVal increment : ℚ) :
    Nat → Int → List ℚ → List ℚ
  | 0, _, values => values
  | k + 1, i, values =>
    let sample := startVal + changeInVal * increment * (i : ℚ)
    OutContext.GenerateState.loop startVal changeInVal increment k (i + 1) (values ++ [sample])

/-- `OutContext::GenerateState`. -/
def OutContext.GenerateState (stateSize : Int) (startVal changeInVal : ℚ) : List ℚ :=
  let increment : ℚ := (1 : ℚ) / (stateSize : ℚ)
  OutContext.GenerateState.loop startVal changeInVal increment stateSize.toNat 0 []

/-- The `while` loop of `OutContext::UpdateStreamOutBuffer`: the tests
`start < values->size()` and `end >= values->size()` are made in `size_t`. -/
def OutContext.UpdateStreamOutBuffer.loop (w : Nat) (dev : Device) (isStreamRunning : Bool)
    (s : StreamOut) (values : List ℚ) : Nat → Int → List DevOp → Outcome Unit
  | 0, start, trace =>
    if toSizeT w start < (values.length : Int) then Outcome.outOfFuel trace
    else Outcome.done () trace
  | fuel + 1, start, trace =>
    if toSizeT w start < (values.length : Int) then
      let numSamples : Int := (values.length : Int) - start
      let numSamples : Int := if numSamples > s.maxSamples then s.maxSamples else numSamples
      let end_ : Int := start + numSamples
      if numSamples < 0 then Outcome.undefined trace else
      let writeValues : List ℚ := (values.drop start.toNat).take numSamples.toNat
      if toSizeT w end_ ≥ (values.length : Int) then
        let aWrites : List Int := [1, 1]
        let aNames : List String := [s.bufferRegString, s.setLoopRegString]
        let aNumValues : List Int := [numSamples, 1]
        let writeValues := writeValues ++ [(s.setLoop : ℚ)]
        let r := call dev trace (DevOp.eNames s.handle 2 aNames aWrites aNumValues writeValues)
        ErrorCheck r.1 r.2 <|
        OutContext.UpdateStreamOutBuffer.loop w dev isStreamRunning s values fuel
          (start + numSamples) r.2
      else
        let r := call dev trace
          (DevOp.eWriteNameArray s.handle s.bufferRegString numSamples writeValues)
        let continue_ (trace : List DevOp) : Outcome Unit :=
          ErrorCheck r.1 trace <|
          OutContext.UpdateStreamOutBuffer.loop w dev isStreamRunning s values fuel
            (start + numSamples) trace
        if r.1 ≠ 0 ∧ isStreamRunning = true then
          match OutContext.PrepareForExit dev s.handle r.2 with
          | Outcome.done _ trace => continue_ trace
          | Outcome.exited code trace => Outcome.exited code trace
          | Outcome.undefined trace => Outcome.undefined trace
          | Outcome.outOfFuel trace => Outcome.outOfFuel trace
        else continue_ r.2
    else Outcome.done () trace

/-- `OutContext::UpdateStreamOutBuffer`. -/
def OutContext.UpdateStreamOutBuffer (w : Nat) (fuel : Nat) (dev : Device)
    (isStreamRunning : Bool) (s : StreamOut) (trace : List DevOp) : Outcome StreamOut :=
  if s.currentIndex < 0 then Outcome.undefined trace else
  match s.states[s.currentIndex.toNat]? with
  | none => Outcome.undefined trace
  | some state =>
    match OutContext.UpdateStreamOutBuffer.loop w dev isStreamRunning s state.values fuel 0
      trace with
    | Outcome.done _ trace =>
      Outcome.done
        { s with currentIndex := (s.currentIndex + 1) % (s.states.length : Int) } trace
    | Outcome.exited code trace => Outcome.exited code trace
    | Outcome.undefined trace => Outcome.undefined trace
    | Outcome.outOfFuel trace => Outcome.outOfFuel trace

/-- `OutContext::ConvertNameToOutBufferTypeStr`. -/
def OutContext.ConvertNameToOutBufferTypeStr (lib : Lib) (s : StreamOut)
    (trace : List DevOp) : Outcome StreamOut :=
  let r := lib.nameToAddress s.target
  let err := r.1
  let type := r.2.2
  ErrorCheck err trace <|
  if type = lib.LJM_UINT16 then Outcome.done { s with targetTypeString := "U16" } trace
  else if type = lib.LJM_UINT32 then Outcome.done { s with targetTypeString := "U32" } trace
  else if type = lib.LJM_FLOAT32 then Outcome.done { s with targetTypeString := "F32" } trace
  else Outcome.done { s with targetTypeString := "U32" } trace

/-- `OutContext::CreateStreamOutNames`. -/
def OutContext.CreateStreamOutNames (s : StreamOut) : StreamOut :=
  let streamOutRegString := s.streamOutRegString ++ s.streamOutIndex
  { s with
    streamOutRegString := streamOutRegString
    targetRegString := streamOutRegString ++ "_TARGET"
    bufferSizeRegString := streamOutRegString ++ "_BUFFER_SIZE"
    loopSizeRegString := streamOutRegString ++ "_LOOP_SIZE"
    setLoopRegString := streamOutRegString ++ "_SET_LOOP"
    bufferStatusRegString := streamOutRegString ++ "_BUFFER_STATUS"
    enableRegString := streamOutRegString ++ "_ENABLE"
    bufferRegString := (streamOutRegString ++ "_BUFFER_") ++ s.targetTypeString }

/-- `OutContext::InitializeStreamOut`. -/
def OutContext.InitializeStreamOut (dev : Device) (s : StreamOut) (trace : List DevOp) :
    Outcome Unit :=
  let r := call dev trace (DevOp.eWriteName s.handle s.targetRegString (s.targetAddress : ℚ))
  ErrorCheck r.1 r.2 <|
  let r := call dev r.2 (DevOp.eWriteName s.handle s.bufferSizeRegString (s.bufferNumBytes : ℚ))
  ErrorCheck r.1 r.2 <|
  let r := call dev r.2 (DevOp.eWriteName s.handle s.enableRegString 1)
  ErrorCheck r.1 r.2 <|
  let r := call dev r.2 (DevOp.eWriteName s.handle s.loopSizeRegString (s.stateSize : ℚ))
  ErrorCheck r.1 r.2 <|
  Outcome.done () r.2

/-- The constructor `OutContext::OutContext(stream_outs myStreamOut, int &handle)`. -/
def OutContext.new (w : Nat) (fuel : Nat) (lib : Lib) (dev : Device) (myStreamOut : StreamInfo)
    (handle : Int) (trace : List DevOp) : Outcome StreamOut :=
  let outBufferNumValues : Int := myStreamOut.bufferNumBytes.tdiv OutContext.BYTES_PER_VALUE
  let s : StreamOut :=
    { StreamOut.blank with
      currentIndex := 0
      streamOutRegString := "STREAM_OUT"
      handle := handle
      bufferNumBytes := myStreamOut.bufferNumBytes
      stateSize := outBufferNumValues.tdiv 2
      target := myStreamOut.target
      setLoop := myStreamOut.setLoop
      streamOutIndex := myStreamOut.indexString }
  match OutContext.ConvertNameToOutBufferTypeStr lib s trace with
  | Outcome.exited code trace => Outcome.exited code trace
  | Outcome.undefined trace => Outcome.undefined trace
  | Outcome.outOfFuel trace => Outcome.outOfFuel trace
  | Outcome.done s trace =>
    let r := lib.nameToAddress s.target
    let err := r.1
    let s := { s with targetAddress := r.2.1 }
    ErrorCheck err trace <|
    let SINGLE_ARRAY_SEND_MAX_BYTES : Int := 524
    let maxBytes : Int :=
      if lib.maxBytes > SINGLE_ARRAY_SEND_MAX_BYTES then SINGLE_ARRAY_SEND_MAX_BYTES
      else lib.maxBytes
    let NUM_HEADER_BYTES : Int := 12
    let NUM_BYTES_PER_F32 : Int := 4
    let s := { s with
      maxBytes := maxBytes
      maxSamples := ((toInt32 (maxBytes - NUM_HEADER_BYTES)).tdiv NUM_BYTES_PER_F32) - 1 }
    let s := OutContext.CreateStreamOutNames s
    let myState : StateInfo :=
      { stateString := "increase from 0.0 to 2.5",
        values := OutContext.GenerateState s.stateSize 0 (5 / 2) }
    let s := { s with states := s.states ++ [myState] }
    let myState : StateInfo :=
      { stateString := "decrease from 5.0 to 2.5",
        values := OutContext.GenerateState s.stateSize 5 (-(5 / 2)) }
    let s := { s with states := s.states ++ [myState] }
    match OutContext.InitializeStreamOut dev s trace with
    | Outcome.exited code trace => Outcome.exited code trace
    | Outcome.undefined trace => Outcome.undefined trace
    | Outcome.outOfFuel trace => Outcome.outOfFuel trace
    | Outcome.done _ trace => OutContext.UpdateStreamOutBuffer w fuel dev false s trace

/-- The `while` loop of `OutContext::CheckUpdateBuffer`. -/
def OutContext.CheckUpdateBuffer.loop (dev : Device) (s : StreamOut) :
    Nat → ℚ → Int → List DevOp → Outcome Unit
  | 0, bufferStatus, _, trace =>
    if bufferStatus < ((s.stateSize - 1 : Int) : ℚ) then Outcome.outOfFuel trace
    else Outcome.done () trace
  | fuel + 1, bufferStatus, infinityPreventer, trace =>
    if bufferStatus < ((s.stateSize - 1 : Int) : ℚ) then
      let r := read dev trace (DevOp.eReadName s.handle s.bufferStatusRegString)
      let bufferStatus := r.1
      let infinityPreventer := infinityPreventer + 1
      if (infinityPreventer : ℚ) > OutContext.INITIAL_SCAN_RATE_HZ then
        exitAfter (OutContext.PrepareForExit dev s.handle r.2) (-1)
      else OutContext.CheckUpdateBuffer.loop dev s fuel bufferStatus infinityPreventer r.2
    else Outcome.done () trace

/-- `OutContext::CheckUpdateBuffer`. -/
def OutContext.CheckUpdateBuffer (w : Nat) (fuel : Nat) (dev : Device) (s : StreamOut)
    (trace : List DevOp) : Outcome StreamOut :=
  match OutContext.CheckUpdateBuffer.loop dev s fuel 0 0 trace with
  | Outcome.done _ trace => OutContext.UpdateStreamOutBuffer w fuel dev true s trace
  | Outcome.exited code trace => Outcome.exited code trace
  | Outcome.undefined trace => Outcome.undefined trace
  | Outcome.outOfFuel trace => Outcome.outOfFuel trace

/-! ## Sessions: construction followed by update cycles -/

/-- Successive `CheckUpdateBuffer` calls on one manager, `n` of them, as the
update cycles of `main` make them; `check` is the `CheckUpdateBuffer` of either
class. -/
def runChecks (check : StreamOut → List DevOp → Outcome StreamOut) :
    Nat → StreamOut → List DevOp → Outcome StreamOut
  | 0, s, trace => Outcome.done s trace
  | n + 1, s, trace =>
    match check s trace with
    | Outcome.done s1 trace1 => runChecks check n s1 trace1
    | Outcome.exited code trace1 => Outcome.exited code trace1
    | Outcome.undefined trace1 => Outcome.undefined trace1
    | Outcome.outOfFuel trace1 => Outcome.outOfFuel trace1

/-- Construction of a `StreamOut` followed by `n` `CheckUpdateBuffer` calls. -/
def StreamOut.session (fuel : Nat) (lib : Lib) (dev : Device) (info : StreamInfo)
    (handle : Int) (n : Nat) (trace : List DevOp) : Outcome StreamOut :=
  match StreamOut.new fuel lib dev info handle trace with
  | Outcome.done s trace1 => runChecks (CheckUpdateBuffer fuel dev) n s trace1
  | Outcome.exited code trace1 => Outcome.exited code trace1
  | Outcome.undefined trace1 => Outcome.undefined trace1
  | Outcome.outOfFuel trace1 => Outcome.outOfFuel trace1

/-- Construction of an `OutContext` followed by `n` `CheckUpdateBuffer` calls. -/
def OutContext.session (w : Nat) (fuel : Nat) (lib : Lib) (dev : Device) (info : StreamInfo)
    (handle : Int) (n : Nat) (trace : List DevOp) : Outcome StreamOut :=
  match OutContext.new w fuel lib dev info handle trace with
  | Outcome.done s trace1 => runChecks (OutContext.CheckUpdateBuffer w fuel dev) n s trace1
  | Outcome.exited code trace1 => Outcome.exited code trace1
  | Outcome.undefined trace1 => Outcome.undefined trace1
  | Outcome.outOfFuel trace1 => Outcome.outOfFuel trace1

/-! ## Managers reachable from a construction -/

/-- The managers a program can hold: the result of a construction that
returned, and the result of every `UpdateStreamOutBuffer` or
`CheckUpdateBuffer` call that returned on such a manager. -/
inductive Reachable : StreamOut → Prop where
  | construct (fuel : Nat) (lib : Lib) (dev : Device) (info : StreamInfo) (handle : Int)
      (trace : List DevOp) (s : StreamOut) (t : List DevOp) :
      StreamOut.new fuel lib dev info handle trace = Outcome.done s t → Reachable s
  | update (fuel : Nat) (dev : Device) (isStreamRunning : Bool) (s : StreamOut)
      (trace : List DevOp) (s1 : StreamOut) (t1 : List DevOp) :
      Reachable s →
      UpdateStreamOutBuffer fuel dev isStreamRunning s trace = Outcome.done s1 t1 →
      Reachable s1
  | check (fuel : Nat) (dev : Device) (s : StreamOut) (trace : List DevOp) (s1 : StreamOut)
      (t1 : List DevOp) :
      Reachable s → CheckUpdateBuffer fuel dev s trace = Outcome.done s1 t1 → Reachable s1

/-! ## `ProcessStreamResults` -/

def NUM_IN_READS : Int := 2

/-- `ProcessStreamResults`.  The printed text is not modelled; the reads
`data[i]` of the loop that prints the first scan are, and the result is `none`
when one of them is outside the vector. -/
def ProcessStreamResults (_iteration : Int) (data : List ℚ) (deviceNumBacklogScans : Int)
    (ljmNumBacklogScans : Int) (stateSize : Int) : Option Int :=
  let _numScans : Int := (data.length : Int).tdiv NUM_IN_READS
  let numSkippedSamples : Int := ((data.count (-9999) : Nat) : Int)
  let firstScan : List (Option ℚ) := (List.range NUM_IN_READS.toNat).map (fun (i : Nat) => data[i]?)
  let _backlogPrinted : Bool :=
    decide (deviceNumBacklogScans > stateSize) || decide (ljmNumBacklogScans > stateSize)
  if firstScan.all Option.isSome then some numSkippedSamples else none

/-! ## `stream_log_testing.c` -/

namespace StreamLogTesting

def NUM_CHANNELS : Int := 6

/-- `DataToFile`: the sample columns of the rows it writes, one list per row;
`aData k` is the content of `aData[k]`.  The time stamp that starts each row is
left out. -/
def DataToFile (aData : Nat → ℚ) (numScansToProcess : Int) : List (List ℚ) :=
  (List.range numScansToProcess.toNat).map (fun (i : Nat) =>
    (List.range NUM_CHANNELS.toNat).map (fun (j : Nat) => aData (i + j)))

/-- The samples of scan `i` in the interleaved array `LJM_eStreamRead` fills. -/
def scanOf (aData : Nat → ℚ) (i : Nat) : List ℚ :=
  (List.range NUM_CHANNELS.toNat).map (fun (j : Nat) => aData (i * NUM_CHANNELS.toNat + j))

end StreamLogTesting

/-! ## `system_reboot_test.c` -/

namespace SystemRebootTest

/-- The `while (1)` loop of `main`.  `err k` is the result of the k-th
`LJM_eReadName` of AIN0; `reads` counts the reads made so far.  The result is
the number of reads made when the loop prints "Device has rebooted and is
reconnected." and breaks, or `none` when the fuel runs out first.  The error
codes `LJME_NOERROR` and `LJME_RECONNECT_FAILED` are constants of `LabJackM.h`,
which is not among the sources. -/
def pollLoop (LJME_NOERROR LJME_RECONNECT_FAILED : Int) (err : Nat → Int) :
    Nat → Nat → Int → Option Nat
  | 0, _, _ => none
  | fuel + 1, reads, hitReconnectError =>
    let e := err reads
    if e = LJME_NOERROR then
      if hitReconnectError = 1 then some (reads + 1)
      else pollLoop LJME_NOERROR LJME_RECONNECT_FAILED err fuel (reads + 1) hitReconnectError
    else if e = LJME_RECONNECT_FAILED then
      pollLoop LJME_NOERROR LJME_RECONNECT_FAILED err fuel (reads + 1) 1
    else pollLoop LJME_NOERROR LJME_RECONNECT_FAILED err fuel (reads + 1) hitReconnectError

/-- The reads at which the loop may end: a successful read with an earlier read
that failed with `LJME_RECONNECT_FAILED`. -/
def reconnectedAt (LJME_NOERROR LJME_RECONNECT_FAILED : Int) (err : Nat → Int) (i : Nat) : Prop :=
  err i = LJME_NOERROR ∧ ∃ m : Nat, m < i ∧ err m = LJME_RECONNECT_FAILED

end SystemRebootTest

/-! ## `thermocouple_example.c` -/

namespace ThermocoupleExample

inductive TempUnits where
  | DEGK
  | DEGC
  | DEGF

structure TCData where
  tcType : Int
  posChannel : Int
  negChannel : Int
  CJCAddress : Int
  CJCSlope : ℚ
  CJCOffset : ℚ
  tempUnits : TempUnits

/-- The array `TC_INDEX_LUT` of `SetupAIN_EF`. -/
def TC_INDEX_LUT : List Int := [28, 20, 21, 22, 27, 23, 25, 24, 30]

/-- `SetupAIN_EF` up to its call of `LJM_eWriteAddresses`: the arrays
`aAddresses`, `aTypes` and `aValues` it passes, or `none` when
`tcData.tcType - 6001` is not an index of `TC_INDEX_LUT`.  The type codes are
constants of `LabJackM.h`. -/
def SetupAIN_EF (LJM_UINT32 LJM_FLOAT32 : Int) (tcData : TCData) :
    Option (List Int × List Int × List ℚ) :=
  let index : Int := tcData.tcType - 6001
  if index < 0 then none else
  match TC_INDEX_LUT[index.toNat]? with
  | none => none
  | some efIndex =>
    let units : ℚ :=
      match tcData.tempUnits with
      | TempUnits.DEGK => 0
      | TempUnits.DEGC => 1
      | TempUnits.DEGF => 2
    let aAddresses : List Int :=
      [9000 + 2 * tcData.posChannel, 9300 + 2 * tcData.posChannel,
       9600 + 2 * tcData.posChannel, 10200 + 2 * tcData.posChannel,
       10500 + 2 * tcData.posChannel]
    let aTypes : List Int := [LJM_UINT32, LJM_UINT32, LJM_UINT32, LJM_FLOAT32, LJM_FLOAT32]
    let aValues : List ℚ :=
      [(efIndex : ℚ), units, (tcData.CJCAddress : ℚ), tcData.CJCSlope, tcData.CJCOffset]
    some (aAddresses, aTypes, aValues)

/-- The value `SetupAIN_EF` writes to AIN#_EF_INDEX for a thermocouple type. -/
def efIndexOf (tcType : Int) : Option Int :=
  if tcType - 6001 < 0 then none else TC_INDEX_LUT[(tcType - 6001).toNat]?

end ThermocoupleExample

/-! ## Concrete configurations -/

/-- A device on which every call succeeds. -/
def okDevice : Device := { err := fun _ => 0, value := fun _ => 0 }

/-- A library that resolves every name to a FLOAT32 register at address 1000
and reports 24 bytes per packet. -/
def demoLib : Lib :=
  { nameToAddress := fun _ => (0, 1000, 3), maxBytes := 24, LJM_UINT16 := 0, LJM_UINT32 := 1,
    LJM_FLOAT32 := 3 }

/-- A stream-out description with a 20-byte buffer. -/
def demoInfo : StreamInfo :=
  { target := "DAC0", bufferNumBytes := 20, streamOutIndex := 0, setLoop := 2,
    indexString := "0" }

/-- The manager the constructor builds from `demoLib` and `demoInfo` on handle 7:
states of 5 samples, at most 2 samples per write. -/
def demoStream : StreamOut :=
  { maxBytes := 24, handle := 7, targetAddress := 1000, currentIndex := 1,
    states := [
      { stateString := "increase from 0.0 to 2.5", values := [0, 1 / 2, 1, 3 / 2, 2] },
      { stateString := "decrease from 5.0 to 2.5", values := [5, 9 / 2, 4, 7 / 2, 3] }],
    stateSize := 5, targetTypeString := "F32", target := "DAC0", bufferNumBytes := 20,
    setLoop := 2, streamOutIndex := "0", streamOutRegString := "STREAM_OUT0",
    targetRegString := "STREAM_OUT0_TARGET", bufferSizeRegString := "STREAM_OUT0_BUFFER_SIZE",
    loopSizeRegString := "STREAM_OUT0_LOOP_SIZE", setLoopRegString := "STREAM_OUT0_SET_LOOP",
    bufferStatusRegString := "STREAM_OUT0_BUFFER_STATUS",
    enableRegString := "STREAM_OUT0_ENABLE", bufferRegString := "STREAM_OUT0_BUFFER_F32",
    maxSamples := 2 }

/-- The device calls of that construction: four configuration writes, then the
first state in chunks of 2, 2 and 1 samples. -/
def demoTrace : List DevOp :=
  [DevOp.eWriteName 7 "STREAM_OUT0_TARGET" 1000,
   DevOp.eWriteName 7 "STREAM_OUT0_BUFFER_SIZE" 20,
   DevOp.eWriteName 7 "STREAM_OUT0_ENABLE" 1,
   DevOp.eWriteName 7 "STREAM_OUT0_LOOP_SIZE" 5,
   DevOp.eWriteNameArray 7 "STREAM_OUT0_BUFFER_F32" 2 [0, 1 / 2],
   DevOp.eWriteNameArray 7 "STREAM_OUT0_BUFFER_F32" 2 [1, 3 / 2],
   DevOp.eNames 7 2 ["STREAM_OUT0_BUFFER_F32", "STREAM_OUT0_SET_LOOP"] [1, 1] [1, 1] [2, 2]]

/-- A device that rejects its k-th call with the given error code and accepts
every other call. -/
def failAt (k : Nat) (code : Int) : Device :=
  { err := fun i => if i = k then code else 0, value := fun _ => 0 }

/-- The manager `demoStream` about to write its first state. -/
def demoStream0 : StreamOut := { demoStream with currentIndex := 0 }

/-- The second state of `demoStream`. -/
def demoState : StateInfo :=
  { stateString := "decrease from 5.0 to 2.5", values := [5, 9 / 2, 4, 7 / 2, 3] }

/-- A state of 256 samples. -/
def wideState : StateInfo :=
  { stateString := "increase from 0.0 to 2.5", values := GenerateState 256 0 (5 / 2) }

/-- A manager with one state of 256 samples and at most 130 samples per write. -/
def wideStream : StreamOut :=
  { demoStream with
    currentIndex := 0, states := [wideState], stateSize := 256, bufferNumBytes := 1024,
    maxSamples := 130 }

/-- The value `stateSize - 1` with which `CheckUpdateBuffer` compares the
buffer status. -/
def threshold (s : StreamOut) : ℚ := ((s.stateSize - 1 : Int) : ℚ)

/-- The status read `CheckUpdateBuffer` issues. -/
def statusRead (s : StreamOut) : DevOp := DevOp.eReadName s.handle s.bufferStatusRegString

/-- A device on which every call succeeds and every read returns `v`. -/
def steadyDevice (v : ℚ) : Device := { err := fun _ => 0, value := fun _ => v }

/-- A stream-out description with a buffer of no bytes. -/
def emptyInfo : StreamInfo := { demoInfo with bufferNumBytes := 0 }

/-- The manager the constructor builds from `demoLib` and `emptyInfo`: both
states are empty. -/
def emptyStream : StreamOut :=
  { demoStream with
    states := [
      { stateString := "increase from 0.0 to 2.5", values := [] },
      { stateString := "decrease from 5.0 to 2.5", values := [] }],
    stateSize := 0, bufferNumBytes := 0 }

/-- The first stream-out description of `main`. -/
def streamInfo0 : StreamInfo :=
  { target := "DAC0", bufferNumBytes := BUFFER_NUM_BYTES, streamOutIndex := 0, setLoop := 2,
    indexString := "0" }

/-- The second stream-out description of `main`. -/
def streamInfo1 : StreamInfo :=
  { target := "DAC1", bufferNumBytes := BUFFER_NUM_BYTES, streamOutIndex := 1, setLoop := 3,
    indexString := "1" }

/-- A library as `demoLib` on a connection that reports 1040 bytes per packet. -/
def largeLib : Lib := { demoLib with maxBytes := 1040 }

/-- A library as `demoLib` on a connection that reports `INT_MIN` bytes per
packet. -/
def wrapLib : Lib := { demoLib with maxBytes := -2147483648 }

/-- A read of four samples, two of them the skipped-sample marker. -/
def skippedData : List ℚ := [1, -9999, 2, -9999]

/-- An interleaved read whose sample at index `k` is `k`. -/
def StreamLogTesting.rampData : Nat → ℚ := fun k => (k : ℚ)

/-- Results of the AIN0 reads of a reboot: one success, two reads that fail
with code 1239 (standing for `LJME_RECONNECT_FAILED`), one read that fails
with another code, then successes. -/
def SystemRebootTest.rebootErrs : Nat → Int := fun k =>
  if k = 0 then 0 else if k = 1 then 1239 else if k = 2 then 1239 else if k = 3 then 1227
  else 0

/-- The thermocouple description of `main` in `thermocouple_example.c`: type K
(`LJM_ttK = 6004`) on AIN0. -/
def ThermocoupleExample.mainTCData : ThermocoupleExample.TCData :=
  { tcType := 6004, posChannel := 0, negChannel := 199, CJCAddress := 60052, CJCSlope := 1,
    CJCOffset := 0, tempUnits := ThermocoupleExample.TempUnits.DEGC }

/-! ## The writes of one `UpdateStreamOutBuffer` call -/

/-- The intermediate write that carries the chunk `c`. -/
def arrayWrite (s : StreamOut) (c : List ℚ) : DevOp :=
  DevOp.eWriteNameArray s.handle s.bufferRegString (c.length : Int) c

/-- The final write that carries the chunk `c` followed by the set-loop value. -/
def finalWrite (s : StreamOut) (c : List ℚ) : DevOp :=
  DevOp.eNames s.handle 2 [s.bufferRegString, s.setLoopRegString] [1, 1]
    [(c.length : Int), 1] (c ++ [(s.setLoop : ℚ)])

theorem toInt32_eq (x : Int) (h1 : -2147483648 ≤ x) (h2 : x < 2147483648) : toInt32 x = x := by
  unfold toInt32
  omega

theorem loop_finished (dev : Device) (run : Bool) (s : StreamOut) (values : List ℚ)
    (fuel : Nat) (start : Int) (trace : List DevOp) (h : (values.length : Int) ≤ start) :
    UpdateStreamOutBuffer.loop dev run s values fuel start trace = Outcome.done () trace := by
  have h2 : ¬ start < (values.length : Int) := by omega
  cases fuel <;> simp [UpdateStreamOutBuffer.loop, h2]

theorem loop_chunks (dev : Device) (run : Bool) (s : StreamOut) (values : List ℚ) (m : Nat)
    (hm : s.maxSamples = (m : Int)) (hM : 1 ≤ m) (hdev : ∀ k, dev.err k = 0) :
    ∀ (fuel k : Nat) (trace : List DevOp), k < values.length → values.length - k ≤ fuel →
      ∃ (cs : List (List ℚ)) (last : List ℚ),
        UpdateStreamOutBuffer.loop dev run s values fuel (k : Int) trace
            = Outcome.done () (trace ++ cs.map (arrayWrite s) ++ [finalWrite s last])
          ∧ cs.flatten ++ last = values.drop k
          ∧ (∀ c ∈ cs, c.length = m)
          ∧ 1 ≤ last.length ∧ last.length ≤ m := by
  intro fuel
  induction fuel with
  | zero => intro k trace hk hf; omega
  | succ fuel ih =>
    intro k trace hk hf
    have hlt : (k : Int) < (values.length : Int) := by omega
    by_cases hbig : values.length - k ≤ m
    · refine ⟨[], values.drop k, ?_, by simp, by simp, by simp; omega, by simp; omega⟩
      have h1 : ¬ ((values.length : Int) - (k : Int) > (m : Int)) := by omega
      have h3 : ¬ ((values.length : Int) - (k : Int) < 0) := by omega
      have h4 : (k : Int) + ((values.length : Int) - (k : Int)) ≥ (values.length : Int) := by omega
      have h5 : ((values.length : Int) - (k : Int)).toNat = values.length - k := by omega
      have h6 : ((values.length - k : Nat) : Int) = (values.length : Int) - (k : Int) := by omega
      rw [UpdateStreamOutBuffer.loop]
      simp only [hlt, if_true, hm, h1, if_false, h3, h4, call, hdev, ErrorCheck, ne_eq,
        not_true_eq_false, Int.toNat_ofNat, h5]
      rw [loop_finished dev run s values fuel _ _ (by omega)]
      simp [finalWrite, List.length_drop, h6, List.take_of_length_le]
    · have hk2 : k + m < values.length := by omega
      obtain ⟨cs, last, hrun, hjoin, hlen, h1, h2⟩ :=
        ih (k + m) (trace ++ [arrayWrite s ((values.drop k).take m)]) hk2 (by omega)
      refine ⟨(values.drop k).take m :: cs, last, ?_, ?_, ?_, h1, h2⟩
      · have h1 : (values.length : Int) - (k : Int) > (m : Int) := by omega
        have h3 : ¬ ((m : Int) < 0) := by omega
        have h4 : ¬ ((k : Int) + (m : Int) ≥ (values.length : Int)) := by omega
        have h7 : ((values.drop k).take m).length = m := by
          simp [List.length_take, List.length_drop]; omega
        rw [UpdateStreamOutBuffer.loop]
        simp only [hlt, if_true, hm, h1, h3, if_false, h4, call, hdev, ErrorCheck, ne_eq,
          not_true_eq_false, Int.toNat_ofNat, false_and]
        have hcast : ((k : Int) + (m : Int)) = ((k + m : Nat) : Int) := by push_cast; rfl
        rw [hcast]
        have hop : DevOp.eWriteNameArray s.handle s.bufferRegString (m : Int)
            ((values.drop k).take m) = arrayWrite s ((values.drop k).take m) := by
          simp [arrayWrite, h7]
        rw [hop, hrun]
        simp
      · simp only [List.flatten_cons, List.append_assoc, hjoin]
        rw [← List.drop_drop, List.take_append_drop]
      · intro c hc
        rcases List.mem_cons.mp hc with rfl | hc
        · simp [List.length_take, List.length_drop]; omega
        · exact hlen c hc

/-- A call on an empty state writes nothing and advances the index. -/
theorem update_empty (fuel : Nat) (dev : Device) (run : Bool) (s : StreamOut)
    (trace : List DevOp) (state : StateInfo) (hidx : 0 ≤ s.currentIndex)
    (hstate : s.states[s.currentIndex.toNat]? = some state) (hnil : state.values = []) :
    UpdateStreamOutBuffer fuel dev run s trace
      = Outcome.done { s with currentIndex := (s.currentIndex + 1) % (s.states.length : Int) }
          trace := by
  have h0 : ¬ s.currentIndex < 0 := by omega
  unfold UpdateStreamOutBuffer
  rw [if_neg h0, hstate]
  simp only
  rw [loop_finished dev run s state.values fuel 0 trace (by simp [hnil])]

/-- A call on a non-empty state, all writes succeeding: full chunks through
`LJM_eWriteNameArray`, then the rest with the set-loop value through
`LJM_eNames`. -/
theorem update_chunks (fuel : Nat) (dev : Device) (run : Bool) (s : StreamOut)
    (trace : List DevOp) (state : StateInfo) (m : Nat) (hidx : 0 ≤ s.currentIndex)
    (hstate : s.states[s.currentIndex.toNat]? = some state)
    (hm : s.maxSamples = (m : Int)) (hM : 1 ≤ m) (hdev : ∀ k, dev.err k = 0)
    (hfuel : state.values.length ≤ fuel) (hne : state.values ≠ []) :
    ∃ (cs : List (List ℚ)) (last : List ℚ),
      UpdateStreamOutBuffer fuel dev run s trace
          = Outcome.done
              { s with currentIndex := (s.currentIndex + 1) % (s.states.length : Int) }
              (trace ++ cs.map (arrayWrite s) ++ [finalWrite s last])
        ∧ cs.flatten ++ last = state.values
        ∧ (∀ c ∈ cs, c.length = m)
        ∧ 1 ≤ last.length ∧ last.length ≤ m := by
  have hpos : 0 < state.values.length := List.length_pos.mpr hne
  obtain ⟨cs, last, hrun, hjoin, hlen, h1, h2⟩ :=
    loop_chunks dev run s state.values m hm hM hdev fuel 0 trace hpos (by omega)
  refine ⟨cs, last, ?_, by simpa using hjoin, hlen, h1, h2⟩
  have h0 : ¬ s.currentIndex < 0 := by omega
  unfold UpdateStreamOutBuffer
  rw [if_neg h0, hstate]
  simp only
  have hrun2 : UpdateStreamOutBuffer.loop dev run s state.values fuel 0 trace
      = Outcome.done () (trace ++ cs.map (arrayWrite s) ++ [finalWrite s last]) := by
    simpa using hrun
  rw [hrun2]

/-- A call that returns has changed `currentIndex` and nothing else. -/
theorem update_done_eq (fuel : Nat) (dev : Device) (run : Bool) (s s1 : StreamOut)
    (trace trace1 : List DevOp)
    (h : UpdateStreamOutBuffer fuel dev run s trace = Outcome.done s1 trace1) :
    s1 = { s with currentIndex := (s.currentIndex + 1) % (s.states.length : Int) }
      ∧ 0 ≤ s.currentIndex ∧ s.currentIndex < (s.states.length : Int) := by
  unfold UpdateStreamOutBuffer at h
  by_cases h0 : s.currentIndex < 0
  · rw [if_pos h0] at h; cases h
  · rw [if_neg h0] at h
    cases hst : s.states[s.currentIndex.toNat]? with
    | none => rw [hst] at h; cases h
    | some state =>
      rw [hst] at h
      simp only at h
      have hlt : s.currentIndex.toNat < s.states.length := by
        rcases List.getElem?_eq_some.mp hst with ⟨hl, _⟩
        exact hl
      cases hl : UpdateStreamOutBuffer.loop dev run s state.values fuel 0 trace with
      | done u t =>
        rw [hl] at h
        simp only [Outcome.done.injEq] at h
        exact ⟨h.1.symm, by omega, by omega⟩
      | exited c t => rw [hl] at h; cases h
      | undefined t => rw [hl] at h; cases h
      | outOfFuel t => rw [hl] at h; cases h

theorem samplePayload_arrayWrite (s : StreamOut) (c : List ℚ) :
    samplePayload (arrayWrite s c) = c := by
  simp [samplePayload, arrayWrite]

theorem samplePayload_finalWrite (s : StreamOut) (c : List ℚ) :
    samplePayload (finalWrite s c) = c := by
  simp [samplePayload, finalWrite]

theorem flatten_payload_arrayWrite (s : StreamOut) (cs : List (List ℚ)) :
    ((cs.map (arrayWrite s)).map samplePayload).flatten = cs.flatten := by
  induction cs with
  | nil => rfl
  | cons c cs ih =>
    simp only [List.map_cons, List.flatten_cons, samplePayload_arrayWrite]
    rw [ih]

theorem length_flatten_uniform (m : Nat) (cs : List (List ℚ)) (h : ∀ c ∈ cs, c.length = m) :
    cs.flatten.length = cs.length * m := by
  induction cs with
  | nil => simp
  | cons c cs ih =>
    have hc : c.length = m := h c (List.mem_cons_self _ _)
    have hcs : cs.flatten.length = cs.length * m :=
      ih (fun d hd => h d (List.mem_cons_of_mem _ hd))
    simp only [List.flatten_cons, List.length_append, List.length_cons, hc, hcs]
    ring

/-- The ceiling of `(q * m + r) / m` is `q + 1` when `1 ≤ r ≤ m`. -/
theorem ceil_chunks (q m r : Nat) (h1 : 1 ≤ r) (h2 : r ≤ m) :
    ⌈(((q * m + r : Nat) : ℚ)) / ((m : Int) : ℚ)⌉ = (q : Int) + 1 := by
  have hm : (0 : ℚ) < (m : ℚ) := by exact_mod_cast (by omega : 0 < m)
  have hr1 : (1 : ℚ) ≤ (r : ℚ) := by exact_mod_cast h1
  have hr2 : (r : ℚ) ≤ (m : ℚ) := by exact_mod_cast h2
  rw [Int.ceil_eq_iff]
  push_cast
  constructor
  · rw [lt_div_iff₀ hm]
    linarith
  · rw [div_le_iff₀ hm]
    linarith

/-- Every successful call, in one statement: either the state is empty and
nothing is written, or the writes are full chunks followed by the final
two-register write. -/
theorem update_writes (fuel : Nat) (dev : Device) (run : Bool) (s : StreamOut)
    (trace : List DevOp) (state : StateInfo) (hidx : 0 ≤ s.currentIndex)
    (hstate : s.states[s.currentIndex.toNat]? = some state)
    (hM : 1 ≤ s.maxSamples) (hdev : ∀ k, dev.err k = 0)
    (hfuel : state.values.length ≤ fuel) :
    ∃ (ops : List DevOp),
      UpdateStreamOutBuffer fuel dev run s trace
          = Outcome.done
              { s with currentIndex := (s.currentIndex + 1) % (s.states.length : Int) }
              (trace ++ ops)
        ∧ ((state.values = [] ∧ ops = []) ∨
            ∃ (cs : List (List ℚ)) (last : List ℚ),
              ops = cs.map (arrayWrite s) ++ [finalWrite s last]
              ∧ cs.flatten ++ last = state.values
              ∧ (∀ c ∈ cs, (c.length : Int) = s.maxSamples)
              ∧ 1 ≤ last.length ∧ (last.length : Int) ≤ s.maxSamples
              ∧ (state.values.length : Int) = (cs.length : Int) * s.maxSamples + last.length
              ∧ ⌈((state.values.length : ℚ)) / ((s.maxSamples : Int) : ℚ)⌉
                  = (cs.length : Int) + 1) := by
  by_cases hnil : state.values = []
  · exact ⟨[], by simpa using update_empty fuel dev run s trace state hidx hstate hnil,
      Or.inl ⟨hnil, rfl⟩⟩
  · obtain ⟨m, hm⟩ : ∃ m : Nat, s.maxSamples = (m : Int) :=
      ⟨s.maxSamples.toNat, by omega⟩
    have hm1 : 1 ≤ m := by omega
    obtain ⟨cs, last, hrun, hjoin, hlen, h1, h2⟩ :=
      update_chunks fuel dev run s trace state m hidx hstate hm hm1 hdev hfuel hnil
    have hL : state.values.length = cs.length * m + last.length := by
      rw [← hjoin, List.length_append, length_flatten_uniform m cs hlen]
    refine ⟨cs.map (arrayWrite s) ++ [finalWrite s last], ?_, Or.inr ⟨cs, last, rfl, hjoin,
      ?_, h1, ?_, ?_, ?_⟩⟩
    · rw [hrun, List.append_assoc]
    · intro c hc
      rw [hm, hlen c hc]
    · rw [hm]; exact_mod_cast h2
    · rw [hm, hL]; push_cast; ring
    · rw [hm, hL]
      exact ceil_chunks cs.length m last.length h1 h2

/-! ## `GenerateState` in closed form -/

theorem generateState_loop (startVal changeInVal increment : ℚ) :
    ∀ (k : Nat) (i : Int) (values : List ℚ),
      GenerateState.loop startVal changeInVal increment k i values
        = values ++ (List.range k).map
            (fun (j : Nat) => startVal + changeInVal * increment * ((i + (j : Int) : Int) : ℚ)) := by
  intro k
  induction k with
  | zero => intro i values; simp [GenerateState.loop]
  | succ k ih =>
    intro i values
    rw [GenerateState.loop, ih, List.range_succ_eq_map, List.map_cons, List.map_map,
      List.append_assoc]
    congr 1
    simp only [List.singleton_append, Nat.cast_zero, add_zero, List.cons.injEq, true_and]
    apply List.map_congr_left
    intro j _
    simp only [Function.comp_apply, Nat.succ_eq_add_one, Nat.cast_add, Nat.cast_one]
    congr 3
    ring

theorem generateState_eq (stateSize : Int) (startVal changeInVal : ℚ) :
    GenerateState stateSize startVal changeInVal
      = (List.range stateSize.toNat).map
          (fun (j : Nat) => startVal + changeInVal * ((1 : ℚ) / (stateSize : ℚ)) * (j : ℚ)) := by
  unfold GenerateState
  rw [generateState_loop]
  simp

theorem generateState_length (stateSize : Int) (startVal changeInVal : ℚ) :
    (GenerateState stateSize startVal changeInVal).length = stateSize.toNat := by
  rw [generateState_eq, List.length_map, List.length_range]

theorem wideState_length : wideState.values.length = 256 := by
  unfold wideState
  rw [generateState_length]
  rfl

/-! ## Chunking (C1 to C4) -/

/-- C1: for every state and every chunk limit `maxSamples ≥ 1`, when all writes
succeed one `UpdateStreamOutBuffer` call returns, and the sample payloads of
the writes it issued, concatenated in call order (the appended set-loop value
left out), are exactly the values of `states[currentIndex]`. -/
theorem C1_payloads_concatenate (fuel : Nat) (dev : Device) (run : Bool) (s : StreamOut)
    (trace : List DevOp) (state : StateInfo) (hidx : 0 ≤ s.currentIndex)
    (hstate : s.states[s.currentIndex.toNat]? = some state)
    (hM : 1 ≤ s.maxSamples) (hdev : ∀ k, dev.err k = 0)
    (hfuel : state.values.length ≤ fuel) :
    ∃ (s1 : StreamOut) (ops : List DevOp),
      UpdateStreamOutBuffer fuel dev run s trace = Outcome.done s1 (trace ++ ops)
        ∧ (ops.map samplePayload).flatten = state.values := by
  obtain ⟨ops, hrun, hcases⟩ := update_writes fuel dev run s trace state hidx hstate hM hdev hfuel
  refine ⟨_, ops, hrun, ?_⟩
  rcases hcases with ⟨hnil, hops⟩ | ⟨cs, last, hops, hjoin, _⟩
  · rw [hops, hnil]; rfl
  · rw [hops, List.map_append, List.flatten_append, flatten_payload_arrayWrite, ← hjoin]
    simp [samplePayload_finalWrite]

theorem C1_payloads_concatenate_witness :
    (0 ≤ demoStream.currentIndex
      ∧ demoStream.states[demoStream.currentIndex.toNat]? = some demoState
      ∧ 1 ≤ demoStream.maxSamples ∧ (∀ k, okDevice.err k = 0)
      ∧ demoState.values.length ≤ 5)
    ∧ ∃ (s1 : StreamOut) (ops : List DevOp),
        UpdateStreamOutBuffer 5 okDevice true demoStream [] = Outcome.done s1 ([] ++ ops)
          ∧ (ops.map samplePayload).flatten = demoState.values :=
  ⟨⟨by decide, rfl, by decide, fun _ => rfl, by decide⟩,
    C1_payloads_concatenate 5 okDevice true demoStream [] demoState (by decide) rfl (by decide)
      (fun _ => rfl) (by decide)⟩

/-- C2: for every state length `L ≥ 0` and every `maxSamples = M ≥ 1`, one
`UpdateStreamOutBuffer` call in which every write succeeds issues exactly
`ceil(L / M)` device calls, each an `LJM_eWriteNameArray` or an `LJM_eNames`. -/
theorem C2_write_count (fuel : Nat) (dev : Device) (run : Bool) (s : StreamOut)
    (trace : List DevOp) (state : StateInfo) (hidx : 0 ≤ s.currentIndex)
    (hstate : s.states[s.currentIndex.toNat]? = some state)
    (hM : 1 ≤ s.maxSamples) (hdev : ∀ k, dev.err k = 0)
    (hfuel : state.values.length ≤ fuel) :
    ∃ (s1 : StreamOut) (ops : List DevOp),
      UpdateStreamOutBuffer fuel dev run s trace = Outcome.done s1 (trace ++ ops)
        ∧ (ops.length : Int) = ⌈((state.values.length : ℚ)) / ((s.maxSamples : Int) : ℚ)⌉
        ∧ ∀ op ∈ ops,
            (∃ h name n vals, op = DevOp.eWriteNameArray h name n vals)
            ∨ (∃ h k names writes nums vals, op = DevOp.eNames h k names writes nums vals) := by
  obtain ⟨ops, hrun, hcases⟩ := update_writes fuel dev run s trace state hidx hstate hM hdev hfuel
  refine ⟨_, ops, hrun, ?_⟩
  rcases hcases with ⟨hnil, hops⟩ | ⟨cs, last, hops, _, _, _, _, _, hceil⟩
  · rw [hops, hnil]; simp
  · rw [hceil, hops]
    refine ⟨by simp, ?_⟩
    intro op hop
    rcases List.mem_append.mp hop with h | h
    · obtain ⟨c, _, rfl⟩ := List.mem_map.mp h
      exact Or.inl ⟨_, _, _, _, rfl⟩
    · rw [List.mem_singleton] at h
      subst h
      exact Or.inr ⟨_, _, _, _, _, _, rfl⟩

theorem C2_write_count_witness :
    (0 ≤ demoStream.currentIndex
      ∧ demoStream.states[demoStream.currentIndex.toNat]? = some demoState
      ∧ 1 ≤ demoStream.maxSamples ∧ (∀ k, okDevice.err k = 0)
      ∧ demoState.values.length ≤ 5)
    ∧ ∃ (s1 : StreamOut) (ops : List DevOp),
        UpdateStreamOutBuffer 5 okDevice false demoStream [] = Outcome.done s1 ([] ++ ops)
          ∧ (ops.length : Int)
              = ⌈((demoState.values.length : ℚ)) / ((demoStream.maxSamples : Int) : ℚ)⌉
          ∧ ∀ op ∈ ops,
              (∃ h name n vals, op = DevOp.eWriteNameArray h name n vals)
              ∨ (∃ h k names writes nums vals,
                  op = DevOp.eNames h k names writes nums vals) :=
  ⟨⟨by decide, rfl, by decide, fun _ => rfl, by decide⟩,
    C2_write_count 5 okDevice false demoStream [] demoState (by decide) rfl (by decide)
      (fun _ => rfl) (by decide)⟩

/-- C3: for every non-empty state and `maxSamples ≥ 1`, the writes of one
successful `UpdateStreamOutBuffer` call are `LJM_eWriteNameArray` calls to the
buffer register alone, followed by exactly one `LJM_eNames` call, the last
one, which writes two registers: the buffer register with the remaining
samples, then the SET_LOOP register with the single value `setLoop`, appended
after the samples. -/
theorem C3_final_write_sets_loop (fuel : Nat) (dev : Device) (run : Bool) (s : StreamOut)
    (trace : List DevOp) (state : StateInfo) (hidx : 0 ≤ s.currentIndex)
    (hstate : s.states[s.currentIndex.toNat]? = some state)
    (hM : 1 ≤ s.maxSamples) (hdev : ∀ k, dev.err k = 0)
    (hfuel : state.values.length ≤ fuel) (hne : state.values ≠ []) :
    ∃ (s1 : StreamOut) (init : List DevOp) (last : List ℚ),
      UpdateStreamOutBuffer fuel dev run s trace
          = Outcome.done s1 (trace ++ (init ++
              [DevOp.eNames s.handle 2 [s.bufferRegString, s.setLoopRegString] [1, 1]
                [(last.length : Int), 1] (last ++ [(s.setLoop : ℚ)])]))
        ∧ (∀ op ∈ init, ∃ c : List ℚ,
            op = DevOp.eWriteNameArray s.handle s.bufferRegString (c.length : Int) c)
        ∧ last ≠ []
        ∧ (init.map samplePayload).flatten ++ last = state.values := by
  obtain ⟨ops, hrun, hcases⟩ := update_writes fuel dev run s trace state hidx hstate hM hdev hfuel
  rcases hcases with ⟨hnil, _⟩ | ⟨cs, last, hops, hjoin, _, h1, _⟩
  · exact absurd hnil hne
  · refine ⟨{ s with currentIndex := (s.currentIndex + 1) % (s.states.length : Int) },
      cs.map (arrayWrite s), last, ?_, ?_, ?_, ?_⟩
    · rw [hrun, hops]; rfl
    · intro op hop
      obtain ⟨c, _, rfl⟩ := List.mem_map.mp hop
      exact ⟨c, rfl⟩
    · intro h; rw [h] at h1; simp at h1
    · rw [flatten_payload_arrayWrite, hjoin]

theorem C3_final_write_sets_loop_witness :
    (0 ≤ demoStream.currentIndex
      ∧ demoStream.states[demoStream.currentIndex.toNat]? = some demoState
      ∧ 1 ≤ demoStream.maxSamples ∧ (∀ k, okDevice.err k = 0)
      ∧ demoState.values.length ≤ 5 ∧ demoState.values ≠ [])
    ∧ ∃ (s1 : StreamOut) (init : List DevOp) (last : List ℚ),
        UpdateStreamOutBuffer 5 okDevice true demoStream []
            = Outcome.done s1 ([] ++ (init ++
                [DevOp.eNames demoStream.handle 2
                  [demoStream.bufferRegString, demoStream.setLoopRegString] [1, 1]
                  [(last.length : Int), 1] (last ++ [(demoStream.setLoop : ℚ)])]))
          ∧ (∀ op ∈ init, ∃ c : List ℚ,
              op = DevOp.eWriteNameArray demoStream.handle demoStream.bufferRegString
                (c.length : Int) c)
          ∧ last ≠ []
          ∧ (init.map samplePayload).flatten ++ last = demoState.values :=
  ⟨⟨by decide, rfl, by decide, fun _ => rfl, by decide, by simp [demoState]⟩,
    C3_final_write_sets_loop 5 okDevice true demoStream [] demoState (by decide) rfl
      (by decide) (fun _ => rfl) (by decide) (by simp [demoState])⟩

/-- C4: for every state length `L ≥ 1` and `maxSamples = M ≥ 1`, every chunk
written by a successful `UpdateStreamOutBuffer` call carries at least 1 and at
most `M` samples, every chunk but the last carries exactly `M`, and the last
carries `L - M * (ceil(L / M) - 1)`; with `L = 256` and `M = 130` the call
issues exactly two writes, 130 samples through `LJM_eWriteNameArray` and then
126 samples followed by the set-loop value through `LJM_eNames`. -/
theorem C4_chunk_sizes (fuel : Nat) (dev : Device) (run : Bool) (s : StreamOut)
    (trace : List DevOp) (state : StateInfo) (hidx : 0 ≤ s.currentIndex)
    (hstate : s.states[s.currentIndex.toNat]? = some state)
    (hM : 1 ≤ s.maxSamples) (hdev : ∀ k, dev.err k = 0)
    (hfuel : state.values.length ≤ fuel) (hL : 1 ≤ state.values.length) :
    (∃ (s1 : StreamOut) (ops : List DevOp) (hops : ops ≠ []),
      UpdateStreamOutBuffer fuel dev run s trace = Outcome.done s1 (trace ++ ops)
        ∧ (∀ op ∈ ops, 1 ≤ (samplePayload op).length
            ∧ ((samplePayload op).length : Int) ≤ s.maxSamples)
        ∧ (∀ op ∈ ops.dropLast, ((samplePayload op).length : Int) = s.maxSamples)
        ∧ ((samplePayload (ops.getLast hops)).length : Int)
            = (state.values.length : Int) - s.maxSamples
                * (⌈((state.values.length : ℚ)) / ((s.maxSamples : Int) : ℚ)⌉ - 1))
    ∧ (s.maxSamples = 130 → state.values.length = 256 →
        ∃ s1 : StreamOut,
          UpdateStreamOutBuffer fuel dev run s trace
            = Outcome.done s1 (trace ++
                [DevOp.eWriteNameArray s.handle s.bufferRegString 130 (state.values.take 130),
                 DevOp.eNames s.handle 2 [s.bufferRegString, s.setLoopRegString] [1, 1]
                   [126, 1] (state.values.drop 130 ++ [(s.setLoop : ℚ)])])) := by
  obtain ⟨ops, hrun, hcases⟩ := update_writes fuel dev run s trace state hidx hstate hM hdev hfuel
  rcases hcases with ⟨hnil, _⟩ | ⟨cs, last, hops, hjoin, hlen, h1, h2, hsum, hceil⟩
  · rw [hnil] at hL; simp at hL
  · constructor
    · refine ⟨{ s with currentIndex := (s.currentIndex + 1) % (s.states.length : Int) },
        ops, by rw [hops]; simp, hrun, ?_, ?_, ?_⟩
      · intro op hop
        rw [hops] at hop
        rcases List.mem_append.mp hop with h | h
        · obtain ⟨c, hc, rfl⟩ := List.mem_map.mp h
          rw [samplePayload_arrayWrite]
          have := hlen c hc
          exact ⟨by omega, by omega⟩
        · rw [List.mem_singleton] at h
          subst h
          rw [samplePayload_finalWrite]
          exact ⟨h1, h2⟩
      · intro op hop
        rw [hops, List.dropLast_concat] at hop
        obtain ⟨c, hc, rfl⟩ := List.mem_map.mp hop
        rw [samplePayload_arrayWrite]
        exact hlen c hc
      · have hlast : ops.getLast (by rw [hops]; simp) = finalWrite s last := by
          simp [hops]
        rw [hlast, samplePayload_finalWrite, hceil, hsum]
        ring
    · intro h130 h256
      rw [h130, h256] at hsum
      have hq : cs.length = 1 := by omega
      have hr : last.length = 126 := by omega
      obtain ⟨c, rfl⟩ : ∃ c, cs = [c] := List.length_eq_one.mp hq
      have hc : c.length = 130 := by
        have := hlen c (List.mem_singleton_self c)
        omega
      have hjoin2 : c ++ last = state.values := by simpa using hjoin
      have e1 : state.values.take 130 = c := by
        rw [← hjoin2]; exact List.take_left' hc
      have e2 : state.values.drop 130 = last := by
        rw [← hjoin2]; exact List.drop_left' hc
      refine ⟨{ s with currentIndex := (s.currentIndex + 1) % (s.states.length : Int) }, ?_⟩
      rw [hrun, hops, e1, e2]
      simp [arrayWrite, finalWrite, hc, hr]

theorem C4_chunk_sizes_witness :
    (0 ≤ wideStream.currentIndex
      ∧ wideStream.states[wideStream.currentIndex.toNat]? = some wideState
      ∧ 1 ≤ wideStream.maxSamples ∧ (∀ k, okDevice.err k = 0)
      ∧ wideState.values.length ≤ 256 ∧ 1 ≤ wideState.values.length)
    ∧ ∃ s1 : StreamOut,
        UpdateStreamOutBuffer 256 okDevice true wideStream []
          = Outcome.done s1 ([] ++
              [DevOp.eWriteNameArray wideStream.handle wideStream.bufferRegString 130
                 (wideState.values.take 130),
               DevOp.eNames wideStream.handle 2
                 [wideStream.bufferRegString, wideStream.setLoopRegString] [1, 1]
                 [126, 1] (wideState.values.drop 130 ++ [(wideStream.setLoop : ℚ)])]) :=
  ⟨⟨by decide, rfl, by decide, fun _ => rfl, by simp [wideState_length],
      by simp [wideState_length]⟩,
    (C4_chunk_sizes 256 okDevice true wideStream [] wideState (by decide) rfl (by decide)
      (fun _ => rfl) (by simp [wideState_length]) (by simp [wideState_length])).2 rfl
      wideState_length⟩

/-! ## Payload bound (C5) -/

/-- The three ways `PrepareForExit` can end. -/
theorem prepareForExit_cases (dev : Device) (handle : Int) (trace : List DevOp) :
    PrepareForExit dev handle trace
        = Outcome.exited (dev.err trace.length) (trace ++ [DevOp.eStreamStop handle])
      ∨ PrepareForExit dev handle trace
        = Outcome.exited (dev.err (trace.length + 1))
            (trace ++ [DevOp.eStreamStop handle, DevOp.close handle])
      ∨ PrepareForExit dev handle trace
        = Outcome.done () (trace ++ [DevOp.eStreamStop handle, DevOp.close handle]) := by
  unfold PrepareForExit
  simp only [call, ErrorCheck, List.length_append, List.length_singleton, List.append_assoc,
    List.singleton_append]
  by_cases e1 : dev.err trace.length = 0
  · by_cases e2 : dev.err (trace.length + 1) = 0
    · simp [e1, e2]
    · simp [e1, e2]
  · simp [e1]

/-- Whatever the device answers, every call the loop issues carries at most
`maxSamples + 1` values. -/
theorem loop_values_bounded (dev : Device) (run : Bool) (s : StreamOut) (values : List ℚ)
    (hM : 0 ≤ s.maxSamples) :
    ∀ (fuel : Nat) (start : Int) (trace : List DevOp),
      ∃ ops : List DevOp,
        (UpdateStreamOutBuffer.loop dev run s values fuel start trace).trace = trace ++ ops
          ∧ ∀ op ∈ ops, ((aValuesOf op).length : Int) ≤ s.maxSamples + 1 := by
  intro fuel
  induction fuel with
  | zero =>
    intro start trace
    refine ⟨[], ?_, by simp⟩
    unfold UpdateStreamOutBuffer.loop
    split <;> simp [Outcome.trace]
  | succ fuel ih =>
    intro start trace
    rw [UpdateStreamOutBuffer.loop]
    by_cases hlt : start < (values.length : Int)
    · simp only [hlt, if_true]
      generalize hn : (if (values.length : Int) - start > s.maxSamples then s.maxSamples
        else (values.length : Int) - start) = n
      have hnM : n ≤ s.maxSamples := by
        rw [← hn]; split <;> omega
      by_cases hneg : n < 0
      · exact ⟨[], by simp [hneg, Outcome.trace], by simp⟩
      · simp only [hneg, if_false]
        have hlen : (((values.drop start.toNat).take n.toNat).length : Int) ≤ s.maxSamples := by
          have := List.length_take_le n.toNat (values.drop start.toNat)
          omega
        have step : ∀ op0 : DevOp, ((aValuesOf op0).length : Int) ≤ s.maxSamples + 1 →
            ∃ ops : List DevOp,
              (UpdateStreamOutBuffer.loop dev run s values fuel (start + n)
                  (trace ++ [op0])).trace = trace ++ ops
                ∧ ∀ op ∈ ops, ((aValuesOf op).length : Int) ≤ s.maxSamples + 1 := by
          intro op0 hb
          obtain ⟨ops, h1, h2⟩ := ih (start + n) (trace ++ [op0])
          refine ⟨op0 :: ops, by rw [h1]; simp, ?_⟩
          intro op hop
          rcases List.mem_cons.mp hop with rfl | hop
          · exact hb
          · exact h2 op hop
        have stop : ∀ (code : Int) (ops : List DevOp),
            (∀ op ∈ ops, ((aValuesOf op).length : Int) ≤ s.maxSamples + 1) →
            ∃ ops1 : List DevOp,
              (Outcome.exited code (trace ++ ops) : Outcome Unit).trace = trace ++ ops1
                ∧ ∀ op ∈ ops1, ((aValuesOf op).length : Int) ≤ s.maxSamples + 1 :=
          fun code ops h => ⟨ops, rfl, h⟩
        by_cases hend : start + n ≥ (values.length : Int)
        · simp only [hend, if_true, call, ErrorCheck]
          have hb : ((aValuesOf (DevOp.eNames s.handle 2
              [s.bufferRegString, s.setLoopRegString] [1, 1] [n, 1]
              ((values.drop start.toNat).take n.toNat ++ [(s.setLoop : ℚ)]))).length : Int)
              ≤ s.maxSamples + 1 := by
            simp only [aValuesOf, List.length_append, List.length_singleton]
            push_cast
            omega
          by_cases herr : dev.err trace.length = 0
          · simp only [herr, ne_eq, not_true_eq_false, if_false]
            exact step _ hb
          · simp only [herr, ne_eq, not_false_eq_true, if_true]
            exact stop _ [_] (by simpa using hb)
        · simp only [hend, if_false, call, ErrorCheck]
          have hb : ((aValuesOf (DevOp.eWriteNameArray s.handle s.bufferRegString n
              ((values.drop start.toNat).take n.toNat))).length : Int) ≤ s.maxSamples + 1 := by
            simp only [aValuesOf]
            omega
          by_cases herr : dev.err trace.length = 0
          · simp only [herr, ne_eq, not_true_eq_false, false_and, if_false]
            exact step _ hb
          · by_cases hrun : run = true
            · simp only [herr, hrun, ne_eq, not_false_eq_true, and_self, if_true]
              rcases prepareForExit_cases dev s.handle (trace ++
                [DevOp.eWriteNameArray s.handle s.bufferRegString n
                  ((values.drop start.toNat).take n.toNat)]) with h | h | h
              all_goals
                rw [h]
                simp only [List.append_assoc, List.singleton_append]
                refine stop _ _ ?_
                intro op hop
                simp only [List.mem_cons, List.mem_singleton, List.not_mem_nil, or_false] at hop
                rcases hop with rfl | rfl | rfl <;> first | exact hb | (simp [aValuesOf]; omega)
            · simp only [herr, hrun, ne_eq, not_false_eq_true, and_false, if_false, if_true]
              exact stop _ [_] (by simpa using hb)
    · exact ⟨[], by simp [hlt, Outcome.trace], by simp⟩

/-! ## The constructor -/

theorem convert_done (lib : Lib) (s s1 : StreamOut) (trace trace1 : List DevOp)
    (h : ConvertNameToOutBufferTypeStr lib s trace = Outcome.done s1 trace1) :
    ∃ tts : String, s1 = { s with targetTypeString := tts } := by
  unfold ConvertNameToOutBufferTypeStr ErrorCheck at h
  simp only at h
  split_ifs at h <;> cases h <;> exact ⟨_, rfl⟩

/-- The fields of a manager whose construction returned. -/
theorem new_done_fields (fuel : Nat) (lib : Lib) (dev : Device) (info : StreamInfo)
    (handle : Int) (trace : List DevOp) (s : StreamOut) (t : List DevOp)
    (h : StreamOut.new fuel lib dev info handle trace = Outcome.done s t) :
    s.stateSize = (info.bufferNumBytes.tdiv 2).tdiv 2
      ∧ s.maxBytes = (if lib.maxBytes > 524 then 524 else lib.maxBytes)
      ∧ s.maxSamples = (toInt32 (s.maxBytes - 12)).tdiv 4 - 1
      ∧ s.states =
          [{ stateString := "increase from 0.0 to 2.5",
             values := GenerateState s.stateSize 0 (5 / 2) },
           { stateString := "decrease from 5.0 to 2.5",
             values := GenerateState s.stateSize 5 (-(5 / 2)) }]
      ∧ s.currentIndex = 1 := by
  unfold StreamOut.new at h
  simp only at h
  split at h
  · cases h
  · cases h
  · cases h
  · rename_i s1 t1 hconv
    obtain ⟨tts, rfl⟩ := convert_done _ _ _ _ _ hconv
    unfold ErrorCheck at h
    by_cases herr : (lib.nameToAddress info.target).1 = 0
    · simp only [herr, ne_eq, not_true_eq_false, if_false] at h
      split at h
      · cases h
      · cases h
      · cases h
      · obtain ⟨rfl, _, _⟩ := update_done_eq _ _ _ _ _ _ _ h
        simp [CreateStreamOutNames, StreamOut.blank, BYTES_PER_VALUE]
    · simp only [herr, ne_eq, not_false_eq_true, if_true] at h
      cases h

/-- The construction from `demoLib` and `demoInfo` on an always-succeeding
device returns `demoStream` after the calls of `demoTrace`. -/
theorem demo_new :
    StreamOut.new 5 demoLib okDevice demoInfo 7 [] = Outcome.done demoStream demoTrace := by
  have e1 : Int.tdiv 20 2 = 10 := rfl
  have e2 : Int.tdiv 10 2 = 5 := rfl
  have e3 : Int.tdiv 12 4 = 3 := rfl
  have t2 : Int.toNat 2 = 2 := rfl
  have t4 : Int.toNat 4 = 4 := rfl
  have n1 : "STREAM_OUT" ++ "0" = "STREAM_OUT0" := by decide
  have n2 : "STREAM_OUT0" ++ "_TARGET" = "STREAM_OUT0_TARGET" := by decide
  have n3 : "STREAM_OUT0" ++ "_BUFFER_SIZE" = "STREAM_OUT0_BUFFER_SIZE" := by decide
  have n4 : "STREAM_OUT0" ++ "_LOOP_SIZE" = "STREAM_OUT0_LOOP_SIZE" := by decide
  have n5 : "STREAM_OUT0" ++ "_SET_LOOP" = "STREAM_OUT0_SET_LOOP" := by decide
  have n6 : "STREAM_OUT0" ++ "_BUFFER_STATUS" = "STREAM_OUT0_BUFFER_STATUS" := by decide
  have n7 : "STREAM_OUT0" ++ "_ENABLE" = "STREAM_OUT0_ENABLE" := by decide
  have n8 : "STREAM_OUT0" ++ "_BUFFER_" = "STREAM_OUT0_BUFFER_" := by decide
  have n9 : "STREAM_OUT0_BUFFER_" ++ "F32" = "STREAM_OUT0_BUFFER_F32" := by decide
  norm_num [StreamOut.new, ConvertNameToOutBufferTypeStr, demoLib, demoInfo, ErrorCheck,
    CreateStreamOutNames, InitializeStreamOut, call,
    okDevice, UpdateStreamOutBuffer, UpdateStreamOutBuffer.loop, GenerateState,
    GenerateState.loop, StreamOut.blank, BYTES_PER_VALUE, toInt32, e1, e2, e3, t2, t4, n1, n2, n3,
    n4, n5, n6,
    n7, n8, n9, demoStream, demoTrace]

/-! ## Completion of the constructor -/

theorem update_returns (fuel : Nat) (dev : Device) (run : Bool) (s : StreamOut)
    (trace : List DevOp) (h0 : 0 ≤ s.currentIndex)
    (h1 : s.currentIndex < (s.states.length : Int)) (hM : 1 ≤ s.maxSamples)
    (hdev : ∀ k, dev.err k = 0) (hfuel : ∀ st ∈ s.states, st.values.length ≤ fuel) :
    ∃ (s1 : StreamOut) (t1 : List DevOp),
      UpdateStreamOutBuffer fuel dev run s trace = Outcome.done s1 t1 := by
  have hlt : s.currentIndex.toNat < s.states.length := by omega
  have hstate : s.states[s.currentIndex.toNat]? = some (s.states[s.currentIndex.toNat]) :=
    List.getElem?_eq_getElem hlt
  obtain ⟨ops, hrun, _⟩ := update_writes fuel dev run s trace _ h0 hstate hM hdev
    (hfuel _ (List.getElem_mem _))
  exact ⟨_, _, hrun⟩

theorem convert_ok (lib : Lib) (s : StreamOut) (trace : List DevOp)
    (hlib : (lib.nameToAddress s.target).1 = 0) :
    ∃ tts : String,
      ConvertNameToOutBufferTypeStr lib s trace
        = Outcome.done { s with targetTypeString := tts } trace := by
  unfold ConvertNameToOutBufferTypeStr ErrorCheck
  simp only [hlib, ne_eq, not_true_eq_false, if_false]
  split_ifs <;> exact ⟨_, rfl⟩

theorem init_stream_out_ok (dev : Device) (s : StreamOut) (trace : List DevOp)
    (hdev : ∀ k, dev.err k = 0) :
    ∃ t1 : List DevOp, InitializeStreamOut dev s trace = Outcome.done () t1 := by
  unfold InitializeStreamOut
  simp only [call, ErrorCheck, hdev, ne_eq, not_true_eq_false, if_false]
  exact ⟨_, rfl⟩

/-- The constructor returns when the target name resolves, the connection
reports at least 20 bytes, every device call succeeds and the fuel covers one
state. -/
theorem new_returns (fuel : Nat) (lib : Lib) (dev : Device) (info : StreamInfo)
    (handle : Int) (trace : List DevOp) (hlib : (lib.nameToAddress info.target).1 = 0)
    (hB : 20 ≤ lib.maxBytes) (hdev : ∀ k, dev.err k = 0)
    (hfuel : ((info.bufferNumBytes.tdiv 2).tdiv 2).toNat ≤ fuel) :
    ∃ (s : StreamOut) (t : List DevOp),
      StreamOut.new fuel lib dev info handle trace = Outcome.done s t := by
  unfold StreamOut.new
  simp only
  obtain ⟨tts, hconv⟩ := convert_ok lib
    { StreamOut.blank with
      currentIndex := 0
      streamOutRegString := "STREAM_OUT"
      handle := handle
      bufferNumBytes := info.bufferNumBytes
      stateSize := (info.bufferNumBytes.tdiv BYTES_PER_VALUE).tdiv 2
      target := info.target
      setLoop := info.setLoop
      streamOutIndex := info.indexString } trace hlib
  rw [hconv]
  simp only [ErrorCheck, hlib, ne_eq, not_true_eq_false, if_false]
  obtain ⟨t1, hinit⟩ := init_stream_out_ok dev _ trace hdev
  rw [hinit]
  simp only
  apply update_returns
  · simp [CreateStreamOutNames]
  · simp [CreateStreamOutNames, StreamOut.blank]
  · simp only [CreateStreamOutNames]
    have hdiv : ∀ b : Int, 20 ≤ b → b ≤ 524 → 1 ≤ (toInt32 (b - 12)).tdiv 4 - 1 := by
      intro b h1 h2
      rw [toInt32_eq _ (by omega) (by omega), Int.tdiv_eq_ediv (by omega) (by omega)]
      omega
    split_ifs
    · exact hdiv 524 (by omega) (by omega)
    · exact hdiv lib.maxBytes hB (by omega)
  · exact hdev
  · intro st hst
    simp only [CreateStreamOutNames, StreamOut.blank, List.nil_append, List.cons_append,
      List.mem_cons, List.mem_singleton, List.not_mem_nil, or_false] at hst
    rcases hst with rfl | rfl
    · simp only [generateState_length]
      exact hfuel
    · simp only [generateState_length]
      exact hfuel

/-- Whatever the device answers and however the call ends, every call issued
by `UpdateStreamOutBuffer` carries at most `maxSamples + 1` values. -/
theorem update_values_bounded (fuel : Nat) (dev : Device) (run : Bool) (s : StreamOut)
    (trace : List DevOp) (hM : 0 ≤ s.maxSamples) :
    ∃ ops : List DevOp,
      (UpdateStreamOutBuffer fuel dev run s trace).trace = trace ++ ops
        ∧ ∀ op ∈ ops, ((aValuesOf op).length : Int) ≤ s.maxSamples + 1 := by
  unfold UpdateStreamOutBuffer
  by_cases h0 : s.currentIndex < 0
  · exact ⟨[], by simp [h0, Outcome.trace], by simp⟩
  · rw [if_neg h0]
    cases hst : s.states[s.currentIndex.toNat]? with
    | none => exact ⟨[], by simp [Outcome.trace], by simp⟩
    | some state =>
      simp only
      obtain ⟨ops, h1, h2⟩ := loop_values_bounded dev run s state.values hM fuel 0 trace
      refine ⟨ops, ?_, h2⟩
      cases hl : UpdateStreamOutBuffer.loop dev run s state.values fuel 0 trace <;>
        (rw [hl] at h1; simpa [Outcome.trace] using h1)

/-- C5: on a connection that reports `maxBytes ≥ 20`, every call issued by
`UpdateStreamOutBuffer` on a constructed manager (in any later state, for any
device answers, however the call ends) carries a number `v` of values, samples
plus the set-loop value on the final write, with
`12 + 4 * v ≤ min(maxBytes, 524)`, where 12 is `NUM_HEADER_BYTES` and 4 is
`NUM_BYTES_PER_F32`.  The construction does return when the target resolves,
the device accepts every call and the fuel covers one state. -/
theorem C5_payload_within_max_bytes (fuel0 : Nat) (lib : Lib) (dev0 : Device)
    (info : StreamInfo) (handle : Int) (trace0 : List DevOp) (hB : 20 ≤ lib.maxBytes) :
    (∀ (s0 : StreamOut) (t0 : List DevOp),
        StreamOut.new fuel0 lib dev0 info handle trace0 = Outcome.done s0 t0 →
        ∀ (fuel : Nat) (dev : Device) (run : Bool) (s : StreamOut) (trace : List DevOp),
          s.maxSamples = s0.maxSamples →
          ∃ ops : List DevOp,
            (UpdateStreamOutBuffer fuel dev run s trace).trace = trace ++ ops
              ∧ ∀ op ∈ ops,
                  12 + 4 * ((aValuesOf op).length : Int) ≤ min lib.maxBytes 524)
    ∧ ((lib.nameToAddress info.target).1 = 0 → (∀ k, dev0.err k = 0) →
        ((info.bufferNumBytes.tdiv 2).tdiv 2).toNat ≤ fuel0 →
        ∃ (s0 : StreamOut) (t0 : List DevOp),
          StreamOut.new fuel0 lib dev0 info handle trace0 = Outcome.done s0 t0) := by
  constructor
  · intro s0 t0 hnew fuel dev run s trace hs
    obtain ⟨_, hmb, hms, _, _⟩ := new_done_fields fuel0 lib dev0 info handle trace0 s0 t0 hnew
    have hmin : s0.maxBytes = min lib.maxBytes 524 := by
      rw [hmb]; split <;> omega
    have hwrap : toInt32 (s0.maxBytes - 12) = s0.maxBytes - 12 :=
      toInt32_eq _ (by omega) (by omega)
    have hdiv : (s0.maxBytes - 12).tdiv 4 = (s0.maxBytes - 12) / 4 :=
      Int.tdiv_eq_ediv (by omega) (by omega)
    rw [hwrap, hdiv] at hms
    obtain ⟨ops, h1, h2⟩ := update_values_bounded fuel dev run s trace (by omega)
    refine ⟨ops, h1, ?_⟩
    intro op hop
    have := h2 op hop
    omega
  · intro hlib hdev hfuel
    exact new_returns fuel0 lib dev0 info handle trace0 hlib hB hdev hfuel

theorem C5_payload_within_max_bytes_witness :
    20 ≤ demoLib.maxBytes
    ∧ ∃ ops : List DevOp,
        (UpdateStreamOutBuffer 5 (failAt 9 1) true demoStream demoTrace).trace
            = demoTrace ++ ops
          ∧ ∀ op ∈ ops, 12 + 4 * ((aValuesOf op).length : Int) ≤ min demoLib.maxBytes 524 :=
  ⟨by decide,
    (C5_payload_within_max_bytes 5 demoLib okDevice demoInfo 7 [] (by decide)).1
      demoStream demoTrace demo_new 5 (failAt 9 1) true demoStream demoTrace rfl⟩

/-! ## Failure of a chunk write while the stream runs (C6) -/

/-- C6: a chunk write that fails while the stream runs.  With a state of 5
samples and 2 samples per write, a device that rejects the third write (the
final `LJM_eNames` chunk) makes `UpdateStreamOutBuffer` exit through
`ErrorCheck` right after that write: neither `LJM_eStreamStop` nor `LJM_Close`
is issued.  When it is the second write (an intermediate
`LJM_eWriteNameArray` chunk) that is rejected, `PrepareForExit` stops the
stream and closes the device before the exit. -/
theorem C6_final_chunk_failure_skips_shutdown :
    UpdateStreamOutBuffer 5 (failAt 2 1) true demoStream []
        = Outcome.exited 1
            [DevOp.eWriteNameArray 7 "STREAM_OUT0_BUFFER_F32" 2 [5, 9 / 2],
             DevOp.eWriteNameArray 7 "STREAM_OUT0_BUFFER_F32" 2 [4, 7 / 2],
             DevOp.eNames 7 2 ["STREAM_OUT0_BUFFER_F32", "STREAM_OUT0_SET_LOOP"] [1, 1] [1, 1]
               [3, 2]]
      ∧ UpdateStreamOutBuffer 5 (failAt 1 1) true demoStream []
        = Outcome.exited 1
            [DevOp.eWriteNameArray 7 "STREAM_OUT0_BUFFER_F32" 2 [5, 9 / 2],
             DevOp.eWriteNameArray 7 "STREAM_OUT0_BUFFER_F32" 2 [4, 7 / 2],
             DevOp.eStreamStop 7, DevOp.close 7] := by
  have t2 : Int.toNat 2 = 2 := rfl
  have t4 : Int.toNat 4 = 4 := rfl
  constructor <;>
    norm_num [UpdateStreamOutBuffer, UpdateStreamOutBuffer.loop, demoStream, failAt, call,
      ErrorCheck, PrepareForExit, t2, t4]

/-! ## State cycling (C7) -/

/-- Successive successful updates: the index after `n` calls and the indices
written by them. -/
theorem flushStates_index (fuel : Nat) (dev : Device) (run : Bool)
    (hdev : ∀ k, dev.err k = 0) :
    ∀ (n : Nat) (s : StreamOut) (trace : List DevOp),
      0 ≤ s.currentIndex → s.currentIndex < (s.states.length : Int) → 1 ≤ s.maxSamples →
      (∀ st ∈ s.states, st.values.length ≤ fuel) →
      ∃ t1 : List DevOp,
        flushStates fuel dev run n s trace
          = Outcome.done
              ({ s with currentIndex := (s.currentIndex + (n : Int)) % (s.states.length : Int) },
               (List.range n).map
                 (fun (k : Nat) => (s.currentIndex + (k : Int)) % (s.states.length : Int)))
              t1 := by
  intro n
  induction n with
  | zero =>
    intro s trace h0 h1 _ _
    refine ⟨trace, ?_⟩
    have e : (s.currentIndex + ((0 : Nat) : Int)) % (s.states.length : Int) = s.currentIndex := by
      simp only [Nat.cast_zero, add_zero]
      exact Int.emod_eq_of_lt h0 h1
    rw [e]
    rfl
  | succ n ih =>
    intro s trace h0 h1 hM hfuel
    have hlt : s.currentIndex.toNat < s.states.length := by omega
    have hstate : s.states[s.currentIndex.toNat]? = some (s.states[s.currentIndex.toNat]) :=
      List.getElem?_eq_getElem hlt
    obtain ⟨ops, hrun, _⟩ := update_writes fuel dev run s trace _ h0 hstate hM hdev
      (hfuel _ (List.getElem_mem _))
    have hN : (0 : Int) < (s.states.length : Int) := by omega
    obtain ⟨t1, hrest⟩ := ih
      { s with currentIndex := (s.currentIndex + 1) % (s.states.length : Int) } (trace ++ ops)
      (Int.emod_nonneg _ (by omega)) (Int.emod_lt_of_pos _ hN) hM hfuel
    refine ⟨t1, ?_⟩
    rw [flushStates, hrun]
    simp only
    rw [hrest]
    simp only [Outcome.done.injEq, Prod.mk.injEq, and_true]
    constructor
    · have e : ((s.currentIndex + 1) % (s.states.length : Int) + (n : Int))
          % (s.states.length : Int)
          = (s.currentIndex + ((n + 1 : Nat) : Int)) % (s.states.length : Int) := by
        rw [Int.emod_add_emod]
        congr 1
        push_cast
        ring
      rw [e]
    · rw [List.range_succ_eq_map, List.map_cons, List.map_map]
      congr 1
      · simp only [Nat.cast_zero, add_zero]
        exact (Int.emod_eq_of_lt h0 h1).symm
      · apply List.map_congr_left
        intro k _
        simp only [Function.comp_apply, Nat.succ_eq_add_one]
        rw [Int.emod_add_emod]
        congr 1
        push_cast
        ring

/-- C7: every `UpdateStreamOutBuffer` call that returns has set `currentIndex`
to `(currentIndex + 1) mod N` and changed nothing else; with `N ≥ 1` states,
`maxSamples ≥ 1` and all writes succeeding each call does return, so `n`
successive calls from index `c` end at `(c + n) mod N` after writing the
states of indices `c mod N, (c + 1) mod N, ...`.  Hence from index 0 the index
is 0 again after `N` calls, and with 2 states the indices written are
0, 1, 0, 1, ... -/
theorem C7_index_cycles (fuel : Nat) (dev : Device) (run : Bool) (s : StreamOut)
    (trace : List DevOp) (hN : 1 ≤ s.states.length) (hM : 1 ≤ s.maxSamples)
    (hdev : ∀ k, dev.err k = 0) (hfuel : ∀ st ∈ s.states, st.values.length ≤ fuel) :
    (∀ (dev1 : Device) (run1 : Bool) (s0 s1 : StreamOut) (tr0 tr1 : List DevOp),
        UpdateStreamOutBuffer fuel dev1 run1 s0 tr0 = Outcome.done s1 tr1 →
        s1 = { s0 with currentIndex := (s0.currentIndex + 1) % (s0.states.length : Int) })
    ∧ (0 ≤ s.currentIndex → s.currentIndex < (s.states.length : Int) →
        ∀ n : Nat, ∃ t1 : List DevOp,
          flushStates fuel dev run n s trace
            = Outcome.done
                ({ s with
                    currentIndex := (s.currentIndex + (n : Int)) % (s.states.length : Int) },
                 (List.range n).map
                   (fun (k : Nat) => (s.currentIndex + (k : Int)) % (s.states.length : Int)))
                t1)
    ∧ (s.currentIndex = 0 → ∃ t1 : List DevOp,
        flushStates fuel dev run s.states.length s trace
          = Outcome.done (s, (List.range s.states.length).map (fun (k : Nat) => (k : Int))) t1)
    ∧ (s.currentIndex = 0 → s.states.length = 2 → ∀ n : Nat, ∃ t1 : List DevOp,
        flushStates fuel dev run n s trace
          = Outcome.done
              ({ s with currentIndex := (n : Int) % 2 },
               (List.range n).map (fun (k : Nat) => (k : Int) % 2)) t1) := by
  have hpos : (0 : Int) < (s.states.length : Int) := by omega
  refine ⟨?_, ?_, ?_, ?_⟩
  · intro dev1 run1 s0 s1 tr0 tr1 h
    exact (update_done_eq fuel dev1 run1 s0 s1 tr0 tr1 h).1
  · intro h0 h1 n
    exact flushStates_index fuel dev run hdev n s trace h0 h1 hM hfuel
  · intro hc
    obtain ⟨t1, h⟩ := flushStates_index fuel dev run hdev s.states.length s trace
      (by omega) (by omega) hM hfuel
    refine ⟨t1, ?_⟩
    rw [h]
    simp only [Outcome.done.injEq, Prod.mk.injEq, and_true]
    constructor
    · have e : (s.currentIndex + (s.states.length : Int)) % (s.states.length : Int)
          = s.currentIndex := by
        rw [hc]; simp
      rw [e]
    · apply List.map_congr_left
      intro k hk
      have hk2 : k < s.states.length := List.mem_range.mp hk
      rw [hc, zero_add]
      exact Int.emod_eq_of_lt (by omega) (by omega)
  · intro hc h2 n
    obtain ⟨t1, h⟩ := flushStates_index fuel dev run hdev n s trace
      (by omega) (by omega) hM hfuel
    refine ⟨t1, ?_⟩
    rw [h, hc, h2]
    simp

theorem C7_index_cycles_witness :
    (1 ≤ demoStream0.states.length ∧ 1 ≤ demoStream0.maxSamples
      ∧ (∀ k, okDevice.err k = 0) ∧ (∀ st ∈ demoStream0.states, st.values.length ≤ 5)
      ∧ demoStream0.currentIndex = 0 ∧ demoStream0.states.length = 2)
    ∧ (∃ t1 : List DevOp,
        flushStates 5 okDevice true 4 demoStream0 []
          = Outcome.done
              ({ demoStream0 with currentIndex := ((4 : Nat) : Int) % 2 },
               (List.range 4).map (fun (k : Nat) => (k : Int) % 2)) t1)
    ∧ (List.range 4).map (fun (k : Nat) => (k : Int) % 2) = [0, 1, 0, 1] :=
  ⟨⟨by decide, by decide, fun _ => rfl, by simp [demoStream0, demoStream], rfl, rfl⟩,
    (C7_index_cycles 5 okDevice true demoStream0 [] (by decide) (by decide) (fun _ => rfl)
      (by simp [demoStream0, demoStream])).2.2.2 rfl rfl 4,
    by decide⟩

/-! ## State size and generated states (C8 to C10) -/

/-- C8: for every `bufferNumBytes ≥ 0` passed to the constructor, a constructed
manager has `stateSize = (bufferNumBytes / BYTES_PER_VALUE) / 2` (integer
division) and `2 * stateSize ≤ bufferNumBytes / BYTES_PER_VALUE`: the state
size never exceeds half the buffer capacity counted in values.  The
construction does return when the target resolves, the connection reports at
least 20 bytes, the device accepts every call and the fuel covers one state. -/
theorem C8_state_size_half_buffer (fuel : Nat) (lib : Lib) (dev : Device) (info : StreamInfo)
    (handle : Int) (trace : List DevOp) (h0 : 0 ≤ info.bufferNumBytes) :
    (∀ (s : StreamOut) (t : List DevOp),
        StreamOut.new fuel lib dev info handle trace = Outcome.done s t →
        GetStateSize s = (info.bufferNumBytes / BYTES_PER_VALUE) / 2
          ∧ GetStateSize s = (info.bufferNumBytes.tdiv BYTES_PER_VALUE).tdiv 2
          ∧ 2 * GetStateSize s ≤ info.bufferNumBytes / BYTES_PER_VALUE)
    ∧ ((lib.nameToAddress info.target).1 = 0 → 20 ≤ lib.maxBytes → (∀ k, dev.err k = 0) →
        ((info.bufferNumBytes / BYTES_PER_VALUE) / 2).toNat ≤ fuel →
        ∃ (s : StreamOut) (t : List DevOp),
          StreamOut.new fuel lib dev info handle trace = Outcome.done s t) := by
  have e1 : info.bufferNumBytes.tdiv 2 = info.bufferNumBytes / 2 :=
    Int.tdiv_eq_ediv h0 (by omega)
  have e2 : (info.bufferNumBytes / 2).tdiv 2 = info.bufferNumBytes / 2 / 2 :=
    Int.tdiv_eq_ediv (by omega) (by omega)
  constructor
  · intro s t hnew
    obtain ⟨hss, _⟩ := new_done_fields fuel lib dev info handle trace s t hnew
    unfold GetStateSize BYTES_PER_VALUE
    rw [hss, e1, e2]
    refine ⟨rfl, rfl, ?_⟩
    omega
  · intro hlib hB hdev hfuel
    apply new_returns fuel lib dev info handle trace hlib hB hdev
    rw [e1, e2]
    exact hfuel

theorem C8_state_size_half_buffer_witness :
    0 ≤ demoInfo.bufferNumBytes
    ∧ (GetStateSize demoStream = (demoInfo.bufferNumBytes / BYTES_PER_VALUE) / 2
        ∧ GetStateSize demoStream = (demoInfo.bufferNumBytes.tdiv BYTES_PER_VALUE).tdiv 2
        ∧ 2 * GetStateSize demoStream ≤ demoInfo.bufferNumBytes / BYTES_PER_VALUE) :=
  ⟨by decide,
    (C8_state_size_half_buffer 5 demoLib okDevice demoInfo 7 [] (by decide)).1
      demoStream demoTrace demo_new⟩

/-- C9: when the `stateSize` computed from the constructor argument is
non-negative, every state a constructed manager holds in `states` is a
`GenerateState` result of length exactly `stateSize`, the value
`GetStateSize` returns; `GenerateState` itself returns `stateSize` samples
for every `stateSize ≥ 0`.  The construction does return when the target
resolves, the connection reports at least 20 bytes, the device accepts every
call and the fuel covers one state. -/
theorem C9_state_lengths (fuel : Nat) (lib : Lib) (dev : Device) (info : StreamInfo)
    (handle : Int) (trace : List DevOp)
    (hsize : 0 ≤ (info.bufferNumBytes.tdiv BYTES_PER_VALUE).tdiv 2) :
    (∀ (s : StreamOut) (t : List DevOp),
        StreamOut.new fuel lib dev info handle trace = Outcome.done s t →
        GetStateSize s = (info.bufferNumBytes.tdiv BYTES_PER_VALUE).tdiv 2
          ∧ s.states.length = 2
          ∧ (∀ st ∈ s.states, (st.values.length : Int) = GetStateSize s)
          ∧ (∀ st ∈ s.states, ∃ a b : ℚ, st.values = GenerateState (GetStateSize s) a b))
    ∧ (∀ (n : Int) (a b : ℚ), 0 ≤ n → ((GenerateState n a b).length : Int) = n)
    ∧ ((lib.nameToAddress info.target).1 = 0 → 20 ≤ lib.maxBytes → (∀ k, dev.err k = 0) →
        ((info.bufferNumBytes.tdiv BYTES_PER_VALUE).tdiv 2).toNat ≤ fuel →
        ∃ (s : StreamOut) (t : List DevOp),
          StreamOut.new fuel lib dev info handle trace = Outcome.done s t) := by
  refine ⟨?_, ?_, ?_⟩
  · intro s t hnew
    obtain ⟨hss, _, _, hstates, _⟩ := new_done_fields fuel lib dev info handle trace s t hnew
    have hss2 : 0 ≤ s.stateSize := by rw [hss]; exact hsize
    unfold GetStateSize
    refine ⟨hss, by rw [hstates]; rfl, ?_, ?_⟩
    · intro st hst
      rw [hstates] at hst
      simp only [List.mem_cons, List.mem_singleton, List.not_mem_nil, or_false] at hst
      rcases hst with rfl | rfl <;> (simp only [generateState_length]; omega)
    · intro st hst
      rw [hstates] at hst
      simp only [List.mem_cons, List.mem_singleton, List.not_mem_nil, or_false] at hst
      rcases hst with rfl | rfl
      · exact ⟨0, 5 / 2, rfl⟩
      · exact ⟨5, -(5 / 2), rfl⟩
  · intro n a b hn
    rw [generateState_length]
    omega
  · intro hlib hB hdev hfuel
    exact new_returns fuel lib dev info handle trace hlib hB hdev hfuel

theorem C9_state_lengths_witness :
    0 ≤ (demoInfo.bufferNumBytes.tdiv BYTES_PER_VALUE).tdiv 2
    ∧ GetStateSize demoStream = 5
    ∧ (∀ st ∈ demoStream.states, (st.values.length : Int) = GetStateSize demoStream) :=
  ⟨by decide, rfl,
    ((C9_state_lengths 5 demoLib okDevice demoInfo 7 [] (by decide)).1
      demoStream demoTrace demo_new).2.2.1⟩

/-- C10: for every threshold `n = stateSize ≥ 1` and all `start`, `delta`, the
sequence `GenerateState(start, delta)` has `n` elements, its first element is
`start`, its element `i` (`0 ≤ i < n`) is `start + delta * i / n` in exact
rational arithmetic, and consecutive elements differ by `delta / n`; element
128 of `GenerateState(0, 2.5)` over threshold 256 is 1.25. -/
theorem C10_generate_state_linear (n : Int) (start delta : ℚ) (hn : 1 ≤ n) :
    ((GenerateState n start delta).length : Int) = n
    ∧ (GenerateState n start delta).head? = some start
    ∧ (∀ i : Nat, (i : Int) < n →
        (GenerateState n start delta)[i]? = some (start + delta * (i : ℚ) / (n : ℚ)))
    ∧ (∀ (i : Nat) (a b : ℚ), (GenerateState n start delta)[i]? = some a →
        (GenerateState n start delta)[i + 1]? = some b → b - a = delta / (n : ℚ))
    ∧ (GenerateState 256 0 (5 / 2))[128]? = some (5 / 4) := by
  have hget : ∀ (m : Int) (s d : ℚ) (i : Nat), (i : Int) < m →
      (GenerateState m s d)[i]? = some (s + d * (i : ℚ) / (m : ℚ)) := by
    intro m s d i hi
    rw [generateState_eq, List.getElem?_map, List.getElem?_range (by omega)]
    simp only [Option.map_some']
    congr 1
    ring
  have hnone : ∀ (i : Nat), n ≤ (i : Int) → (GenerateState n start delta)[i]? = none := by
    intro i hi
    apply List.getElem?_eq_none
    rw [generateState_length]
    omega
  have hn0 : (n : ℚ) ≠ 0 := by
    have : (1 : ℚ) ≤ (n : ℚ) := by exact_mod_cast hn
    linarith
  refine ⟨by rw [generateState_length]; omega, ?_, hget n start delta, ?_, ?_⟩
  · rw [List.head?_eq_getElem?, hget n start delta 0 (by simpa using (by omega : 0 < n))]
    simp
  · intro i a b ha hb
    by_cases hi : ((i + 1 : Nat) : Int) < n
    · rw [hget n start delta i (by omega)] at ha
      rw [hget n start delta (i + 1) hi] at hb
      cases ha
      cases hb
      push_cast
      field_simp
      ring
    · rw [hnone (i + 1) (by omega)] at hb
      cases hb
  · rw [hget 256 0 (5 / 2) 128 (by decide)]
    norm_num

theorem C10_generate_state_linear_witness :
    (1 : Int) ≤ 256
    ∧ (GenerateState 256 0 (5 / 2)).head? = some 0
    ∧ (GenerateState 256 0 (5 / 2))[128]? = some (5 / 4) :=
  ⟨by decide, (C10_generate_state_linear 256 0 (5 / 2) (by decide)).2.1,
    (C10_generate_state_linear 256 0 (5 / 2) (by decide)).2.2.2.2⟩

/-! ## The wait loop of `CheckUpdateBuffer` (C11 to C13, C19) -/

theorem poll_done (dev : Device) (s : StreamOut) (fuel : Nat) (b : ℚ) (ip : Int)
    (trace : List DevOp) (hb : ¬ b < threshold s) :
    CheckUpdateBuffer.loop dev s fuel b ip trace = Outcome.done () trace := by
  unfold threshold at hb
  cases fuel with
  | zero => rw [CheckUpdateBuffer.loop, if_neg hb]
  | succ n => rw [CheckUpdateBuffer.loop, if_neg hb]

/-- The wait loop from a state with `ip ≤ 200` reads made and a status below
the threshold: either it stops at the first read, among the next `200 - ip`,
whose value is not below the threshold, or all these values are below it and
the read after them is followed by the fatal exit. -/
theorem poll_loop (dev : Device) (s : StreamOut) :
    ∀ (fuel ip : Nat) (b : ℚ) (trace : List DevOp), ip ≤ 200 → 201 - ip ≤ fuel →
      b < threshold s →
      (∃ n : Nat, 1 ≤ n ∧ ip + n ≤ 200
          ∧ (∀ i : Nat, i + 1 < n → dev.value (trace.length + i) < threshold s)
          ∧ ¬ dev.value (trace.length + (n - 1)) < threshold s
          ∧ CheckUpdateBuffer.loop dev s fuel b (ip : Int) trace
              = Outcome.done () (trace ++ List.replicate n (statusRead s)))
      ∨ ((∀ i : Nat, ip + i < 200 → dev.value (trace.length + i) < threshold s)
          ∧ CheckUpdateBuffer.loop dev s fuel b (ip : Int) trace
              = exitAfter (PrepareForExit dev s.handle
                  (trace ++ List.replicate (201 - ip) (statusRead s))) (-1)) := by
  intro fuel
  induction fuel with
  | zero => intro ip b trace h1 h2 _; omega
  | succ fuel ih =>
    intro ip b trace h1 h2 hb
    have hb2 : b < ((s.stateSize - 1 : Int) : ℚ) := hb
    have hcap : ((((ip : Int) + 1 : Int)) : ℚ) > INITIAL_SCAN_RATE_HZ ↔ 200 < (ip : Int) + 1 := by
      unfold INITIAL_SCAN_RATE_HZ
      exact_mod_cast Iff.rfl
    rw [CheckUpdateBuffer.loop]
    simp only [hb2, if_true, read]
    by_cases hip : ip = 200
    · right
      subst hip
      refine ⟨fun i hi => by omega, ?_⟩
      have hc : ((((200 : Nat) : Int) + 1 : Int) : ℚ) > INITIAL_SCAN_RATE_HZ := hcap.mpr (by omega)
      rw [if_pos hc]
      rfl
    · have hc : ¬ ((((ip : Int) + 1 : Int)) : ℚ) > INITIAL_SCAN_RATE_HZ := by
        rw [hcap]; omega
      rw [if_neg hc]
      have hcast : ((ip : Int) + 1) = ((ip + 1 : Nat) : Int) := by push_cast; rfl
      rw [hcast]
      by_cases hv : dev.value trace.length < threshold s
      · rcases ih (ip + 1) (dev.value trace.length)
          (trace ++ [DevOp.eReadName s.handle s.bufferStatusRegString]) (by omega) (by omega) hv
          with ⟨n, hn1, hn2, hlow, hlast, hrun⟩ | ⟨hlow, hrun⟩
        · left
          refine ⟨n + 1, by omega, by omega, ?_, ?_, ?_⟩
          · intro i hi
            cases i with
            | zero => exact hv
            | succ j =>
              have := hlow j (by omega)
              simpa [Nat.add_assoc, Nat.add_comm 1 j] using this
          · have e : trace.length + (n + 1 - 1)
                = (trace ++ [DevOp.eReadName s.handle s.bufferStatusRegString]).length
                    + (n - 1) := by
              simp only [List.length_append, List.length_singleton]
              omega
            rw [e]
            exact hlast
          · rw [hrun, List.append_assoc]
            rfl
        · right
          refine ⟨?_, ?_⟩
          · intro i hi
            cases i with
            | zero => exact hv
            | succ j =>
              have := hlow j (by omega)
              simpa [Nat.add_assoc, Nat.add_comm 1 j] using this
          · rw [hrun, List.append_assoc]
            have e : 201 - ip = (201 - (ip + 1)) + 1 := by omega
            rw [e, List.replicate_succ]
            rfl
      · left
        refine ⟨1, le_refl 1, by omega, fun i hi => by omega, by simpa using hv, ?_⟩
        rw [poll_done dev s fuel _ _ _ hv]
        rfl

theorem exitAfter_propagates (o : Outcome Unit) (code : Int) (k : List DevOp → Outcome StreamOut) :
    (match (exitAfter o code : Outcome Unit) with
      | Outcome.done _ trace => k trace
      | Outcome.exited c trace => Outcome.exited c trace
      | Outcome.undefined trace => Outcome.undefined trace
      | Outcome.outOfFuel trace => Outcome.outOfFuel trace)
      = (exitAfter o code : Outcome StreamOut) := by
  cases o <;> rfl

/-- The three courses of a `CheckUpdateBuffer` call with fuel for 201 reads: no
read at all when the threshold is not positive; `n` reads, `1 ≤ n ≤ 200`, the
last one the first whose value is not below the threshold, then the update;
or 201 reads, the first 200 of them below the threshold, then the fatal exit. -/
theorem check_cases (fuel : Nat) (dev : Device) (s : StreamOut) (trace : List DevOp)
    (hfuel : 201 ≤ fuel) :
    (¬ 0 < threshold s
        ∧ CheckUpdateBuffer fuel dev s trace = UpdateStreamOutBuffer fuel dev true s trace)
    ∨ (0 < threshold s ∧ ∃ n : Nat, 1 ≤ n ∧ n ≤ 200
        ∧ (∀ i : Nat, i + 1 < n → dev.value (trace.length + i) < threshold s)
        ∧ ¬ dev.value (trace.length + (n - 1)) < threshold s
        ∧ CheckUpdateBuffer fuel dev s trace
            = UpdateStreamOutBuffer fuel dev true s
                (trace ++ List.replicate n (statusRead s)))
    ∨ (0 < threshold s
        ∧ (∀ i : Nat, i < 200 → dev.value (trace.length + i) < threshold s)
        ∧ CheckUpdateBuffer fuel dev s trace
            = exitAfter (PrepareForExit dev s.handle
                (trace ++ List.replicate 201 (statusRead s))) (-1)) := by
  by_cases hthr : 0 < threshold s
  · rcases poll_loop dev s fuel 0 0 trace (by omega) (by omega) hthr
      with ⟨n, hn1, hn2, hlow, hlast, hrun⟩ | ⟨hlow, hrun⟩
    · right; left
      refine ⟨hthr, n, hn1, by omega, hlow, hlast, ?_⟩
      unfold CheckUpdateBuffer
      have hrun2 : CheckUpdateBuffer.loop dev s fuel 0 0 trace
          = Outcome.done () (trace ++ List.replicate n (statusRead s)) := by
        simpa using hrun
      rw [hrun2]
    · right; right
      refine ⟨hthr, fun i hi => hlow i (by omega), ?_⟩
      unfold CheckUpdateBuffer
      have hrun2 : CheckUpdateBuffer.loop dev s fuel 0 0 trace
          = exitAfter (PrepareForExit dev s.handle
              (trace ++ List.replicate 201 (statusRead s))) (-1) := by
        simpa using hrun
      rw [hrun2]
      exact exitAfter_propagates _ _ _
  · left
    refine ⟨hthr, ?_⟩
    unfold CheckUpdateBuffer
    rw [poll_done dev s fuel 0 0 trace hthr]

theorem threshold_eq (s : StreamOut) : threshold s = (s.stateSize : ℚ) - 1 := by
  unfold threshold
  push_cast
  rfl

/-- The fatal exit: the stream stop is issued, the close follows when the stop
succeeded, and the exit code is -1 when both succeeded. -/
theorem fatal_exit_cases (α : Type) (dev : Device) (handle : Int) (trace : List DevOp) :
    ∃ (code : Int) (ops : List DevOp),
      (exitAfter (PrepareForExit dev handle trace) (-1) : Outcome α)
          = Outcome.exited code (trace ++ DevOp.eStreamStop handle :: ops)
        ∧ (ops = [] ∨ ops = [DevOp.close handle])
        ∧ (dev.err trace.length = 0 → ops = [DevOp.close handle])
        ∧ (dev.err trace.length = 0 → dev.err (trace.length + 1) = 0 → code = -1) := by
  unfold PrepareForExit
  simp only [call, ErrorCheck, List.length_append, List.length_singleton, List.append_assoc,
    List.singleton_append]
  by_cases e1 : dev.err trace.length = 0
  · by_cases e2 : dev.err (trace.length + 1) = 0
    · exact ⟨-1, [DevOp.close handle], by simp [e1, e2, exitAfter], Or.inr rfl,
        fun _ => rfl, fun _ _ => rfl⟩
    · exact ⟨dev.err (trace.length + 1), [DevOp.close handle], by simp [e1, e2, exitAfter],
        Or.inr rfl, fun _ => rfl, fun _ h => absurd h e2⟩
  · exact ⟨dev.err trace.length, [], by simp [e1, exitAfter], Or.inl rfl,
      fun h => absurd h e1, fun h => absurd h e1⟩

/-- A `CheckUpdateBuffer` call on `demoStream` when every status read returns
10: one read, then the three writes of the second state. -/
theorem demo_check :
    CheckUpdateBuffer 5 (steadyDevice 10) demoStream []
      = Outcome.done demoStream0
          [DevOp.eReadName 7 "STREAM_OUT0_BUFFER_STATUS",
           DevOp.eWriteNameArray 7 "STREAM_OUT0_BUFFER_F32" 2 [5, 9 / 2],
           DevOp.eWriteNameArray 7 "STREAM_OUT0_BUFFER_F32" 2 [4, 7 / 2],
           DevOp.eNames 7 2 ["STREAM_OUT0_BUFFER_F32", "STREAM_OUT0_SET_LOOP"] [1, 1] [1, 1]
             [3, 2]] := by
  have t2 : Int.toNat 2 = 2 := rfl
  have t4 : Int.toNat 4 = 4 := rfl
  norm_num [CheckUpdateBuffer, CheckUpdateBuffer.loop, read, steadyDevice,
    INITIAL_SCAN_RATE_HZ, UpdateStreamOutBuffer, UpdateStreamOutBuffer.loop, demoStream,
    demoStream0, call, ErrorCheck, t2, t4]

/-- C12: the wait loop is bounded.  For every `stateSize` and every sequence of
status values, with fuel for 201 iterations the loop of `CheckUpdateBuffer`
never runs out of fuel: after `n ≤ 201` status reads the call either proceeds
to `UpdateStreamOutBuffer` (then `n ≤ 200`) or, after exactly 201 reads,
takes the fatal exit (`PrepareForExit`, then `exit(-1)`), which ends the
process. -/
theorem C12_wait_loop_bounded (fuel : Nat) (dev : Device) (s : StreamOut)
    (trace : List DevOp) (hfuel : 201 ≤ fuel) :
    (∃ n : Nat, n ≤ 200
        ∧ CheckUpdateBuffer.loop dev s fuel 0 0 trace
            = Outcome.done ()
                (trace ++ List.replicate n (DevOp.eReadName s.handle s.bufferStatusRegString))
        ∧ CheckUpdateBuffer fuel dev s trace
            = UpdateStreamOutBuffer fuel dev true s
                (trace ++ List.replicate n (DevOp.eReadName s.handle s.bufferStatusRegString)))
    ∨ (∃ (code : Int) (ops : List DevOp),
        (ops = [] ∨ ops = [DevOp.close s.handle])
        ∧ CheckUpdateBuffer.loop dev s fuel 0 0 trace
            = Outcome.exited code
                (trace ++ List.replicate 201 (DevOp.eReadName s.handle s.bufferStatusRegString)
                  ++ DevOp.eStreamStop s.handle :: ops)
        ∧ CheckUpdateBuffer fuel dev s trace
            = Outcome.exited code
                (trace ++ List.replicate 201 (DevOp.eReadName s.handle s.bufferStatusRegString)
                  ++ DevOp.eStreamStop s.handle :: ops)) := by
  by_cases hthr : 0 < threshold s
  · rcases poll_loop dev s fuel 0 0 trace (by omega) (by omega) hthr
      with ⟨n, hn1, hn2, _, _, hrun⟩ | ⟨_, hrun⟩
    · left
      have hrun2 : CheckUpdateBuffer.loop dev s fuel 0 0 trace
          = Outcome.done () (trace ++ List.replicate n (statusRead s)) := by
        simpa using hrun
      refine ⟨n, by omega, hrun2, ?_⟩
      unfold CheckUpdateBuffer
      rw [hrun2]
      rfl
    · right
      have hrun2 : CheckUpdateBuffer.loop dev s fuel 0 0 trace
          = exitAfter (PrepareForExit dev s.handle
              (trace ++ List.replicate 201 (statusRead s))) (-1) := by
        simpa using hrun
      obtain ⟨code, ops, hex, hops, _, _⟩ := fatal_exit_cases Unit dev s.handle
        (trace ++ List.replicate 201 (statusRead s))
      refine ⟨code, ops, hops, ?_, ?_⟩
      · rw [hrun2, hex]; rfl
      · unfold CheckUpdateBuffer
        rw [hrun2, hex]
        rfl
  · left
    have hrun : CheckUpdateBuffer.loop dev s fuel 0 0 trace = Outcome.done () trace :=
      poll_done dev s fuel 0 0 trace hthr
    refine ⟨0, by omega, by simpa using hrun, ?_⟩
    unfold CheckUpdateBuffer
    rw [hrun]
    simp

theorem C12_wait_loop_bounded_witness :
    201 ≤ 201
    ∧ ((∃ n : Nat, n ≤ 200
        ∧ CheckUpdateBuffer.loop (steadyDevice 0) demoStream 201 0 0 []
            = Outcome.done ()
                ([] ++ List.replicate n
                  (DevOp.eReadName demoStream.handle demoStream.bufferStatusRegString))
        ∧ CheckUpdateBuffer 201 (steadyDevice 0) demoStream []
            = UpdateStreamOutBuffer 201 (steadyDevice 0) true demoStream
                ([] ++ List.replicate n
                  (DevOp.eReadName demoStream.handle demoStream.bufferStatusRegString)))
      ∨ (∃ (code : Int) (ops : List DevOp),
        (ops = [] ∨ ops = [DevOp.close demoStream.handle])
        ∧ CheckUpdateBuffer.loop (steadyDevice 0) demoStream 201 0 0 []
            = Outcome.exited code
                ([] ++ List.replicate 201
                    (DevOp.eReadName demoStream.handle demoStream.bufferStatusRegString)
                  ++ DevOp.eStreamStop demoStream.handle :: ops)
        ∧ CheckUpdateBuffer 201 (steadyDevice 0) demoStream []
            = Outcome.exited code
                ([] ++ List.replicate 201
                    (DevOp.eReadName demoStream.handle demoStream.bufferStatusRegString)
                  ++ DevOp.eStreamStop demoStream.handle :: ops))) :=
  ⟨by decide, C12_wait_loop_bounded 201 (steadyDevice 0) demoStream [] (by decide)⟩

/-- C13, at a concrete input: every status read returns the same value 7, which
is not below `stateSize - 1 = 4`; `CheckUpdateBuffer` does not end the
session but writes the state after one read. -/
theorem C13_steady_high_value_updates :
    CheckUpdateBuffer 5 (steadyDevice 7) demoStream0 []
        = Outcome.done demoStream
            [DevOp.eReadName 7 "STREAM_OUT0_BUFFER_STATUS",
             DevOp.eWriteNameArray 7 "STREAM_OUT0_BUFFER_F32" 2 [0, 1 / 2],
             DevOp.eWriteNameArray 7 "STREAM_OUT0_BUFFER_F32" 2 [1, 3 / 2],
             DevOp.eNames 7 2 ["STREAM_OUT0_BUFFER_F32", "STREAM_OUT0_SET_LOOP"] [1, 1] [1, 1]
               [2, 2]]
      ∧ ∀ i j : Nat, (steadyDevice 7).value i = (steadyDevice 7).value j := by
  have t2 : Int.toNat 2 = 2 := rfl
  have t4 : Int.toNat 4 = 4 := rfl
  constructor
  · norm_num [CheckUpdateBuffer, CheckUpdateBuffer.loop, read, steadyDevice,
      INITIAL_SCAN_RATE_HZ, UpdateStreamOutBuffer, UpdateStreamOutBuffer.loop, demoStream,
      demoStream0, call, ErrorCheck, t2, t4]
  · intro i j
    rfl

/-- C13, amended: if every status read of a `CheckUpdateBuffer` call returns the
same value `v` with `0 ≤ v < stateSize - 1`, the call makes 201 reads, then
issues `LJM_eStreamStop` and, when that succeeds, `LJM_Close`, and exits (with
code -1 when both succeed) without issuing any buffer write. -/
theorem C13_stall_is_fatal (fuel : Nat) (dev : Device) (s : StreamOut) (trace : List DevOp)
    (v : ℚ) (hfuel : 201 ≤ fuel) (hconst : ∀ i : Nat, dev.value (trace.length + i) = v)
    (h0 : 0 ≤ v) (hv : v < (s.stateSize : ℚ) - 1) :
    ∃ (code : Int) (ops : List DevOp),
      CheckUpdateBuffer fuel dev s trace
          = Outcome.exited code
              (trace ++ List.replicate 201 (DevOp.eReadName s.handle s.bufferStatusRegString)
                ++ DevOp.eStreamStop s.handle :: ops)
        ∧ (ops = [] ∨ ops = [DevOp.close s.handle])
        ∧ (dev.err (trace.length + 201) = 0 → ops = [DevOp.close s.handle])
        ∧ (dev.err (trace.length + 201) = 0 → dev.err (trace.length + 202) = 0 → code = -1) := by
  have hthr : 0 < threshold s := by
    rw [threshold_eq]; linarith
  rcases check_cases fuel dev s trace hfuel with ⟨h, _⟩ | ⟨_, n, h1, h2, hlow, hlast, hrun⟩
    | ⟨_, hlow, hrun⟩
  · exact absurd hthr h
  · exfalso
    apply hlast
    rw [threshold_eq, hconst]
    exact hv
  · obtain ⟨code, ops, hex, hops, hstop, hboth⟩ := fatal_exit_cases StreamOut dev s.handle
      (trace ++ List.replicate 201 (statusRead s))
    have hlen : (trace ++ List.replicate 201 (statusRead s)).length = trace.length + 201 := by
      rw [List.length_append, List.length_replicate]
    have e : trace.length + 201 + 1 = trace.length + 202 := by omega
    rw [hlen] at hstop hboth
    rw [e] at hboth
    refine ⟨code, ops, ?_, hops, hstop, hboth⟩
    rw [hrun, hex]
    rfl

theorem C13_stall_is_fatal_witness :
    (201 ≤ 201 ∧ (∀ i : Nat, (steadyDevice 3).value (([] : List DevOp).length + i) = 3)
      ∧ (0 : ℚ) ≤ 3 ∧ (3 : ℚ) < (demoStream.stateSize : ℚ) - 1)
    ∧ ∃ (code : Int) (ops : List DevOp),
        CheckUpdateBuffer 201 (steadyDevice 3) demoStream []
            = Outcome.exited code
                ([] ++ List.replicate 201
                    (DevOp.eReadName demoStream.handle demoStream.bufferStatusRegString)
                  ++ DevOp.eStreamStop demoStream.handle :: ops)
          ∧ (ops = [] ∨ ops = [DevOp.close demoStream.handle])
          ∧ ((steadyDevice 3).err (([] : List DevOp).length + 201) = 0 →
              ops = [DevOp.close demoStream.handle])
          ∧ ((steadyDevice 3).err (([] : List DevOp).length + 201) = 0 →
              (steadyDevice 3).err (([] : List DevOp).length + 202) = 0 → code = -1) :=
  ⟨⟨by decide, fun _ => rfl, by norm_num, by norm_num [demoStream]⟩,
    C13_stall_is_fatal 201 (steadyDevice 3) demoStream [] 3 (by decide) (fun _ => rfl)
      (by norm_num) (by norm_num [demoStream])⟩

/-- C19: `PrintUpdateInfo` announces the threshold `stateSize` (5 here), but a
status read of 4, which is below it, already ends the wait:
`CheckUpdateBuffer` stops polling after that read and writes the state. -/
theorem C19_threshold_off_by_one :
    PrintUpdateInfo demoStream
        = "Updating STREAM_OUT0 buffer whenever STREAM_OUT0_BUFFER_STATUS is greater or equal to 5 \n"
      ∧ (steadyDevice 4).value 0 < (demoStream.stateSize : ℚ)
      ∧ CheckUpdateBuffer 5 (steadyDevice 4) demoStream []
        = Outcome.done demoStream0
            [DevOp.eReadName 7 "STREAM_OUT0_BUFFER_STATUS",
             DevOp.eWriteNameArray 7 "STREAM_OUT0_BUFFER_F32" 2 [5, 9 / 2],
             DevOp.eWriteNameArray 7 "STREAM_OUT0_BUFFER_F32" 2 [4, 7 / 2],
             DevOp.eNames 7 2 ["STREAM_OUT0_BUFFER_F32", "STREAM_OUT0_SET_LOOP"] [1, 1] [1, 1]
               [3, 2]] := by
  have t2 : Int.toNat 2 = 2 := rfl
  have t4 : Int.toNat 4 = 4 := rfl
  refine ⟨by decide, by norm_num [steadyDevice, demoStream], ?_⟩
  norm_num [CheckUpdateBuffer, CheckUpdateBuffer.loop, read, steadyDevice,
    INITIAL_SCAN_RATE_HZ, UpdateStreamOutBuffer, UpdateStreamOutBuffer.loop, demoStream,
    demoStream0, call, ErrorCheck, t2, t4]

/-! ## Initialisation and priming (C14, C15, C18, C20) -/

/-- When the target name resolves, the constructor is `InitializeStreamOut`
followed by `UpdateStreamOutBuffer(false)` on the configured object. -/
theorem new_eq (fuel : Nat) (lib : Lib) (dev : Device) (info : StreamInfo) (handle : Int)
    (trace : List DevOp) (hlib : (lib.nameToAddress info.target).1 = 0) :
    StreamOut.new fuel lib dev info handle trace
      = match InitializeStreamOut dev (StreamOut.configured lib info handle) trace with
        | Outcome.exited code trace => Outcome.exited code trace
        | Outcome.undefined trace => Outcome.undefined trace
        | Outcome.outOfFuel trace => Outcome.outOfFuel trace
        | Outcome.done _ trace =>
          UpdateStreamOutBuffer fuel dev false (StreamOut.configured lib info handle) trace := by
  have hlib2 : ¬ (lib.nameToAddress info.target).1 ≠ 0 := by simp [hlib]
  unfold StreamOut.new ConvertNameToOutBufferTypeStr ErrorCheck StreamOut.configured
    CreateStreamOutNames StreamOut.blank BYTES_PER_VALUE
  by_cases h1 : (lib.nameToAddress info.target).2.2 = lib.LJM_UINT16
  · by_cases h4 : lib.maxBytes > 524
    · simp only [if_pos h1, if_pos h4, if_neg hlib2]; rfl
    · simp only [if_pos h1, if_neg h4, if_neg hlib2]; rfl
  · by_cases h2 : (lib.nameToAddress info.target).2.2 = lib.LJM_UINT32
    · by_cases h4 : lib.maxBytes > 524
      · simp only [if_neg h1, if_pos h2, if_pos h4, if_neg hlib2]; rfl
      · simp only [if_neg h1, if_pos h2, if_neg h4, if_neg hlib2]; rfl
    · by_cases h3 : (lib.nameToAddress info.target).2.2 = lib.LJM_FLOAT32
      · by_cases h4 : lib.maxBytes > 524
        · simp only [if_neg h1, if_neg h2, if_pos h3, if_pos h4, if_neg hlib2]; rfl
        · simp only [if_neg h1, if_neg h2, if_pos h3, if_neg h4, if_neg hlib2]; rfl
      · by_cases h4 : lib.maxBytes > 524
        · simp only [if_neg h1, if_neg h2, if_neg h3, if_pos h4, if_neg hlib2]; rfl
        · simp only [if_neg h1, if_neg h2, if_neg h3, if_neg h4, if_neg hlib2]; rfl

/-- `InitializeStreamOut` when its four writes succeed. -/
theorem initialize_done (dev : Device) (s : StreamOut) (trace : List DevOp)
    (hok : ∀ i : Nat, i < 4 → dev.err (trace.length + i) = 0) :
    InitializeStreamOut dev s trace = Outcome.done () (trace ++ configWrites s) := by
  have h0 : dev.err trace.length = 0 := hok 0 (by omega)
  have h1 : dev.err (trace.length + 1) = 0 := hok 1 (by omega)
  have h2 : dev.err (trace.length + 2) = 0 := hok 2 (by omega)
  have h3 : dev.err (trace.length + 3) = 0 := hok 3 (by omega)
  unfold InitializeStreamOut configWrites
  simp [call, ErrorCheck, h0, h1, h2, h3, Nat.add_assoc]

/-- `InitializeStreamOut` when its k-th write is the first rejected one. -/
theorem initialize_rejected (dev : Device) (s : StreamOut) (trace : List DevOp) (k : Nat)
    (hk : k < 4) (hok : ∀ i : Nat, i < k → dev.err (trace.length + i) = 0)
    (hbad : dev.err (trace.length + k) ≠ 0) :
    InitializeStreamOut dev s trace
      = Outcome.exited (dev.err (trace.length + k)) (trace ++ (configWrites s).take (k + 1)) := by
  unfold InitializeStreamOut configWrites
  rcases (by omega : k = 0 ∨ k = 1 ∨ k = 2 ∨ k = 3) with rfl | rfl | rfl | rfl
  · have hb : dev.err trace.length ≠ 0 := hbad
    simp [call, ErrorCheck, hb]
  · have h0 : dev.err trace.length = 0 := hok 0 (by omega)
    simp [call, ErrorCheck, h0, hbad]
  · have h0 : dev.err trace.length = 0 := hok 0 (by omega)
    have h1 : dev.err (trace.length + 1) = 0 := hok 1 (by omega)
    simp [call, ErrorCheck, h0, h1, hbad, Nat.add_assoc]
  · have h0 : dev.err trace.length = 0 := hok 0 (by omega)
    have h1 : dev.err (trace.length + 1) = 0 := hok 1 (by omega)
    have h2 : dev.err (trace.length + 2) = 0 := hok 2 (by omega)
    simp [call, ErrorCheck, h0, h1, h2, hbad, Nat.add_assoc]

/-- C14: if the k-th configuration write of `InitializeStreamOut` is the first
one the device rejects, `ErrorCheck` ends the process with that error right
after it: the trace is the first `k + 1` configuration writes and nothing
else, in `InitializeStreamOut` itself and in the constructor, which issues
neither a later configuration write nor any buffer write. -/
theorem C14_first_rejected_write_aborts (dev : Device) (s : StreamOut) (trace : List DevOp)
    (k : Nat) (hk : k < 4) (hok : ∀ i : Nat, i < k → dev.err (trace.length + i) = 0)
    (hbad : dev.err (trace.length + k) ≠ 0) :
    InitializeStreamOut dev s trace
        = Outcome.exited (dev.err (trace.length + k)) (trace ++ (configWrites s).take (k + 1))
      ∧ ∀ (fuel : Nat) (lib : Lib) (info : StreamInfo) (handle : Int),
          (lib.nameToAddress info.target).1 = 0 →
          StreamOut.new fuel lib dev info handle trace
            = Outcome.exited (dev.err (trace.length + k))
                (trace ++ (configWrites (StreamOut.configured lib info handle)).take (k + 1)) := by
  refine ⟨initialize_rejected dev s trace k hk hok hbad, ?_⟩
  intro fuel lib info handle hlib
  rw [new_eq fuel lib dev info handle trace hlib,
    initialize_rejected dev _ trace k hk hok hbad]

theorem C14_first_rejected_write_aborts_witness :
    ((2 : Nat) < 4 ∧ (∀ i : Nat, i < 2 → (failAt 2 1).err (([] : List DevOp).length + i) = 0)
      ∧ (failAt 2 1).err (([] : List DevOp).length + 2) ≠ 0)
    ∧ InitializeStreamOut (failAt 2 1) demoStream []
        = Outcome.exited ((failAt 2 1).err (([] : List DevOp).length + 2))
            ([] ++ (configWrites demoStream).take (2 + 1))
    ∧ (failAt 2 1).err (([] : List DevOp).length + 2) = 1
    ∧ (configWrites demoStream).take (2 + 1)
        = [DevOp.eWriteName 7 "STREAM_OUT0_TARGET" 1000,
           DevOp.eWriteName 7 "STREAM_OUT0_BUFFER_SIZE" 20,
           DevOp.eWriteName 7 "STREAM_OUT0_ENABLE" 1] :=
  ⟨⟨by decide, fun i hi => by simp [failAt]; omega, by simp [failAt]⟩,
    (C14_first_rejected_write_aborts (failAt 2 1) demoStream [] 2 (by decide)
      (fun i hi => by simp [failAt]; omega) (by simp [failAt])).1,
    by simp [failAt], by simp [configWrites, demoStream]⟩

/-- C20: when its writes succeed, `InitializeStreamOut` issues exactly four
register writes, in this order and with these values: the TARGET register
with `targetAddress`, the BUFFER_SIZE register with `bufferNumBytes`, the
ENABLE register with 1 and the LOOP_SIZE register with `stateSize`; the
register names are those `CreateStreamOutNames` builds from `STREAM_OUT#`. -/
theorem C20_initialize_writes (dev : Device) (s : StreamOut) (trace : List DevOp)
    (hok : ∀ i : Nat, i < 4 → dev.err (trace.length + i) = 0) :
    InitializeStreamOut dev s trace
        = Outcome.done ()
            (trace ++
              [DevOp.eWriteName s.handle s.targetRegString (s.targetAddress : ℚ),
               DevOp.eWriteName s.handle s.bufferSizeRegString (s.bufferNumBytes : ℚ),
               DevOp.eWriteName s.handle s.enableRegString 1,
               DevOp.eWriteName s.handle s.loopSizeRegString (s.stateSize : ℚ)])
      ∧ ∀ s0 : StreamOut,
          (CreateStreamOutNames s0).targetRegString
              = (s0.streamOutRegString ++ s0.streamOutIndex) ++ "_TARGET"
          ∧ (CreateStreamOutNames s0).bufferSizeRegString
              = (s0.streamOutRegString ++ s0.streamOutIndex) ++ "_BUFFER_SIZE"
          ∧ (CreateStreamOutNames s0).enableRegString
              = (s0.streamOutRegString ++ s0.streamOutIndex) ++ "_ENABLE"
          ∧ (CreateStreamOutNames s0).loopSizeRegString
              = (s0.streamOutRegString ++ s0.streamOutIndex) ++ "_LOOP_SIZE" := by
  refine ⟨initialize_done dev s trace hok, ?_⟩
  intro s0
  exact ⟨rfl, rfl, rfl, rfl⟩

theorem C20_initialize_writes_witness :
    (∀ i : Nat, i < 4 → okDevice.err (([] : List DevOp).length + i) = 0)
    ∧ InitializeStreamOut okDevice demoStream []
        = Outcome.done ()
            ([] ++
              [DevOp.eWriteName demoStream.handle demoStream.targetRegString
                 (demoStream.targetAddress : ℚ),
               DevOp.eWriteName demoStream.handle demoStream.bufferSizeRegString
                 (demoStream.bufferNumBytes : ℚ),
               DevOp.eWriteName demoStream.handle demoStream.enableRegString 1,
               DevOp.eWriteName demoStream.handle demoStream.loopSizeRegString
                 (demoStream.stateSize : ℚ)]) :=
  ⟨fun _ _ => rfl, (C20_initialize_writes okDevice demoStream [] (fun _ _ => rfl)).1⟩

/-- C15, at a concrete input: with a buffer of 0 bytes on a connection that
gives `maxSamples = 2`, the constructor completes after the four
configuration writes alone; no state sample and no set-loop value is
written. -/
theorem C15_empty_state_has_no_set_loop :
    StreamOut.new 0 demoLib okDevice emptyInfo 7 []
        = Outcome.done emptyStream
            [DevOp.eWriteName 7 "STREAM_OUT0_TARGET" 1000,
             DevOp.eWriteName 7 "STREAM_OUT0_BUFFER_SIZE" 0,
             DevOp.eWriteName 7 "STREAM_OUT0_ENABLE" 1,
             DevOp.eWriteName 7 "STREAM_OUT0_LOOP_SIZE" 0]
      ∧ 1 ≤ emptyStream.maxSamples := by
  have e1 : Int.tdiv 0 2 = 0 := rfl
  have e3 : Int.tdiv 12 4 = 3 := rfl
  have t0 : Int.toNat 0 = 0 := rfl
  have n1 : "STREAM_OUT" ++ "0" = "STREAM_OUT0" := by decide
  have n2 : "STREAM_OUT0" ++ "_TARGET" = "STREAM_OUT0_TARGET" := by decide
  have n3 : "STREAM_OUT0" ++ "_BUFFER_SIZE" = "STREAM_OUT0_BUFFER_SIZE" := by decide
  have n4 : "STREAM_OUT0" ++ "_LOOP_SIZE" = "STREAM_OUT0_LOOP_SIZE" := by decide
  have n5 : "STREAM_OUT0" ++ "_SET_LOOP" = "STREAM_OUT0_SET_LOOP" := by decide
  have n6 : "STREAM_OUT0" ++ "_BUFFER_STATUS" = "STREAM_OUT0_BUFFER_STATUS" := by decide
  have n7 : "STREAM_OUT0" ++ "_ENABLE" = "STREAM_OUT0_ENABLE" := by decide
  have n8 : "STREAM_OUT0" ++ "_BUFFER_" = "STREAM_OUT0_BUFFER_" := by decide
  have n9 : "STREAM_OUT0_BUFFER_" ++ "F32" = "STREAM_OUT0_BUFFER_F32" := by decide
  refine ⟨?_, by decide⟩
  norm_num [StreamOut.new, ConvertNameToOutBufferTypeStr, demoLib, emptyInfo, demoInfo,
    ErrorCheck, CreateStreamOutNames, InitializeStreamOut, call, okDevice,
    UpdateStreamOutBuffer, UpdateStreamOutBuffer.loop, GenerateState, GenerateState.loop,
    StreamOut.blank, BYTES_PER_VALUE, toInt32, e1, e3, t0, n1, n2, n3, n4, n5, n6, n7, n8, n9,
    emptyStream, demoStream]

/-- C15, amended: when the constructor runs without error with
`maxSamples ≥ 1` (`maxBytes ≥ 20`) and `stateSize ≥ 1`, the device has
received the four configuration writes (target, buffer size, enable, loop
size) followed by the complete first state, "increase from 0.0 to 2.5", whose
last write carries the set-loop value; the buffer writes are those of
`UpdateStreamOutBuffer(false)`, and `currentIndex` is `1 = 1 mod 2`. -/
theorem C15_constructor_primes_first_state (fuel : Nat) (lib : Lib) (dev : Device)
    (info : StreamInfo) (handle : Int) (trace : List DevOp)
    (hlib : (lib.nameToAddress info.target).1 = 0) (hB : 20 ≤ lib.maxBytes)
    (hdev : ∀ k, dev.err k = 0) (hsize : 1 ≤ (info.bufferNumBytes.tdiv 2).tdiv 2)
    (hfuel : ((info.bufferNumBytes.tdiv 2).tdiv 2).toNat ≤ fuel) :
    ∃ (s : StreamOut) (init : List DevOp) (last : List ℚ),
      StreamOut.new fuel lib dev info handle trace
          = Outcome.done s
              (trace ++ configWrites (StreamOut.configured lib info handle) ++ (init ++
                [DevOp.eNames handle 2
                  [(StreamOut.configured lib info handle).bufferRegString,
                   ("STREAM_OUT" ++ info.indexString) ++ "_SET_LOOP"] [1, 1]
                  [(last.length : Int), 1] (last ++ [(info.setLoop : ℚ)])]))
        ∧ UpdateStreamOutBuffer fuel dev false (StreamOut.configured lib info handle)
            (trace ++ configWrites (StreamOut.configured lib info handle))
          = StreamOut.new fuel lib dev info handle trace
        ∧ configWrites (StreamOut.configured lib info handle)
          = [DevOp.eWriteName handle (("STREAM_OUT" ++ info.indexString) ++ "_TARGET")
               ((lib.nameToAddress info.target).2.1 : ℚ),
             DevOp.eWriteName handle (("STREAM_OUT" ++ info.indexString) ++ "_BUFFER_SIZE")
               (info.bufferNumBytes : ℚ),
             DevOp.eWriteName handle (("STREAM_OUT" ++ info.indexString) ++ "_ENABLE") 1,
             DevOp.eWriteName handle (("STREAM_OUT" ++ info.indexString) ++ "_LOOP_SIZE")
               (((info.bufferNumBytes.tdiv 2).tdiv 2 : Int) : ℚ)]
        ∧ (∀ op ∈ init, ∃ c : List ℚ,
            op = DevOp.eWriteNameArray handle
              (StreamOut.configured lib info handle).bufferRegString (c.length : Int) c)
        ∧ last ≠ []
        ∧ s.states[0]? = some
            { stateString := "increase from 0.0 to 2.5",
              values := (init.map samplePayload).flatten ++ last }
        ∧ (init.map samplePayload).flatten ++ last
            = GenerateState ((info.bufferNumBytes.tdiv 2).tdiv 2) 0 (5 / 2)
        ∧ s.states.length = 2 ∧ s.currentIndex = 1
        ∧ s.currentIndex = 1 % (s.states.length : Int) := by
  have hinit := initialize_done dev (StreamOut.configured lib info handle) trace
    (fun i _ => hdev _)
  have hM : 1 ≤ (StreamOut.configured lib info handle).maxSamples := by
    have hdiv : ∀ b : Int, 20 ≤ b → b ≤ 524 → 1 ≤ (toInt32 (b - 12)).tdiv 4 - 1 := by
      intro b h1 h2
      rw [toInt32_eq _ (by omega) (by omega), Int.tdiv_eq_ediv (by omega) (by omega)]
      omega
    unfold StreamOut.configured
    simp only
    split_ifs
    · exact hdiv 524 (by omega) (by omega)
    · exact hdiv lib.maxBytes hB (by omega)
  have hlen : (GenerateState ((info.bufferNumBytes.tdiv 2).tdiv 2) 0 (5 / 2)).length
      = ((info.bufferNumBytes.tdiv 2).tdiv 2).toNat := generateState_length _ _ _
  obtain ⟨ops, hrun, hcases⟩ := update_writes fuel dev false
    (StreamOut.configured lib info handle)
    (trace ++ configWrites (StreamOut.configured lib info handle))
    { stateString := "increase from 0.0 to 2.5",
      values := GenerateState ((info.bufferNumBytes.tdiv 2).tdiv 2) 0 (5 / 2) }
    (le_refl _) rfl hM hdev (by rw [hlen]; exact hfuel)
  have hnew : StreamOut.new fuel lib dev info handle trace
      = UpdateStreamOutBuffer fuel dev false (StreamOut.configured lib info handle)
          (trace ++ configWrites (StreamOut.configured lib info handle)) := by
    rw [new_eq fuel lib dev info handle trace hlib, hinit]
  rcases hcases with ⟨hnil, _⟩ | ⟨cs, last, hops, hjoin, _, h1, _⟩
  · exfalso
    have : (GenerateState ((info.bufferNumBytes.tdiv 2).tdiv 2) 0 (5 / 2)).length = 0 := by
      simp only at hnil
      rw [hnil]; rfl
    omega
  · refine ⟨{ StreamOut.configured lib info handle with
        currentIndex := ((StreamOut.configured lib info handle).currentIndex + 1)
          % ((StreamOut.configured lib info handle).states.length : Int) },
      cs.map (arrayWrite (StreamOut.configured lib info handle)), last, ?_,
      hnew.symm, rfl, ?_, ?_, ?_, ?_, rfl, rfl, rfl⟩
    · rw [hnew, hrun, hops]
      rfl
    · intro op hop
      obtain ⟨c, _, rfl⟩ := List.mem_map.mp hop
      exact ⟨c, rfl⟩
    · intro h; rw [h] at h1; simp at h1
    · rw [flatten_payload_arrayWrite, hjoin]
      rfl
    · rw [flatten_payload_arrayWrite, hjoin]

theorem C15_constructor_primes_first_state_witness :
    ((demoLib.nameToAddress demoInfo.target).1 = 0 ∧ 20 ≤ demoLib.maxBytes
      ∧ (∀ k, okDevice.err k = 0) ∧ 1 ≤ (demoInfo.bufferNumBytes.tdiv 2).tdiv 2
      ∧ ((demoInfo.bufferNumBytes.tdiv 2).tdiv 2).toNat ≤ 5)
    ∧ StreamOut.new 5 demoLib okDevice demoInfo 7 [] = Outcome.done demoStream demoTrace
    ∧ ∃ (s : StreamOut) (init : List DevOp) (last : List ℚ),
        StreamOut.new 5 demoLib okDevice demoInfo 7 []
          = Outcome.done s
              ([] ++ configWrites (StreamOut.configured demoLib demoInfo 7) ++ (init ++
                [DevOp.eNames 7 2
                  [(StreamOut.configured demoLib demoInfo 7).bufferRegString,
                   ("STREAM_OUT" ++ demoInfo.indexString) ++ "_SET_LOOP"] [1, 1]
                  [(last.length : Int), 1] (last ++ [(demoInfo.setLoop : ℚ)])])) :=
  ⟨⟨rfl, by decide, fun _ => rfl, by decide, by decide⟩, demo_new,
    (C15_constructor_primes_first_state 5 demoLib okDevice demoInfo 7 [] rfl (by decide)
      (fun _ => rfl) (by decide) (by decide)).imp
      (fun _ h => h.imp (fun _ h => h.imp (fun _ h => h.1)))⟩

/-! ## Frame of the update calls (C16) -/

/-- A `CheckUpdateBuffer` call that returns has gone through an
`UpdateStreamOutBuffer` call that returned. -/
theorem check_done_inv (fuel : Nat) (dev : Device) (s s1 : StreamOut) (trace t1 : List DevOp)
    (h : CheckUpdateBuffer fuel dev s trace = Outcome.done s1 t1) :
    ∃ t0 : List DevOp, UpdateStreamOutBuffer fuel dev true s t0 = Outcome.done s1 t1 := by
  unfold CheckUpdateBuffer at h
  cases hl : CheckUpdateBuffer.loop dev s fuel 0 0 trace with
  | done u t => rw [hl] at h; exact ⟨t, h⟩
  | exited c t => rw [hl] at h; cases h
  | undefined t => rw [hl] at h; cases h
  | outOfFuel t => rw [hl] at h; cases h

/-- C16: whatever the device answers, an `UpdateStreamOutBuffer` or
`CheckUpdateBuffer` call that returns leaves `states` (values and labels),
`stateSize`, `maxSamples`, `setLoop`, the register names and every other
field as they were; the only field it changes is `currentIndex`. -/
theorem C16_only_current_index_changes (fuel : Nat) (dev : Device) (s s1 : StreamOut)
    (trace t1 : List DevOp)
    (h : (∃ run : Bool, UpdateStreamOutBuffer fuel dev run s trace = Outcome.done s1 t1)
      ∨ CheckUpdateBuffer fuel dev s trace = Outcome.done s1 t1) :
    s1 = { s with currentIndex := (s.currentIndex + 1) % (s.states.length : Int) }
      ∧ s1.states = s.states ∧ s1.stateSize = s.stateSize ∧ s1.maxSamples = s.maxSamples
      ∧ s1.setLoop = s.setLoop
      ∧ s1.streamOutRegString = s.streamOutRegString
      ∧ s1.targetRegString = s.targetRegString
      ∧ s1.bufferSizeRegString = s.bufferSizeRegString
      ∧ s1.loopSizeRegString = s.loopSizeRegString
      ∧ s1.setLoopRegString = s.setLoopRegString
      ∧ s1.bufferStatusRegString = s.bufferStatusRegString
      ∧ s1.enableRegString = s.enableRegString
      ∧ s1.bufferRegString = s.bufferRegString := by
  have key : s1 = { s with currentIndex := (s.currentIndex + 1) % (s.states.length : Int) } := by
    rcases h with ⟨run, h⟩ | h
    · exact (update_done_eq fuel dev run s s1 trace t1 h).1
    · obtain ⟨t0, h0⟩ := check_done_inv fuel dev s s1 trace t1 h
      exact (update_done_eq fuel dev true s s1 t0 t1 h0).1
  refine ⟨key, ?_⟩
  rw [key]
  exact ⟨rfl, rfl, rfl, rfl, rfl, rfl, rfl, rfl, rfl, rfl, rfl, rfl⟩

theorem C16_only_current_index_changes_witness :
    ((∃ run : Bool, UpdateStreamOutBuffer 5 (steadyDevice 10) run demoStream []
          = Outcome.done demoStream0
              [DevOp.eReadName 7 "STREAM_OUT0_BUFFER_STATUS",
               DevOp.eWriteNameArray 7 "STREAM_OUT0_BUFFER_F32" 2 [5, 9 / 2],
               DevOp.eWriteNameArray 7 "STREAM_OUT0_BUFFER_F32" 2 [4, 7 / 2],
               DevOp.eNames 7 2 ["STREAM_OUT0_BUFFER_F32", "STREAM_OUT0_SET_LOOP"] [1, 1]
                 [1, 1] [3, 2]])
      ∨ CheckUpdateBuffer 5 (steadyDevice 10) demoStream []
          = Outcome.done demoStream0
              [DevOp.eReadName 7 "STREAM_OUT0_BUFFER_STATUS",
               DevOp.eWriteNameArray 7 "STREAM_OUT0_BUFFER_F32" 2 [5, 9 / 2],
               DevOp.eWriteNameArray 7 "STREAM_OUT0_BUFFER_F32" 2 [4, 7 / 2],
               DevOp.eNames 7 2 ["STREAM_OUT0_BUFFER_F32", "STREAM_OUT0_SET_LOOP"] [1, 1]
                 [1, 1] [3, 2]])
    ∧ demoStream0.states = demoStream.states ∧ demoStream0.maxSamples = demoStream.maxSamples :=
  ⟨Or.inr demo_check,
    (C16_only_current_index_changes 5 (steadyDevice 10) demoStream demoStream0 [] _
      (Or.inr demo_check)).2.1,
    (C16_only_current_index_changes 5 (steadyDevice 10) demoStream demoStream0 [] _
      (Or.inr demo_check)).2.2.2.1⟩

/-! ## The chunking limit (C18) -/

theorem tdiv_four_le (x : Int) (h : x ≤ 512) : x.tdiv 4 ≤ 128 := by
  by_cases hx : 0 ≤ x
  · rw [Int.tdiv_eq_ediv hx (by omega)]
    omega
  · have h1 : x.tdiv 4 = -((-x).tdiv 4) := by
      rw [Int.neg_tdiv, neg_neg]
    have h2 : (-x).tdiv 4 = (-x) / 4 := Int.tdiv_eq_ediv (by omega) (by omega)
    rw [h1, h2]
    omega

/-! ## `OutContext` and `StreamOut` agree (C17) -/

theorem toSizeT_eq (w : Nat) (x : Int) (h0 : 0 ≤ x) (h1 : x < 2 ^ w) : toSizeT w x = x :=
  Int.emod_eq_of_lt h0 h1

theorem oc_prepareForExit_eq (dev : Device) (handle : Int) (trace : List DevOp) :
    OutContext.PrepareForExit dev handle trace = PrepareForExit dev handle trace := rfl

theorem oc_generateState_loop_eq (a b c : ℚ) :
    ∀ (k : Nat) (i : Int) (values : List ℚ),
      OutContext.GenerateState.loop a b c k i values = GenerateState.loop a b c k i values := by
  intro k
  induction k with
  | zero => intro i values; rfl
  | succ k ih =>
    intro i values
    rw [OutContext.GenerateState.loop, GenerateState.loop, ih]

theorem oc_generateState_eq (n : Int) (a b : ℚ) :
    OutContext.GenerateState n a b = GenerateState n a b := by
  unfold OutContext.GenerateState GenerateState
  exact oc_generateState_loop_eq _ _ _ _ _ _

/-- The chunk loops agree from every offset `0 ≤ start ≤ length` when the
length fits in a `size_t`. -/
theorem oc_update_loop_eq (w : Nat) (dev : Device) (run : Bool) (s : StreamOut)
    (values : List ℚ) (hL : (values.length : Int) < 2 ^ w) :
    ∀ (fuel : Nat) (start : Int) (trace : List DevOp), 0 ≤ start →
      start ≤ (values.length : Int) →
      OutContext.UpdateStreamOutBuffer.loop w dev run s values fuel start trace
        = UpdateStreamOutBuffer.loop dev run s values fuel start trace := by
  intro fuel
  induction fuel with
  | zero =>
    intro start trace h0 h1
    rw [OutContext.UpdateStreamOutBuffer.loop, UpdateStreamOutBuffer.loop,
      toSizeT_eq w start h0 (by omega)]
  | succ fuel ih =>
    intro start trace h0 h1
    rw [OutContext.UpdateStreamOutBuffer.loop, UpdateStreamOutBuffer.loop,
      toSizeT_eq w start h0 (by omega)]
    by_cases hlt : start < (values.length : Int)
    · simp only [hlt, if_true]
      generalize hn : (if (values.length : Int) - start > s.maxSamples then s.maxSamples
        else (values.length : Int) - start) = n
      have hnle : n ≤ (values.length : Int) - start := by
        rw [← hn]; split <;> omega
      by_cases hneg : n < 0
      · simp only [hneg, if_true]
      · simp only [hneg, if_false]
        rw [toSizeT_eq w (start + n) (by omega) (by omega)]
        have ih2 : ∀ t : List DevOp,
            OutContext.UpdateStreamOutBuffer.loop w dev run s values fuel (start + n) t
              = UpdateStreamOutBuffer.loop dev run s values fuel (start + n) t :=
          fun t => ih (start + n) t (by omega) (by omega)
        simp only [ih2, oc_prepareForExit_eq]
    · simp only [hlt, if_false]

theorem oc_update_eq (w fuel : Nat) (dev : Device) (run : Bool) (s : StreamOut)
    (trace : List DevOp) (hL : ∀ st ∈ s.states, (st.values.length : Int) < 2 ^ w) :
    OutContext.UpdateStreamOutBuffer w fuel dev run s trace
      = UpdateStreamOutBuffer fuel dev run s trace := by
  unfold OutContext.UpdateStreamOutBuffer UpdateStreamOutBuffer
  by_cases h0 : s.currentIndex < 0
  · simp only [h0, if_true]
  · simp only [h0, if_false]
    cases hst : s.states[s.currentIndex.toNat]? with
    | none => rfl
    | some state =>
      have hmem : state ∈ s.states := List.getElem?_mem hst
      simp only
      rw [oc_update_loop_eq w dev run s state.values (hL state hmem) fuel 0 trace (le_refl 0)
        (by omega)]

theorem oc_check_loop_eq (dev : Device) (s : StreamOut) :
    ∀ (fuel : Nat) (b : ℚ) (ip : Int) (trace : List DevOp),
      OutContext.CheckUpdateBuffer.loop dev s fuel b ip trace
        = CheckUpdateBuffer.loop dev s fuel b ip trace := by
  intro fuel
  induction fuel with
  | zero => intro b ip trace; rfl
  | succ fuel ih =>
    intro b ip trace
    rw [OutContext.CheckUpdateBuffer.loop, CheckUpdateBuffer.loop]
    simp only [ih, oc_prepareForExit_eq]
    rfl

theorem oc_check_eq (w fuel : Nat) (dev : Device) (s : StreamOut) (trace : List DevOp)
    (hL : ∀ st ∈ s.states, (st.values.length : Int) < 2 ^ w) :
    OutContext.CheckUpdateBuffer w fuel dev s trace = CheckUpdateBuffer fuel dev s trace := by
  unfold OutContext.CheckUpdateBuffer CheckUpdateBuffer
  rw [oc_check_loop_eq]
  cases CheckUpdateBuffer.loop dev s fuel 0 0 trace with
  | done u t => exact oc_update_eq w fuel dev true s t hL
  | exited c t => rfl
  | undefined t => rfl
  | outOfFuel t => rfl

theorem oc_new_eq (w fuel : Nat) (lib : Lib) (dev : Device) (info : StreamInfo) (handle : Int)
    (trace : List DevOp) (hlib : (lib.nameToAddress info.target).1 = 0) :
    OutContext.new w fuel lib dev info handle trace
      = match InitializeStreamOut dev (StreamOut.configured lib info handle) trace with
        | Outcome.exited code trace => Outcome.exited code trace
        | Outcome.undefined trace => Outcome.undefined trace
        | Outcome.outOfFuel trace => Outcome.outOfFuel trace
        | Outcome.done _ trace =>
          OutContext.UpdateStreamOutBuffer w fuel dev false
            (StreamOut.configured lib info handle) trace := by
  have hlib2 : ¬ (lib.nameToAddress info.target).1 ≠ 0 := by simp [hlib]
  unfold OutContext.new OutContext.ConvertNameToOutBufferTypeStr ErrorCheck
    StreamOut.configured OutContext.CreateStreamOutNames StreamOut.blank
    OutContext.BYTES_PER_VALUE
  simp only [oc_generateState_eq]
  by_cases h1 : (lib.nameToAddress info.target).2.2 = lib.LJM_UINT16
  · by_cases h4 : lib.maxBytes > 524
    · simp only [if_pos h1, if_pos h4, if_neg hlib2]; rfl
    · simp only [if_pos h1, if_neg h4, if_neg hlib2]; rfl
  · by_cases h2 : (lib.nameToAddress info.target).2.2 = lib.LJM_UINT32
    · by_cases h4 : lib.maxBytes > 524
      · simp only [if_neg h1, if_pos h2, if_pos h4, if_neg hlib2]; rfl
      · simp only [if_neg h1, if_pos h2, if_neg h4, if_neg hlib2]; rfl
    · by_cases h3 : (lib.nameToAddress info.target).2.2 = lib.LJM_FLOAT32
      · by_cases h4 : lib.maxBytes > 524
        · simp only [if_neg h1, if_neg h2, if_pos h3, if_pos h4, if_neg hlib2]; rfl
        · simp only [if_neg h1, if_neg h2, if_pos h3, if_neg h4, if_neg hlib2]; rfl
      · by_cases h4 : lib.maxBytes > 524
        · simp only [if_neg h1, if_neg h2, if_neg h3, if_pos h4, if_neg hlib2]; rfl
        · simp only [if_neg h1, if_neg h2, if_neg h3, if_neg h4, if_neg hlib2]; rfl

/-- When the target name does not resolve, both constructors exit at once. -/
theorem new_name_error (w fuel : Nat) (lib : Lib) (dev : Device) (info : StreamInfo)
    (handle : Int) (trace : List DevOp) (hlib : (lib.nameToAddress info.target).1 ≠ 0) :
    StreamOut.new fuel lib dev info handle trace
        = Outcome.exited (lib.nameToAddress info.target).1 trace
      ∧ OutContext.new w fuel lib dev info handle trace
        = Outcome.exited (lib.nameToAddress info.target).1 trace := by
  constructor
  · unfold StreamOut.new ConvertNameToOutBufferTypeStr ErrorCheck
    simp only [if_pos hlib]
  · unfold OutContext.new OutContext.ConvertNameToOutBufferTypeStr ErrorCheck
    simp only [if_pos hlib]

/-- The states of the configured object fit in a `size_t` of at least 32 bits
when `bufferNumBytes` is an `int`. -/
theorem configured_states_fit (w : Nat) (lib : Lib) (info : StreamInfo) (handle : Int)
    (hw : 32 ≤ w) (hb : info.bufferNumBytes < 2 ^ 31) :
    ∀ st ∈ (StreamOut.configured lib info handle).states,
      (st.values.length : Int) < 2 ^ w := by
  have hpow : (2 : Int) ^ 32 ≤ 2 ^ w := pow_le_pow_right₀ (by norm_num) hw
  have hsz : (((info.bufferNumBytes.tdiv 2).tdiv 2).toNat : Int) < 2 ^ 32 := by
    by_cases h0 : 0 ≤ info.bufferNumBytes
    · rw [Int.tdiv_eq_ediv h0 (by omega), Int.tdiv_eq_ediv (by omega) (by omega)]
      norm_num at hb ⊢
      omega
    · have h1 : info.bufferNumBytes.tdiv 2 = -((-info.bufferNumBytes).tdiv 2) := by
        rw [Int.neg_tdiv, neg_neg]
      have h2 : (-info.bufferNumBytes).tdiv 2 = (-info.bufferNumBytes) / 2 :=
        Int.tdiv_eq_ediv (by omega) (by omega)
      have h3 : (-((-info.bufferNumBytes) / 2)).tdiv 2
          = -(((-info.bufferNumBytes) / 2).tdiv 2) := by
        rw [Int.neg_tdiv]
      have h4 : ((-info.bufferNumBytes) / 2).tdiv 2 = ((-info.bufferNumBytes) / 2) / 2 :=
        Int.tdiv_eq_ediv (by omega) (by omega)
      rw [h1, h2, h3, h4]
      norm_num
      omega
  intro st hst
  simp only [StreamOut.configured, List.mem_cons, List.mem_singleton, List.not_mem_nil,
    or_false] at hst
  rcases hst with rfl | rfl <;>
    (simp only [generateState_length]; omega)

theorem oc_new_eq_new (w fuel : Nat) (lib : Lib) (dev : Device) (info : StreamInfo)
    (handle : Int) (trace : List DevOp) (hw : 32 ≤ w) (hb : info.bufferNumBytes < 2 ^ 31) :
    OutContext.new w fuel lib dev info handle trace
      = StreamOut.new fuel lib dev info handle trace := by
  by_cases hlib : (lib.nameToAddress info.target).1 = 0
  · rw [oc_new_eq w fuel lib dev info handle trace hlib,
      new_eq fuel lib dev info handle trace hlib]
    cases InitializeStreamOut dev (StreamOut.configured lib info handle) trace with
    | done u t =>
      exact oc_update_eq w fuel dev false _ t (configured_states_fit w lib info handle hw hb)
    | exited c t => rfl
    | undefined t => rfl
    | outOfFuel t => rfl
  · obtain ⟨h1, h2⟩ := new_name_error w fuel lib dev info handle trace hlib
    rw [h1, h2]

theorem oc_runChecks_eq (w fuel : Nat) (dev : Device) :
    ∀ (n : Nat) (s : StreamOut) (trace : List DevOp),
      (∀ st ∈ s.states, (st.values.length : Int) < 2 ^ w) →
      runChecks (OutContext.CheckUpdateBuffer w fuel dev) n s trace
        = runChecks (CheckUpdateBuffer fuel dev) n s trace := by
  intro n
  induction n with
  | zero => intro s trace _; rfl
  | succ n ih =>
    intro s trace hL
    rw [runChecks, runChecks, oc_check_eq w fuel dev s trace hL]
    cases hc : CheckUpdateBuffer fuel dev s trace with
    | done s1 t1 =>
      obtain ⟨t0, h0⟩ := check_done_inv fuel dev s s1 trace t1 hc
      have hs : s1.states = s.states := by
        rw [(update_done_eq fuel dev true s s1 t0 t1 h0).1]
      exact ih s1 t1 (by rw [hs]; exact hL)
    | exited c t => rfl
    | undefined t => rfl
    | outOfFuel t => rfl

/-- C17: `OutContext` and `StreamOut` are two implementations of the same
buffer manager.  For the same stream-out description (its `bufferNumBytes` an
`int`), the same handle information and the same device answers, with a
`size_t` of at least 32 bits, the two constructors end in the same way, and so
does construction followed by any number `n` of `CheckUpdateBuffer` calls: the
same sequence of device operations with the same arguments, and, when the
session returns, the same manager (`stateSize`, `maxSamples`, `states`,
`currentIndex` and every other field). -/
theorem C17_out_context_agrees_with_stream_out (w fuel : Nat) (lib : Lib) (dev : Device)
    (info : StreamInfo) (handle : Int) (trace : List DevOp) (hw : 32 ≤ w)
    (hb : info.bufferNumBytes < 2 ^ 31) :
    OutContext.new w fuel lib dev info handle trace
        = StreamOut.new fuel lib dev info handle trace
      ∧ ∀ n : Nat,
          OutContext.session w fuel lib dev info handle n trace
            = StreamOut.session fuel lib dev info handle n trace := by
  have hnew := oc_new_eq_new w fuel lib dev info handle trace hw hb
  refine ⟨hnew, ?_⟩
  intro n
  unfold OutContext.session StreamOut.session
  rw [hnew]
  cases hc : StreamOut.new fuel lib dev info handle trace with
  | done s t =>
    obtain ⟨hss, _, _, hstates, _⟩ := new_done_fields fuel lib dev info handle trace s t hc
    have hfit := configured_states_fit w lib info handle hw hb
    have hst : s.states = (StreamOut.configured lib info handle).states := by
      rw [hstates, hss]
      rfl
    exact oc_runChecks_eq w fuel dev n s t (by rw [hst]; exact hfit)
  | exited c t => rfl
  | undefined t => rfl
  | outOfFuel t => rfl

theorem C17_out_context_agrees_with_stream_out_witness :
    ((32 : Nat) ≤ 32 ∧ demoInfo.bufferNumBytes < 2 ^ 31)
    ∧ OutContext.new 32 5 demoLib okDevice demoInfo 7 [] = Outcome.done demoStream demoTrace
    ∧ ∀ n : Nat,
        OutContext.session 32 5 demoLib (steadyDevice 10) demoInfo 7 n []
          = StreamOut.session 5 demoLib (steadyDevice 10) demoInfo 7 n [] :=
  ⟨⟨by decide, by decide⟩,
    (C17_out_context_agrees_with_stream_out 32 5 demoLib okDevice demoInfo 7 [] (by decide)
      (by decide)).1.trans demo_new,
    (C17_out_context_agrees_with_stream_out 32 5 demoLib (steadyDevice 10) demoInfo 7 []
      (by decide) (by decide)).2⟩

/-! ## Register names -/

theorem new_done_configured (fuel : Nat) (lib : Lib) (dev : Device) (info : StreamInfo)
    (handle : Int) (trace : List DevOp) (s : StreamOut) (t : List DevOp)
    (h : StreamOut.new fuel lib dev info handle trace = Outcome.done s t) :
    (lib.nameToAddress info.target).1 = 0
      ∧ s = { StreamOut.configured lib info handle with currentIndex := 1 } := by
  by_cases hlib : (lib.nameToAddress info.target).1 = 0
  · refine ⟨hlib, ?_⟩
    rw [new_eq fuel lib dev info handle trace hlib] at h
    split at h
    · cases h
    · cases h
    · cases h
    · obtain ⟨rfl, _, _⟩ := update_done_eq _ _ _ _ _ _ _ h
      simp [StreamOut.configured]
  · exfalso
    unfold StreamOut.new ConvertNameToOutBufferTypeStr ErrorCheck at h
    simp only [StreamOut.blank, hlib, ne_eq, not_false_eq_true, if_true] at h
    cases h

theorem convert_type_string (lib : Lib) (s : StreamOut) (trace : List DevOp)
    (hlib : (lib.nameToAddress s.target).1 = 0) :
    ConvertNameToOutBufferTypeStr lib s trace
      = Outcome.done
          { s with
            targetTypeString :=
              if (lib.nameToAddress s.target).2.2 = lib.LJM_UINT16 then "U16"
              else if (lib.nameToAddress s.target).2.2 = lib.LJM_UINT32 then "U32"
              else if (lib.nameToAddress s.target).2.2 = lib.LJM_FLOAT32 then "F32"
              else "U32" } trace := by
  unfold ConvertNameToOutBufferTypeStr ErrorCheck
  simp only [hlib, ne_eq, not_true_eq_false, if_false]
  split_ifs <;> rfl

/-- C21: when the target name resolves, `ConvertNameToOutBufferTypeStr`
returns with a type string `T` that is "U16" for `LJM_UINT16`, "U32" for
`LJM_UINT32`, "F32" for `LJM_FLOAT32` and "U32" for every other type (the
three type codes being distinct, as the labels of a `switch` are), and
`CreateStreamOutNames` then builds the buffer register name as base + index +
"_BUFFER_" + `T` and the six other names as base + index followed by
`_TARGET`, `_BUFFER_SIZE`, `_LOOP_SIZE`, `_SET_LOOP`, `_BUFFER_STATUS` and
`_ENABLE`; the constructor sets the base to "STREAM_OUT", so every manager it
returns carries "STREAM_OUT" + index + suffix. -/
theorem C21_register_names_by_type (lib : Lib) (s0 : StreamOut) (trace : List DevOp)
    (hlib : (lib.nameToAddress s0.target).1 = 0)
    (h1 : lib.LJM_UINT16 ≠ lib.LJM_UINT32) (h2 : lib.LJM_UINT16 ≠ lib.LJM_FLOAT32)
    (h3 : lib.LJM_UINT32 ≠ lib.LJM_FLOAT32) :
    ∃ T : String,
      ConvertNameToOutBufferTypeStr lib s0 trace
          = Outcome.done { s0 with targetTypeString := T } trace
        ∧ ((lib.nameToAddress s0.target).2.2 = lib.LJM_UINT16 → T = "U16")
        ∧ ((lib.nameToAddress s0.target).2.2 = lib.LJM_UINT32 → T = "U32")
        ∧ ((lib.nameToAddress s0.target).2.2 = lib.LJM_FLOAT32 → T = "F32")
        ∧ ((lib.nameToAddress s0.target).2.2 ≠ lib.LJM_UINT16 →
            (lib.nameToAddress s0.target).2.2 ≠ lib.LJM_UINT32 →
            (lib.nameToAddress s0.target).2.2 ≠ lib.LJM_FLOAT32 → T = "U32")
        ∧ (CreateStreamOutNames { s0 with targetTypeString := T }).bufferRegString
            = s0.streamOutRegString ++ s0.streamOutIndex ++ "_BUFFER_" ++ T
        ∧ (CreateStreamOutNames { s0 with targetTypeString := T }).targetRegString
            = s0.streamOutRegString ++ s0.streamOutIndex ++ "_TARGET"
        ∧ (CreateStreamOutNames { s0 with targetTypeString := T }).bufferSizeRegString
            = s0.streamOutRegString ++ s0.streamOutIndex ++ "_BUFFER_SIZE"
        ∧ (CreateStreamOutNames { s0 with targetTypeString := T }).loopSizeRegString
            = s0.streamOutRegString ++ s0.streamOutIndex ++ "_LOOP_SIZE"
        ∧ (CreateStreamOutNames { s0 with targetTypeString := T }).setLoopRegString
            = s0.streamOutRegString ++ s0.streamOutIndex ++ "_SET_LOOP"
        ∧ (CreateStreamOutNames { s0 with targetTypeString := T }).bufferStatusRegString
            = s0.streamOutRegString ++ s0.streamOutIndex ++ "_BUFFER_STATUS"
        ∧ (CreateStreamOutNames { s0 with targetTypeString := T }).enableRegString
            = s0.streamOutRegString ++ s0.streamOutIndex ++ "_ENABLE"
        ∧ ∀ (fuel : Nat) (dev : Device) (info : StreamInfo) (handle : Int) (s : StreamOut)
            (t : List DevOp), info.target = s0.target →
            StreamOut.new fuel lib dev info handle trace = Outcome.done s t →
            s.bufferRegString = "STREAM_OUT" ++ info.indexString ++ "_BUFFER_" ++ T
              ∧ s.targetRegString = "STREAM_OUT" ++ info.indexString ++ "_TARGET"
              ∧ s.bufferSizeRegString = "STREAM_OUT" ++ info.indexString ++ "_BUFFER_SIZE"
              ∧ s.loopSizeRegString = "STREAM_OUT" ++ info.indexString ++ "_LOOP_SIZE"
              ∧ s.setLoopRegString = "STREAM_OUT" ++ info.indexString ++ "_SET_LOOP"
              ∧ s.bufferStatusRegString
                  = "STREAM_OUT" ++ info.indexString ++ "_BUFFER_STATUS"
              ∧ s.enableRegString = "STREAM_OUT" ++ info.indexString ++ "_ENABLE" := by
  refine ⟨_, convert_type_string lib s0 trace hlib, ?_, ?_, ?_, ?_, rfl, rfl, rfl, rfl, rfl,
    rfl, rfl, ?_⟩
  · intro h
    simp only [h, if_true]
  · intro h
    have h' : ¬ lib.LJM_UINT32 = lib.LJM_UINT16 := fun e => h1 e.symm
    simp only [h, h', if_true, if_false]
  · intro h
    have h' : ¬ lib.LJM_FLOAT32 = lib.LJM_UINT16 := fun e => h2 e.symm
    have h'' : ¬ lib.LJM_FLOAT32 = lib.LJM_UINT32 := fun e => h3 e.symm
    simp only [h, h', h'', if_true, if_false]
  · intro a b c
    simp only [a, b, c, if_false]
  · intro fuel dev info handle s t htarget hnew
    obtain ⟨_, rfl⟩ := new_done_configured _ _ _ _ _ _ _ _ hnew
    simp [StreamOut.configured, htarget]

theorem C21_register_names_by_type_witness :
    ConvertNameToOutBufferTypeStr demoLib demoStream0 []
        = Outcome.done { demoStream0 with targetTypeString := "F32" } []
      ∧ (CreateStreamOutNames
            { demoStream0 with
              streamOutRegString := "STREAM_OUT", targetTypeString := "F32" }).bufferRegString
          = "STREAM_OUT0_BUFFER_F32" := by
  obtain ⟨T, hc, _, _, hf, _⟩ :=
    C21_register_names_by_type demoLib demoStream0 [] rfl (by decide) (by decide) (by decide)
  have hT : T = "F32" := hf rfl
  subst hT
  exact ⟨hc, by decide⟩

/-! ## The fatal exit of `CheckUpdateBuffer` -/

/-- C22: for `stateSize ≥ 2` (and fuel for the 201 polls) the wait loop of
`CheckUpdateBuffer` exits the program if and only if each of the first 200
buffer-status values read is below `stateSize - 1`.  In that case the call
ends after exactly 201 status reads followed by the `LJM_eStreamStop` of
`PrepareForExit` (and its `LJM_Close` when the stop succeeds), whatever the
201st value is, and no buffer write is issued; otherwise it goes on to
`UpdateStreamOutBuffer` after at most 200 reads. -/
theorem C22_fatal_exit_iff_first_200_low (fuel : Nat) (dev : Device) (s : StreamOut)
    (trace : List DevOp) (hfuel : 201 ≤ fuel) (hsize : 2 ≤ s.stateSize) :
    ((∃ (code : Int) (t : List DevOp),
          CheckUpdateBuffer.loop dev s fuel 0 0 trace = Outcome.exited code t)
        ↔ ∀ i : Nat, i < 200 → dev.value (trace.length + i) < (s.stateSize : ℚ) - 1)
      ∧ ((∀ i : Nat, i < 200 → dev.value (trace.length + i) < (s.stateSize : ℚ) - 1) →
          ∃ (code : Int) (ops : List DevOp),
            CheckUpdateBuffer fuel dev s trace
                = Outcome.exited code
                    (trace ++ List.replicate 201 (statusRead s)
                      ++ DevOp.eStreamStop s.handle :: ops)
              ∧ (ops = [] ∨ ops = [DevOp.close s.handle]))
      ∧ (¬ (∀ i : Nat, i < 200 → dev.value (trace.length + i) < (s.stateSize : ℚ) - 1) →
          ∃ n : Nat, 1 ≤ n ∧ n ≤ 200
            ∧ ¬ dev.value (trace.length + (n - 1)) < (s.stateSize : ℚ) - 1
            ∧ CheckUpdateBuffer fuel dev s trace
                = UpdateStreamOutBuffer fuel dev true s
                    (trace ++ List.replicate n (statusRead s))) := by
  have hthr : 0 < threshold s := by
    rw [threshold_eq]
    have : (2 : ℚ) ≤ (s.stateSize : ℚ) := by exact_mod_cast hsize
    linarith
  rw [← threshold_eq]
  rcases poll_loop dev s fuel 0 0 trace (by omega) (by omega) hthr
    with ⟨n, hn1, hn2, hlow, hlast, hrun⟩ | ⟨hlow, hrun⟩
  · have hrun2 : CheckUpdateBuffer.loop dev s fuel 0 0 trace
        = Outcome.done () (trace ++ List.replicate n (statusRead s)) := by
      simpa using hrun
    have hnot : ¬ ∀ i : Nat, i < 200 → dev.value (trace.length + i) < threshold s :=
      fun hall => hlast (hall (n - 1) (by omega))
    refine ⟨⟨?_, fun hall => absurd hall hnot⟩, fun hall => absurd hall hnot, ?_⟩
    · rintro ⟨code, t, ht⟩
      rw [hrun2] at ht
      cases ht
    · intro _
      refine ⟨n, hn1, by omega, hlast, ?_⟩
      unfold CheckUpdateBuffer
      rw [hrun2]
  · have hall : ∀ i : Nat, i < 200 → dev.value (trace.length + i) < threshold s :=
      fun i hi => hlow i (by omega)
    have hrun2 : CheckUpdateBuffer.loop dev s fuel 0 0 trace
        = exitAfter (PrepareForExit dev s.handle
            (trace ++ List.replicate 201 (statusRead s))) (-1) := by
      simpa using hrun
    refine ⟨⟨fun _ => hall, fun _ => ?_⟩, fun _ => ?_, fun hnot => absurd hall hnot⟩
    · obtain ⟨code, ops, he, _⟩ := fatal_exit_cases Unit dev s.handle
        (trace ++ List.replicate 201 (statusRead s))
      exact ⟨code, _, hrun2.trans he⟩
    · obtain ⟨code, ops, he, hops, _⟩ := fatal_exit_cases StreamOut dev s.handle
        (trace ++ List.replicate 201 (statusRead s))
      refine ⟨code, ops, ?_, hops⟩
      unfold CheckUpdateBuffer
      rw [hrun2, exitAfter_propagates]
      exact he

theorem C22_fatal_exit_iff_first_200_low_witness :
    (201 ≤ 201) ∧ (2 ≤ demoStream.stateSize)
      ∧ ((∃ (code : Int) (t : List DevOp),
            CheckUpdateBuffer.loop (steadyDevice 0) demoStream 201 0 0 []
              = Outcome.exited code t)
          ↔ ∀ i : Nat, i < 200 →
              (steadyDevice 0).value (([] : List DevOp).length + i)
                < (demoStream.stateSize : ℚ) - 1) :=
  ⟨le_refl _, by decide,
    (C22_fatal_exit_iff_first_200_low 201 (steadyDevice 0) demoStream [] (le_refl _)
      (by decide)).1⟩

/-! ## Progress of the chunk loop -/

theorem tdiv_four_cases (x : Int) :
    (1 ≤ x.tdiv 4 - 1 ↔ 8 ≤ x) ∧ (x.tdiv 4 - 1 = 0 ↔ 4 ≤ x ∧ x ≤ 7) := by
  by_cases hx : 0 ≤ x
  · rw [Int.tdiv_eq_ediv hx (by omega)]
    omega
  · have h1 : x.tdiv 4 = -((-x).tdiv 4) := by
      rw [Int.neg_tdiv, neg_neg]
    have h2 : (-x).tdiv 4 = (-x) / 4 := Int.tdiv_eq_ediv (by omega) (by omega)
    rw [h1, h2]
    omega

theorem loop_step (dev : Device) (run : Bool) (s : StreamOut) (values : List ℚ)
    (fuel : Nat) (start : Int) (trace : List DevOp) (hlt : start < (values.length : Int))
    (hM : 0 ≤ s.maxSamples) (herr : dev.err trace.length = 0) (n : Int)
    (hn : n = if (values.length : Int) - start > s.maxSamples then s.maxSamples
      else (values.length : Int) - start) :
    UpdateStreamOutBuffer.loop dev run s values (fuel + 1) start trace
      = UpdateStreamOutBuffer.loop dev run s values fuel (start + n)
          (trace ++
            [if start + n ≥ (values.length : Int) then
                DevOp.eNames s.handle 2 [s.bufferRegString, s.setLoopRegString] [1, 1] [n, 1]
                  ((values.drop start.toNat).take n.toNat ++ [(s.setLoop : ℚ)])
              else
                DevOp.eWriteNameArray s.handle s.bufferRegString n
                  ((values.drop start.toNat).take n.toNat)]) := by
  rw [UpdateStreamOutBuffer.loop]
  simp only [hlt, if_true]
  rw [← hn]
  have hneg : ¬ n < 0 := by
    rw [hn]; split <;> omega
  simp only [hneg, if_false]
  by_cases hend : start + n ≥ (values.length : Int)
  · simp only [hend, if_true, call, ErrorCheck, herr, ne_eq, not_true_eq_false, if_false]
  · simp only [hend, if_false, call, ErrorCheck, herr, ne_eq, not_true_eq_false, false_and,
      if_false]

theorem loop_step_error (dev : Device) (run : Bool) (s : StreamOut) (values : List ℚ)
    (fuel : Nat) (start : Int) (trace : List DevOp) (hlt : start < (values.length : Int))
    (hM : 0 ≤ s.maxSamples) (herr : dev.err trace.length ≠ 0) :
    ∃ (code : Int) (t : List DevOp),
      UpdateStreamOutBuffer.loop dev run s values (fuel + 1) start trace
        = Outcome.exited code t := by
  rw [UpdateStreamOutBuffer.loop]
  simp only [hlt, if_true]
  generalize hn : (if (values.length : Int) - start > s.maxSamples then s.maxSamples
    else (values.length : Int) - start) = n
  have hneg : ¬ n < 0 := by
    rw [← hn]; split <;> omega
  simp only [hneg, if_false]
  by_cases hend : start + n ≥ (values.length : Int)
  · simp only [hend, if_true, call, ErrorCheck, herr, ne_eq, not_false_eq_true]
    exact ⟨_, _, rfl⟩
  · simp only [hend, if_false, call, ErrorCheck]
    by_cases hrun : run = true
    · simp only [herr, hrun, ne_eq, not_false_eq_true, and_self, if_true]
      rcases prepareForExit_cases dev s.handle (trace ++
        [DevOp.eWriteNameArray s.handle s.bufferRegString n
          ((values.drop start.toNat).take n.toNat)]) with h | h | h
      all_goals
        rw [h]
        exact ⟨_, _, rfl⟩
    · simp only [herr, hrun, ne_eq, not_false_eq_true, and_false, if_false, if_true]
      exact ⟨_, _, rfl⟩

theorem loop_ends (dev : Device) (run : Bool) (s : StreamOut) (values : List ℚ)
    (hM : 1 ≤ s.maxSamples) :
    ∀ (fuel : Nat) (start : Int) (trace : List DevOp), 0 ≤ start →
      (values.length : Int) - start ≤ (fuel : Int) →
      ∃ t : List DevOp,
        UpdateStreamOutBuffer.loop dev run s values fuel start trace = Outcome.done () t
          ∨ ∃ code : Int,
              UpdateStreamOutBuffer.loop dev run s values fuel start trace
                = Outcome.exited code t := by
  intro fuel
  induction fuel with
  | zero =>
    intro start trace _ hf
    exact ⟨trace, Or.inl (loop_finished dev run s values 0 start trace (by omega))⟩
  | succ fuel ih =>
    intro start trace h0 hf
    by_cases hlt : start < (values.length : Int)
    · by_cases herr : dev.err trace.length = 0
      · rw [loop_step dev run s values fuel start trace hlt (by omega) herr _ rfl]
        apply ih
        · split <;> omega
        · split <;> omega
      · obtain ⟨code, t, h⟩ :=
          loop_step_error dev run s values fuel start trace hlt (by omega) herr
        exact ⟨t, Or.inr ⟨code, h⟩⟩
    · exact ⟨trace, Or.inl (loop_finished dev run s values _ start trace (by omega))⟩

theorem loop_stalls (dev : Device) (run : Bool) (s : StreamOut) (values : List ℚ)
    (hM : s.maxSamples = 0) (hdev : ∀ k, dev.err k = 0) (start : Int)
    (hlt : start < (values.length : Int)) :
    ∀ (fuel : Nat) (trace : List DevOp),
      UpdateStreamOutBuffer.loop dev run s values fuel start trace
        = Outcome.outOfFuel
            (trace ++ List.replicate fuel
              (DevOp.eWriteNameArray s.handle s.bufferRegString 0 [])) := by
  intro fuel
  induction fuel with
  | zero =>
    intro trace
    rw [UpdateStreamOutBuffer.loop]
    simp [hlt]
  | succ fuel ih =>
    intro trace
    have hn : (0 : Int) = if (values.length : Int) - start > s.maxSamples then s.maxSamples
        else (values.length : Int) - start := by
      rw [hM, if_pos (by omega)]
    rw [loop_step dev run s values fuel start trace hlt (by omega) (hdev _) 0 hn]
    have hend : ¬ start + 0 ≥ (values.length : Int) := by omega
    rw [if_neg hend, add_zero, ih]
    simp [List.replicate_succ]

/-! ## The index invariant -/

/-- C24: every manager reachable from a construction that returned, by any
number of `CheckUpdateBuffer` and `UpdateStreamOutBuffer` calls that returned,
has two states and `0 ≤ currentIndex < states.size()`, so the access
`states[currentIndex]` of the next call finds a state. -/
theorem C24_current_index_in_bounds (s : StreamOut) (h : Reachable s) :
    0 ≤ s.currentIndex ∧ s.currentIndex < (s.states.length : Int)
      ∧ s.states.length = 2
      ∧ ∃ state : StateInfo, s.states[s.currentIndex.toNat]? = some state := by
  have key : 0 ≤ s.currentIndex ∧ s.currentIndex < (s.states.length : Int)
      ∧ s.states.length = 2 := by
    induction h with
    | construct fuel lib dev info handle trace s t hnew =>
      obtain ⟨_, _, _, hst, hci⟩ := new_done_fields fuel lib dev info handle trace s t hnew
      rw [hst, hci]
      simp
    | update fuel dev run s trace s1 t1 _ hrun ih =>
      obtain ⟨rfl, _, _⟩ := update_done_eq fuel dev run s s1 trace t1 hrun
      obtain ⟨_, _, h2⟩ := ih
      simp only [h2]
      refine ⟨?_, ?_, trivial⟩
      · exact Int.emod_nonneg _ (by norm_num)
      · exact Int.emod_lt_of_pos _ (by norm_num)
    | check fuel dev s trace s1 t1 _ hrun ih =>
      obtain ⟨t0, hupd⟩ := check_done_inv fuel dev s s1 trace t1 hrun
      obtain ⟨rfl, _, _⟩ := update_done_eq fuel dev true s s1 t0 t1 hupd
      obtain ⟨_, _, h2⟩ := ih
      simp only [h2]
      refine ⟨?_, ?_, trivial⟩
      · exact Int.emod_nonneg _ (by norm_num)
      · exact Int.emod_lt_of_pos _ (by norm_num)
  obtain ⟨h0, h1, h2⟩ := key
  have hlt : s.currentIndex.toNat < s.states.length := by omega
  exact ⟨h0, h1, h2, s.states[s.currentIndex.toNat], List.getElem?_eq_getElem hlt⟩

theorem C24_current_index_in_bounds_witness :
    Reachable demoStream
      ∧ 0 ≤ demoStream.currentIndex
      ∧ demoStream.currentIndex < (demoStream.states.length : Int) :=
  have hr : Reachable demoStream :=
    Reachable.construct 5 demoLib okDevice demoInfo 7 [] demoStream demoTrace demo_new
  ⟨hr, (C24_current_index_in_bounds demoStream hr).1,
    (C24_current_index_in_bounds demoStream hr).2.1⟩

/-! ## Empty states -/

theorem small_buffer_state_size (b : Int) (h0 : 0 ≤ b) (h4 : b < 4) :
    (b.tdiv 2).tdiv 2 = 0 := by
  rw [Int.tdiv_eq_ediv h0 (by omega), Int.tdiv_eq_ediv (by omega) (by omega)]
  omega

theorem generateState_zero (startVal changeInVal : ℚ) :
    GenerateState 0 startVal changeInVal = [] := by
  have h := generateState_length 0 startVal changeInVal
  exact List.length_eq_zero.mp (by simpa using h)

/-- C25: with `0 ≤ bufferNumBytes < 4` the constructor computes
`stateSize = 0` and both generated states are empty; on every manager that
holds these states, `UpdateStreamOutBuffer` returns with the trace of device
calls unchanged (no write at all, the set-loop write included) and with
`currentIndex` advanced to `(currentIndex + 1) mod 2`, for every fuel, device
and flag.  Every manager the constructor returns holds these states. -/
theorem C25_empty_state_no_write (lib : Lib) (info : StreamInfo) (handle : Int)
    (h0 : 0 ≤ info.bufferNumBytes) (h4 : info.bufferNumBytes < 4) :
    (StreamOut.configured lib info handle).stateSize = 0
      ∧ (∀ st ∈ (StreamOut.configured lib info handle).states, st.values = [])
      ∧ (∀ (s : StreamOut) (fuel : Nat) (dev : Device) (run : Bool) (trace : List DevOp),
          s.states = (StreamOut.configured lib info handle).states →
          0 ≤ s.currentIndex → s.currentIndex < 2 →
          UpdateStreamOutBuffer fuel dev run s trace
            = Outcome.done { s with currentIndex := (s.currentIndex + 1) % 2 } trace)
      ∧ (∀ (fuel : Nat) (dev : Device) (trace : List DevOp) (s : StreamOut) (t : List DevOp),
          StreamOut.new fuel lib dev info handle trace = Outcome.done s t →
          s.stateSize = 0 ∧ s.states = (StreamOut.configured lib info handle).states) := by
  have hsz : (StreamOut.configured lib info handle).stateSize = 0 :=
    small_buffer_state_size _ h0 h4
  have hst : (StreamOut.configured lib info handle).states
      = [{ stateString := "increase from 0.0 to 2.5", values := [] },
         { stateString := "decrease from 5.0 to 2.5", values := [] }] := by
    have e : (StreamOut.configured lib info handle).states
        = [{ stateString := "increase from 0.0 to 2.5",
             values := GenerateState ((info.bufferNumBytes.tdiv 2).tdiv 2) 0 (5 / 2) },
           { stateString := "decrease from 5.0 to 2.5",
             values := GenerateState ((info.bufferNumBytes.tdiv 2).tdiv 2) 5 (-(5 / 2)) }] :=
      rfl
    rw [e, small_buffer_state_size _ h0 h4, generateState_zero, generateState_zero]
  refine ⟨hsz, ?_, ?_, ?_⟩
  · intro st hmem
    rw [hst] at hmem
    simp only [List.mem_cons, List.mem_singleton, List.not_mem_nil, or_false] at hmem
    rcases hmem with rfl | rfl <;> rfl
  · intro s fuel dev run trace hs hc0 hc2
    have hlen : s.states.length = 2 := by rw [hs, hst]; rfl
    have hlt : s.currentIndex.toNat < s.states.length := by omega
    have hall : ∀ st ∈ s.states, st.values = [] := by
      intro st hmem
      rw [hs, hst] at hmem
      simp only [List.mem_cons, List.mem_singleton, List.not_mem_nil, or_false] at hmem
      rcases hmem with h | h <;> rw [h]
    have hnil : (s.states[s.currentIndex.toNat]).values = [] :=
      hall _ (List.getElem_mem _)
    have := update_empty fuel dev run s trace _ hc0 (List.getElem?_eq_getElem hlt) hnil
    rw [this, hlen]
    rfl
  · intro fuel dev trace s t hnew
    obtain ⟨_, rfl⟩ := new_done_configured fuel lib dev info handle trace s t hnew
    exact ⟨hsz, rfl⟩

theorem C25_empty_state_no_write_witness :
    (0 ≤ emptyInfo.bufferNumBytes) ∧ (emptyInfo.bufferNumBytes < 4)
      ∧ (StreamOut.configured demoLib emptyInfo 7).stateSize = 0 :=
  ⟨by decide, by decide,
    (C25_empty_state_no_write demoLib emptyInfo 7 (by decide) (by decide)).1⟩

/-! ## The shipped configuration -/

/-- C26: with `bufferNumBytes = BUFFER_NUM_BYTES = 512` on a connection that
reports `maxBytes ≥ 524`, the constructor computes `stateSize = 128` and
`maxSamples = 127`, each state has 128 samples, and on an accepting device
(fuel for 128 iterations) `UpdateStreamOutBuffer` writes the current state in
exactly two calls: `LJM_eWriteNameArray` with its first 127 samples, then
`LJM_eNames` with the last sample followed by the set-loop value.  Every
manager the constructor returns is the configured one with index 1. -/
theorem C26_shipped_configuration_two_writes (lib : Lib) (info : StreamInfo) (handle : Int)
    (hb : info.bufferNumBytes = BUFFER_NUM_BYTES) (hmax : 524 ≤ lib.maxBytes) :
    (StreamOut.configured lib info handle).stateSize = 128
      ∧ (StreamOut.configured lib info handle).maxSamples = 127
      ∧ (∀ (fuel : Nat) (dev : Device) (run : Bool) (trace : List DevOp) (c : Int),
          0 ≤ c → c < 2 → 128 ≤ fuel → (∀ k, dev.err k = 0) →
          ∃ state : StateInfo,
            (StreamOut.configured lib info handle).states[c.toNat]? = some state
              ∧ state.values.length = 128
              ∧ UpdateStreamOutBuffer fuel dev run
                    { StreamOut.configured lib info handle with currentIndex := c } trace
                  = Outcome.done
                      { StreamOut.configured lib info handle with
                        currentIndex := (c + 1) % 2 }
                      (trace ++
                        [DevOp.eWriteNameArray handle
                           (StreamOut.configured lib info handle).bufferRegString 127
                           (state.values.take 127),
                         DevOp.eNames handle 2
                           [(StreamOut.configured lib info handle).bufferRegString,
                            (StreamOut.configured lib info handle).setLoopRegString]
                           [1, 1] [1, 1]
                           (state.values.drop 127 ++ [(info.setLoop : ℚ)])]))
      ∧ (∀ (fuel : Nat) (dev : Device) (trace : List DevOp) (s : StreamOut) (t : List DevOp),
          StreamOut.new fuel lib dev info handle trace = Outcome.done s t →
          s = { StreamOut.configured lib info handle with currentIndex := 1 }) := by
  have hsz : (StreamOut.configured lib info handle).stateSize = 128 := by
    have e : (StreamOut.configured lib info handle).stateSize
        = (info.bufferNumBytes.tdiv 2).tdiv 2 := rfl
    rw [e, hb]
    rfl
  have hms : (StreamOut.configured lib info handle).maxSamples = 127 := by
    have e : (StreamOut.configured lib info handle).maxSamples
        = (toInt32 ((if lib.maxBytes > 524 then 524 else lib.maxBytes) - 12)).tdiv 4 - 1 := rfl
    have e2 : (if lib.maxBytes > 524 then 524 else lib.maxBytes) = 524 := by
      split <;> omega
    rw [e, e2]
    rfl
  have hst : (StreamOut.configured lib info handle).states
      = [{ stateString := "increase from 0.0 to 2.5", values := GenerateState 128 0 (5 / 2) },
         { stateString := "decrease from 5.0 to 2.5",
           values := GenerateState 128 5 (-(5 / 2)) }] := by
    have e : (StreamOut.configured lib info handle).states
        = [{ stateString := "increase from 0.0 to 2.5",
             values := GenerateState ((info.bufferNumBytes.tdiv 2).tdiv 2) 0 (5 / 2) },
           { stateString := "decrease from 5.0 to 2.5",
             values := GenerateState ((info.bufferNumBytes.tdiv 2).tdiv 2) 5 (-(5 / 2)) }] :=
      rfl
    have e2 : (info.bufferNumBytes.tdiv 2).tdiv 2 = 128 := by rw [hb]; rfl
    rw [e, e2]
  refine ⟨hsz, hms, ?_, ?_⟩
  · intro fuel dev run trace c hc0 hc2 hfuel hdev
    have hlen : (StreamOut.configured lib info handle).states.length = 2 := by rw [hst]; rfl
    have hlt : c.toNat < (StreamOut.configured lib info handle).states.length := by omega
    have hall : ∀ st ∈ (StreamOut.configured lib info handle).states,
        st.values.length = 128 := by
      intro st hmem
      rw [hst] at hmem
      simp only [List.mem_cons, List.mem_singleton, List.not_mem_nil, or_false] at hmem
      rcases hmem with h | h <;> rw [h] <;> simp [generateState_length]
    have hL : ((StreamOut.configured lib info handle).states[c.toNat]).values.length = 128 :=
      hall _ (List.getElem_mem _)
    refine ⟨(StreamOut.configured lib info handle).states[c.toNat],
      List.getElem?_eq_getElem hlt, hL, ?_⟩
    obtain ⟨ops, hrun, hcases⟩ := update_writes fuel dev run
      { StreamOut.configured lib info handle with currentIndex := c } trace
      ((StreamOut.configured lib info handle).states[c.toNat]) hc0
      (List.getElem?_eq_getElem hlt) (by show 1 ≤ (StreamOut.configured lib info handle).maxSamples; rw [hms]; norm_num) hdev (by omega)
    rcases hcases with ⟨hnil, _⟩ | ⟨cs, last, hops, hjoin, hlenc, h1, h2, hsum, _⟩
    · rw [hnil] at hL; simp at hL
    · have hms2 : ({ StreamOut.configured lib info handle with currentIndex := c } : StreamOut).maxSamples = 127 := hms
      rw [hms2] at h2 hsum hlenc
      rw [hL] at hsum
      have hq : cs.length = 1 := by omega
      have hr : last.length = 1 := by omega
      obtain ⟨c0, rfl⟩ : ∃ c0, cs = [c0] := List.length_eq_one.mp hq
      have hc : c0.length = 127 := by
        have := hlenc c0 (List.mem_singleton_self c0)
        omega
      have hjoin2 : c0 ++ last
          = ((StreamOut.configured lib info handle).states[c.toNat]).values := by
        simpa using hjoin
      have e1 : ((StreamOut.configured lib info handle).states[c.toNat]).values.take 127
          = c0 := by
        rw [← hjoin2]; exact List.take_left' hc
      have e2 : ((StreamOut.configured lib info handle).states[c.toNat]).values.drop 127
          = last := by
        rw [← hjoin2]; exact List.drop_left' hc
      rw [hrun, hops, e1, e2]
      simp only [hlen]
      simp [arrayWrite, finalWrite, hc, hr]
      exact ⟨rfl, rfl⟩
  · intro fuel dev trace s t hnew
    exact (new_done_configured fuel lib dev info handle trace s t hnew).2

theorem C26_shipped_configuration_two_writes_witness :
    (streamInfo0.bufferNumBytes = BUFFER_NUM_BYTES) ∧ (524 ≤ largeLib.maxBytes)
      ∧ (StreamOut.configured largeLib streamInfo0 7).stateSize = 128
      ∧ (StreamOut.configured largeLib streamInfo0 7).maxSamples = 127 :=
  ⟨rfl, by decide,
    (C26_shipped_configuration_two_writes largeLib streamInfo0 7 rfl (by decide)).1,
    (C26_shipped_configuration_two_writes largeLib streamInfo0 7 rfl (by decide)).2.1⟩

/-! ## `DataToFile` -/

theorem dataToFile_row (aData : Nat → ℚ) (numScansToProcess : Int) (i j : Nat)
    (hi : (i : Int) < numScansToProcess) (hj : j < 6) :
    ((StreamLogTesting.DataToFile aData numScansToProcess)[i]?).bind (fun row => row[j]?)
      = some (aData (i + j)) := by
  have h6 : StreamLogTesting.NUM_CHANNELS.toNat = 6 := rfl
  have hi2 : i < numScansToProcess.toNat := by omega
  simp [StreamLogTesting.DataToFile, h6, hi2, hj]

/-- C27, at a concrete input: with two scans to process on the interleaved
array whose sample at index `k` is `k`, `DataToFile` writes the rows
0,1,2,3,4,5 and 1,2,3,4,5,6 (it reads `aData[i + j]`), while the samples of
scan 1 are 6,7,8,9,10,11: row 1 is not scan 1, sample 1 is logged twice and
sample 7 is not logged at all. -/
theorem C27_rows_overlap :
    StreamLogTesting.DataToFile StreamLogTesting.rampData 2
        = [[0, 1, 2, 3, 4, 5], [1, 2, 3, 4, 5, 6]]
      ∧ StreamLogTesting.scanOf StreamLogTesting.rampData 1 = [6, 7, 8, 9, 10, 11]
      ∧ (StreamLogTesting.DataToFile StreamLogTesting.rampData 2)[1]?
          ≠ some (StreamLogTesting.scanOf StreamLogTesting.rampData 1)
      ∧ (StreamLogTesting.DataToFile StreamLogTesting.rampData 2).flatten.count 1 = 2
      ∧ (StreamLogTesting.DataToFile StreamLogTesting.rampData 2).flatten.count 7 = 0 := by
  have h6 : StreamLogTesting.NUM_CHANNELS.toNat = 6 := rfl
  have h2 : Int.toNat 2 = 2 := rfl
  have e1 : StreamLogTesting.DataToFile StreamLogTesting.rampData 2
      = [[0, 1, 2, 3, 4, 5], [1, 2, 3, 4, 5, 6]] := by
    norm_num [StreamLogTesting.DataToFile, StreamLogTesting.rampData, h6, h2, List.range_succ]
  have e2 : StreamLogTesting.scanOf StreamLogTesting.rampData 1 = [6, 7, 8, 9, 10, 11] := by
    norm_num [StreamLogTesting.scanOf, StreamLogTesting.rampData, h6, List.range_succ]
  rw [e1, e2]
  refine ⟨rfl, rfl, ?_, ?_, ?_⟩
  · norm_num
  · norm_num [List.count_cons]
  · norm_num [List.count_cons]

/-! ## The polling loop of `system_reboot_test.c` -/

theorem pollLoop_sound (N R : Int) (err : Nat → Int) (hne : R ≠ N) :
    ∀ (fuel reads : Nat) (hit : Int) (n : Nat),
      (hit = 1 ↔ ∃ m : Nat, m < reads ∧ err m = R) →
      SystemRebootTest.pollLoop N R err fuel reads hit = some n →
      reads < n ∧ SystemRebootTest.reconnectedAt N R err (n - 1)
        ∧ ∀ j : Nat, reads ≤ j → j < n - 1 → ¬ SystemRebootTest.reconnectedAt N R err j := by
  intro fuel
  induction fuel with
  | zero =>
    intro reads hit n _ h
    simp [SystemRebootTest.pollLoop] at h
  | succ fuel ih =>
    intro reads hit n hinv h
    rw [SystemRebootTest.pollLoop] at h
    have extend : ∀ hit1 : Int,
        (hit1 = 1 ↔ ∃ m : Nat, m < reads + 1 ∧ err m = R) →
        ¬ SystemRebootTest.reconnectedAt N R err reads →
        SystemRebootTest.pollLoop N R err fuel (reads + 1) hit1 = some n →
        reads < n ∧ SystemRebootTest.reconnectedAt N R err (n - 1)
          ∧ ∀ j : Nat, reads ≤ j → j < n - 1 →
              ¬ SystemRebootTest.reconnectedAt N R err j := by
      intro hit1 hinv1 hnot hrun
      obtain ⟨h1, h2, h3⟩ := ih (reads + 1) hit1 n hinv1 hrun
      refine ⟨by omega, h2, ?_⟩
      intro j hj1 hj2
      by_cases hj : j = reads
      · rw [hj]; exact hnot
      · exact h3 j (by omega) hj2
    by_cases hN : err reads = N
    · rw [if_pos hN] at h
      by_cases hhit : hit = 1
      · rw [if_pos hhit] at h
        have hn : n = reads + 1 := by
          have := Option.some.inj h
          omega
        subst hn
        refine ⟨by omega, ?_, ?_⟩
        · simp only [Nat.add_sub_cancel]
          exact ⟨hN, hinv.mp hhit⟩
        · intro j hj1 hj2
          simp only [Nat.add_sub_cancel] at hj2
          omega
      · rw [if_neg hhit] at h
        refine extend hit ?_ ?_ h
        · constructor
          · intro h1
            exact absurd h1 hhit
          · rintro ⟨m, hm, hmR⟩
            by_cases hmk : m = reads
            · rw [hmk, hN] at hmR
              exact absurd hmR.symm hne
            · exact hinv.mpr ⟨m, by omega, hmR⟩
        · rintro ⟨_, hex⟩
          exact hhit (hinv.mpr hex)
    · rw [if_neg hN] at h
      have hnot : ¬ SystemRebootTest.reconnectedAt N R err reads := fun hp => hN hp.1
      by_cases hR : err reads = R
      · rw [if_pos hR] at h
        exact extend 1 ⟨fun _ => ⟨reads, by omega, hR⟩, fun _ => rfl⟩ hnot h
      · rw [if_neg hR] at h
        refine extend hit ?_ hnot h
        constructor
        · intro h1
          obtain ⟨m, hm, hmR⟩ := hinv.mp h1
          exact ⟨m, by omega, hmR⟩
        · rintro ⟨m, hm, hmR⟩
          by_cases hmk : m = reads
          · rw [hmk] at hmR
            exact absurd hmR hR
          · exact hinv.mpr ⟨m, by omega, hmR⟩

theorem pollLoop_complete (N R : Int) (err : Nat → Int) (hne : R ≠ N) :
    ∀ (fuel reads : Nat) (hit : Int) (i : Nat),
      (hit = 1 ↔ ∃ m : Nat, m < reads ∧ err m = R) →
      reads ≤ i → SystemRebootTest.reconnectedAt N R err i → i - reads < fuel →
      ∃ n : Nat, n ≤ i + 1 ∧ SystemRebootTest.pollLoop N R err fuel reads hit = some n := by
  intro fuel
  induction fuel with
  | zero =>
    intro reads hit i _ _ _ hf
    omega
  | succ fuel ih =>
    intro reads hit i hinv hle hP hf
    rw [SystemRebootTest.pollLoop]
    by_cases hN : err reads = N
    · rw [if_pos hN]
      by_cases hhit : hit = 1
      · rw [if_pos hhit]
        exact ⟨reads + 1, by omega, rfl⟩
      · rw [if_neg hhit]
        have hlt : reads < i := by
          rcases Nat.lt_or_ge reads i with h | h
          · exact h
          · have e : i = reads := by omega
            rw [e] at hP
            exact absurd (hinv.mpr hP.2) hhit
        refine ih (reads + 1) hit i ?_ (by omega) hP (by omega)
        constructor
        · intro h1
          exact absurd h1 hhit
        · rintro ⟨m, hm, hmR⟩
          by_cases hmk : m = reads
          · rw [hmk, hN] at hmR
            exact absurd hmR.symm hne
          · exact hinv.mpr ⟨m, by omega, hmR⟩
    · rw [if_neg hN]
      have hlt : reads < i := by
        rcases Nat.lt_or_ge reads i with h | h
        · exact h
        · have e : i = reads := by omega
          rw [e] at hP
          exact absurd hP.1 hN
      by_cases hR : err reads = R
      · rw [if_pos hR]
        exact ih (reads + 1) 1 i ⟨fun _ => ⟨reads, by omega, hR⟩, fun _ => rfl⟩ (by omega) hP
          (by omega)
      · rw [if_neg hR]
        refine ih (reads + 1) hit i ?_ (by omega) hP (by omega)
        constructor
        · intro h1
          obtain ⟨m, hm, hmR⟩ := hinv.mp h1
          exact ⟨m, by omega, hmR⟩
        · rintro ⟨m, hm, hmR⟩
          by_cases hmk : m = reads
          · rw [hmk] at hmR
            exact absurd hmR hR
          · exact hinv.mpr ⟨m, by omega, hmR⟩

/-- C28: for every sequence `err` of results of the AIN0 read (the code
`LJME_RECONNECT_FAILED` being different from `LJME_NOERROR`), when the polling
loop ends after `n` reads, its last read succeeded, an earlier read failed
with `LJME_RECONNECT_FAILED`, and no earlier read was such a success; a
successful read with no such failure before it does not end the loop.
Conversely the loop does end at the first successful read that follows such a
failure, given fuel for the reads up to it, and it never ends when there is no
such read. -/
theorem C28_exit_only_after_reconnect_failure (LJME_NOERROR LJME_RECONNECT_FAILED : Int)
    (err : Nat → Int) (hne : LJME_RECONNECT_FAILED ≠ LJME_NOERROR) :
    (∀ (fuel n : Nat),
        SystemRebootTest.pollLoop LJME_NOERROR LJME_RECONNECT_FAILED err fuel 0 0 = some n →
        1 ≤ n ∧ err (n - 1) = LJME_NOERROR
          ∧ (∃ m : Nat, m < n - 1 ∧ err m = LJME_RECONNECT_FAILED)
          ∧ ∀ j : Nat, j < n - 1 →
              ¬ SystemRebootTest.reconnectedAt LJME_NOERROR LJME_RECONNECT_FAILED err j)
      ∧ (∀ (k fuel n : Nat), (∀ m : Nat, m < k → err m ≠ LJME_RECONNECT_FAILED) →
          SystemRebootTest.pollLoop LJME_NOERROR LJME_RECONNECT_FAILED err fuel 0 0 = some n →
          k + 1 < n)
      ∧ (∀ (i fuel : Nat),
          SystemRebootTest.reconnectedAt LJME_NOERROR LJME_RECONNECT_FAILED err i →
          i < fuel →
          ∃ n : Nat, n ≤ i + 1
            ∧ SystemRebootTest.pollLoop LJME_NOERROR LJME_RECONNECT_FAILED err fuel 0 0
                = some n)
      ∧ ((∀ i : Nat,
            ¬ SystemRebootTest.reconnectedAt LJME_NOERROR LJME_RECONNECT_FAILED err i) →
          ∀ fuel : Nat,
            SystemRebootTest.pollLoop LJME_NOERROR LJME_RECONNECT_FAILED err fuel 0 0
              = none) := by
  have hinv : ((0 : Int) = 1 ↔ ∃ m : Nat, m < 0 ∧ err m = LJME_RECONNECT_FAILED) :=
    ⟨fun h => absurd h (by decide), fun ⟨m, hm, _⟩ => absurd hm (Nat.not_lt_zero m)⟩
  have sound := fun (fuel n : Nat) =>
    pollLoop_sound LJME_NOERROR LJME_RECONNECT_FAILED err hne fuel 0 0 n hinv
  refine ⟨?_, ?_, ?_, ?_⟩
  · intro fuel n h
    obtain ⟨h1, h2, h3⟩ := sound fuel n h
    exact ⟨h1, h2.1, h2.2, fun j hj => h3 j (Nat.zero_le j) hj⟩
  · intro k fuel n hk h
    obtain ⟨h1, ⟨_, m, hm, hmR⟩, _⟩ := sound fuel n h
    by_contra hcon
    exact hk m (by omega) hmR
  · intro i fuel hP hf
    exact pollLoop_complete LJME_NOERROR LJME_RECONNECT_FAILED err hne fuel 0 0 i hinv
      (Nat.zero_le i) hP (by omega)
  · intro hnone fuel
    cases hrun : SystemRebootTest.pollLoop LJME_NOERROR LJME_RECONNECT_FAILED err fuel 0 0 with
    | none => rfl
    | some n => exact absurd (sound fuel n hrun).2.1 (hnone (n - 1))

theorem C28_exit_only_after_reconnect_failure_witness :
    ((1239 : Int) ≠ 0)
      ∧ SystemRebootTest.reconnectedAt 0 1239 SystemRebootTest.rebootErrs 4
      ∧ ∃ n : Nat, n ≤ 4 + 1
          ∧ SystemRebootTest.pollLoop 0 1239 SystemRebootTest.rebootErrs 5 0 0 = some n :=
  have hP : SystemRebootTest.reconnectedAt 0 1239 SystemRebootTest.rebootErrs 4 :=
    ⟨rfl, 1, by decide, rfl⟩
  ⟨by decide, hP,
    (C28_exit_only_after_reconnect_failure 0 1239 SystemRebootTest.rebootErrs
      (by decide)).2.2.1 4 5 hP (by decide)⟩

/-! ## The thermocouple index table -/

theorem efIndexOf_eq (t : Int) (h1 : 6001 ≤ t) (h2 : t ≤ 6009) :
    ThermocoupleExample.efIndexOf t
      = some (if t = 6001 then 28 else if t = 6002 then 20 else if t = 6003 then 21
          else if t = 6004 then 22 else if t = 6005 then 27 else if t = 6006 then 23
          else if t = 6007 then 25 else if t = 6008 then 24 else 30) := by
  have hc : t = 6001 ∨ t = 6002 ∨ t = 6003 ∨ t = 6004 ∨ t = 6005 ∨ t = 6006 ∨ t = 6007
      ∨ t = 6008 ∨ t = 6009 := by omega
  rcases hc with h | h | h | h | h | h | h | h | h <;> subst h <;> rfl

theorem setupAIN_EF_eq (LJM_UINT32 LJM_FLOAT32 : Int) (tcData : ThermocoupleExample.TCData)
    (v : Int) (h : ThermocoupleExample.efIndexOf tcData.tcType = some v) :
    ∃ (units : ℚ),
      ThermocoupleExample.SetupAIN_EF LJM_UINT32 LJM_FLOAT32 tcData
        = some ([9000 + 2 * tcData.posChannel, 9300 + 2 * tcData.posChannel,
                 9600 + 2 * tcData.posChannel, 10200 + 2 * tcData.posChannel,
                 10500 + 2 * tcData.posChannel],
                [LJM_UINT32, LJM_UINT32, LJM_UINT32, LJM_FLOAT32, LJM_FLOAT32],
                [(v : ℚ), units, (tcData.CJCAddress : ℚ), tcData.CJCSlope,
                 tcData.CJCOffset]) := by
  unfold ThermocoupleExample.efIndexOf at h
  unfold ThermocoupleExample.SetupAIN_EF
  by_cases hneg : tcData.tcType - 6001 < 0
  · rw [if_pos hneg] at h
    cases h
  · rw [if_neg hneg] at h
    simp only [hneg, if_false, h]
    exact ⟨_, rfl⟩

/-- C29: for every thermocouple type constant `tcType` in 6001..6009 (B, E, J,
K, N, R, S, T, C) the index `tcType - 6001` lies within the 9 entries of
`TC_INDEX_LUT`, and `SetupAIN_EF` passes as first frame the address
`9000 + 2 * posChannel` (AIN#_EF_INDEX) with the value found there: 28, 20,
21, 22, 27, 23, 25, 24, 30 respectively (type K, 6004, gives 22); a different
supported type gives a different value. -/
theorem C29_tc_index_lookup (LJM_UINT32 LJM_FLOAT32 : Int)
    (tcData : ThermocoupleExample.TCData) (h1 : 6001 ≤ tcData.tcType)
    (h2 : tcData.tcType ≤ 6009) :
    0 ≤ tcData.tcType - 6001
      ∧ (tcData.tcType - 6001).toNat < ThermocoupleExample.TC_INDEX_LUT.length
      ∧ ThermocoupleExample.TC_INDEX_LUT.length = 9
      ∧ ∃ (v : Int) (units : ℚ),
          ThermocoupleExample.TC_INDEX_LUT[(tcData.tcType - 6001).toNat]? = some v
            ∧ ThermocoupleExample.SetupAIN_EF LJM_UINT32 LJM_FLOAT32 tcData
                = some ([9000 + 2 * tcData.posChannel, 9300 + 2 * tcData.posChannel,
                         9600 + 2 * tcData.posChannel, 10200 + 2 * tcData.posChannel,
                         10500 + 2 * tcData.posChannel],
                        [LJM_UINT32, LJM_UINT32, LJM_UINT32, LJM_FLOAT32, LJM_FLOAT32],
                        [(v : ℚ), units, (tcData.CJCAddress : ℚ), tcData.CJCSlope,
                         tcData.CJCOffset])
            ∧ (tcData.tcType = 6001 → v = 28) ∧ (tcData.tcType = 6002 → v = 20)
            ∧ (tcData.tcType = 6003 → v = 21) ∧ (tcData.tcType = 6004 → v = 22)
            ∧ (tcData.tcType = 6005 → v = 27) ∧ (tcData.tcType = 6006 → v = 23)
            ∧ (tcData.tcType = 6007 → v = 25) ∧ (tcData.tcType = 6008 → v = 24)
            ∧ (tcData.tcType = 6009 → v = 30)
            ∧ ∀ t : Int, 6001 ≤ t → t ≤ 6009 → t ≠ tcData.tcType →
                ThermocoupleExample.efIndexOf t ≠ some v := by
  have hlen : ThermocoupleExample.TC_INDEX_LUT.length = 9 := rfl
  have he := efIndexOf_eq tcData.tcType h1 h2
  obtain ⟨units, hsetup⟩ := setupAIN_EF_eq LJM_UINT32 LJM_FLOAT32 tcData _ he
  have hlut : ThermocoupleExample.TC_INDEX_LUT[(tcData.tcType - 6001).toNat]?
      = ThermocoupleExample.efIndexOf tcData.tcType := by
    unfold ThermocoupleExample.efIndexOf
    rw [if_neg (by omega)]
  refine ⟨by omega, by omega, hlen, _, units, hlut.trans he, hsetup, ?_, ?_, ?_, ?_, ?_, ?_,
    ?_, ?_, ?_, ?_⟩
  · intro h; rw [h]; rfl
  · intro h; rw [h]; rfl
  · intro h; rw [h]; rfl
  · intro h; rw [h]; rfl
  · intro h; rw [h]; rfl
  · intro h; rw [h]; rfl
  · intro h; rw [h]; rfl
  · intro h; rw [h]; rfl
  · intro h; rw [h]; rfl
  · intro t ht1 ht2 hne heq
    have hnd : ThermocoupleExample.TC_INDEX_LUT.Nodup := by decide
    have ht : ThermocoupleExample.TC_INDEX_LUT[(t - 6001).toNat]?
        = ThermocoupleExample.efIndexOf t := by
      unfold ThermocoupleExample.efIndexOf
      rw [if_neg (by omega)]
    obtain ⟨ha, hva⟩ := List.getElem?_eq_some.mp (ht.trans heq)
    obtain ⟨hb, hvb⟩ := List.getElem?_eq_some.mp (hlut.trans he)
    have hidx := (List.Nodup.getElem_inj_iff hnd).mp (hva.trans hvb.symm)
    omega

theorem C29_tc_index_lookup_witness :
    (6001 ≤ ThermocoupleExample.mainTCData.tcType)
      ∧ (ThermocoupleExample.mainTCData.tcType ≤ 6009)
      ∧ (ThermocoupleExample.mainTCData.tcType - 6001).toNat
          < ThermocoupleExample.TC_INDEX_LUT.length :=
  ⟨by decide, by decide,
    (C29_tc_index_lookup 1 3 ThermocoupleExample.mainTCData (by decide) (by decide)).2.1⟩

/-! ## `ProcessStreamResults` -/

/-- C30: for every data vector with at least `NUM_IN_READS` entries,
`ProcessStreamResults` returns, and its result is the number of entries of
`data` equal to -9999.0, that is the number of positions holding that value,
whatever the iteration, the two backlog counts and the state size are. -/
theorem C30_returns_skipped_count (iteration : Int) (data : List ℚ)
    (deviceNumBacklogScans ljmNumBacklogScans stateSize : Int)
    (h : NUM_IN_READS ≤ (data.length : Int)) :
    ProcessStreamResults iteration data deviceNumBacklogScans ljmNumBacklogScans stateSize
        = some ((data.count (-9999) : Nat) : Int)
      ∧ data.count (-9999) = (data.filter (fun x => decide (x = -9999))).length := by
  refine ⟨?_, ?_⟩
  · have h2 : NUM_IN_READS.toNat = 2 := rfl
    have hlen : 2 ≤ data.length := by
      have : (2 : Int) ≤ (data.length : Int) := h
      omega
    match data, hlen with
    | a :: b :: rest, _ =>
      simp [ProcessStreamResults, h2, List.range_succ]
  · rw [List.count_eq_countP, List.countP_eq_length_filter]
    congr 1

theorem C30_returns_skipped_count_witness :
    (NUM_IN_READS ≤ (skippedData.length : Int))
      ∧ ProcessStreamResults 3 skippedData 0 0 128 = some 2 :=
  ⟨by decide,
    (C30_returns_skipped_count 3 skippedData 0 0 128 (by decide)).1.trans
      (by norm_num [skippedData, List.count_cons])⟩

/-! ## The chunking limit and the 32-bit subtraction (C18, C23) -/

theorem new_returns_of_limit (fuel : Nat) (lib : Lib) (dev : Device) (info : StreamInfo)
    (handle : Int) (trace : List DevOp) (hlib : (lib.nameToAddress info.target).1 = 0)
    (hM : 1 ≤ (StreamOut.configured lib info handle).maxSamples) (hdev : ∀ k, dev.err k = 0)
    (hfuel : ((info.bufferNumBytes.tdiv 2).tdiv 2).toNat ≤ fuel) :
    ∃ (s : StreamOut) (t : List DevOp),
      StreamOut.new fuel lib dev info handle trace = Outcome.done s t := by
  rw [new_eq fuel lib dev info handle trace hlib,
    initialize_done dev (StreamOut.configured lib info handle) trace (fun i _ => hdev _)]
  apply update_returns
  · exact le_refl _
  · show (0 : Int) < 2
    decide
  · exact hM
  · exact hdev
  · intro st hst
    simp only [StreamOut.configured, List.mem_cons, List.mem_singleton, List.not_mem_nil,
      or_false] at hst
    rcases hst with rfl | rfl
    · simp only [generateState_length]
      exact hfuel
    · simp only [generateState_length]
      exact hfuel

theorem configured_max_samples (lib : Lib) (info : StreamInfo) (handle : Int)
    (hlo : -2147483636 ≤ lib.maxBytes) :
    (StreamOut.configured lib info handle).maxSamples
      = ((min lib.maxBytes 524 - 12).tdiv 4) - 1 := by
  have hmin : (if lib.maxBytes > 524 then (524 : Int) else lib.maxBytes)
      = min lib.maxBytes 524 := by
    split <;> omega
  have e : (StreamOut.configured lib info handle).maxSamples
      = (toInt32 ((if lib.maxBytes > 524 then 524 else lib.maxBytes) - 12)).tdiv 4 - 1 := rfl
  rw [e, hmin, toInt32_eq _ (by omega) (by omega)]

/-- C18, at a concrete input: on a connection that reports
`maxBytes = -2147483648` the 32-bit subtraction `maxBytes - 12` wraps to
2147483636, so the constructor computes `maxSamples = 536870908`, which is
above 127 and is not `((min(maxBytes, 524) - 12) / 4) - 1 = -536870916`; the
construction of a 20-byte buffer on an accepting device returns a manager
with that limit. -/
theorem C18_subtraction_wraps :
    (StreamOut.configured wrapLib demoInfo 7).maxSamples = 536870908
      ∧ ¬ (StreamOut.configured wrapLib demoInfo 7).maxSamples ≤ 127
      ∧ ((min wrapLib.maxBytes 524 - 12).tdiv 4) - 1 = -536870916
      ∧ ∃ (s : StreamOut) (t : List DevOp),
          StreamOut.new 5 wrapLib okDevice demoInfo 7 [] = Outcome.done s t
            ∧ s.maxSamples = 536870908 := by
  have hM : (StreamOut.configured wrapLib demoInfo 7).maxSamples = 536870908 := by decide
  refine ⟨hM, by rw [hM]; decide, by decide, ?_⟩
  obtain ⟨s, t, hnew⟩ := new_returns_of_limit 5 wrapLib okDevice demoInfo 7 [] rfl
    (by rw [hM]; decide) (fun _ => rfl) (by decide)
  obtain ⟨_, hs⟩ := new_done_configured 5 wrapLib okDevice demoInfo 7 [] s t hnew
  refine ⟨s, t, hnew, ?_⟩
  rw [hs]
  exact hM

/-- C18, amended: for every `maxBytes ≥ -2147483636` (`INT_MIN + 12`, where
the 32-bit subtraction `maxBytes - 12` does not wrap) the chunking limit is
`maxSamples = ((min(maxBytes, 524) - 12) / 4) - 1` with the truncating integer
division of C.  It is the `maxSamples` of every constructed manager and of the
object the constructor hands to the priming `UpdateStreamOutBuffer`; it is at
most 127, and it is 127 whenever `maxBytes ≥ 524`. -/
theorem C18_max_samples_bound (lib : Lib) (info : StreamInfo) (handle : Int)
    (hlo : -2147483636 ≤ lib.maxBytes) :
    (∀ (fuel : Nat) (dev : Device) (trace : List DevOp) (s : StreamOut) (t : List DevOp),
        StreamOut.new fuel lib dev info handle trace = Outcome.done s t →
        s.maxSamples = ((min lib.maxBytes 524 - 12).tdiv 4) - 1
          ∧ s.maxSamples ≤ 127 ∧ (524 ≤ lib.maxBytes → s.maxSamples = 127))
    ∧ ((StreamOut.configured lib info handle).maxSamples
          = ((min lib.maxBytes 524 - 12).tdiv 4) - 1
        ∧ (StreamOut.configured lib info handle).maxSamples ≤ 127
        ∧ (524 ≤ lib.maxBytes → (StreamOut.configured lib info handle).maxSamples = 127))
    ∧ (∀ (fuel : Nat) (dev : Device) (trace : List DevOp),
        (lib.nameToAddress info.target).1 = 0 →
        (∀ i : Nat, i < 4 → dev.err (trace.length + i) = 0) →
        StreamOut.new fuel lib dev info handle trace
          = UpdateStreamOutBuffer fuel dev false (StreamOut.configured lib info handle)
              (trace ++ configWrites (StreamOut.configured lib info handle))) := by
  have hcfg := configured_max_samples lib info handle hlo
  have hle : ((min lib.maxBytes 524 - 12).tdiv 4) - 1 ≤ 127 := by
    have := tdiv_four_le (min lib.maxBytes 524 - 12) (by omega)
    omega
  have htop : 524 ≤ lib.maxBytes → ((min lib.maxBytes 524 - 12).tdiv 4) - 1 = 127 := by
    intro h
    have e : min lib.maxBytes 524 = 524 := by omega
    rw [e]
    rfl
  refine ⟨?_, ⟨hcfg, by rw [hcfg]; exact hle, fun h => by rw [hcfg]; exact htop h⟩, ?_⟩
  · intro fuel dev trace s t hnew
    obtain ⟨_, hs⟩ := new_done_configured fuel lib dev info handle trace s t hnew
    have e : s.maxSamples = ((min lib.maxBytes 524 - 12).tdiv 4) - 1 := by
      rw [hs]
      exact hcfg
    exact ⟨e, by rw [e]; exact hle, fun h => by rw [e]; exact htop h⟩
  · intro fuel dev trace hlib hok
    rw [new_eq fuel lib dev info handle trace hlib,
      initialize_done dev (StreamOut.configured lib info handle) trace hok]

theorem C18_max_samples_bound_witness :
    (-2147483636 ≤ demoLib.maxBytes)
    ∧ StreamOut.new 5 demoLib okDevice demoInfo 7 [] = Outcome.done demoStream demoTrace
    ∧ demoStream.maxSamples = ((min demoLib.maxBytes 524 - 12).tdiv 4) - 1
    ∧ demoStream.maxSamples ≤ 127 :=
  ⟨by decide, demo_new,
    ((C18_max_samples_bound demoLib demoInfo 7 (by decide)).1 5 okDevice [] demoStream
      demoTrace demo_new).1,
    ((C18_max_samples_bound demoLib demoInfo 7 (by decide)).1 5 okDevice [] demoStream
      demoTrace demo_new).2.1⟩

/-- C23, at a concrete input: on a connection that reports
`maxBytes = -2147483648` the 32-bit subtraction `maxBytes - 12` wraps, the
constructor computes `maxSamples = 536870908 ≥ 1`, and the chunk loop of a
5-sample state ends after one accepted `LJM_eNames` write, although
`maxBytes < 20`. -/
theorem C23_limit_positive_below_20_bytes :
    1 ≤ (StreamOut.configured wrapLib demoInfo 7).maxSamples
      ∧ ¬ 20 ≤ wrapLib.maxBytes
      ∧ ∃ t : List DevOp,
          UpdateStreamOutBuffer.loop okDevice false (StreamOut.configured wrapLib demoInfo 7)
            demoState.values 1 0 [] = Outcome.done () t := by
  have hM : (StreamOut.configured wrapLib demoInfo 7).maxSamples = 536870908 := by decide
  refine ⟨by rw [hM]; decide, by decide, ?_⟩
  have hn : (5 : Int) = if ((demoState.values.length : Int) - 0
      > (StreamOut.configured wrapLib demoInfo 7).maxSamples)
      then (StreamOut.configured wrapLib demoInfo 7).maxSamples
      else (demoState.values.length : Int) - 0 := by
    rw [hM]; decide
  rw [loop_step okDevice false (StreamOut.configured wrapLib demoInfo 7) demoState.values 0 0 []
    (by decide) (by rw [hM]; decide) rfl 5 hn]
  exact ⟨_, loop_finished _ _ _ _ _ _ _ (by decide)⟩

/-- C23, amended: for `maxBytes ≥ -2147483636` (`INT_MIN + 12`, where the
32-bit subtraction `maxBytes - 12` does not wrap) the chunking limit the
constructor computes is at least 1 exactly when the connection reports
`maxBytes ≥ 20`, is 0 exactly for `maxBytes` in 16..19 and is negative exactly
for `maxBytes < 16`.  With `maxSamples ≥ 1` an iteration of the chunk loop at
an offset `start < L` either ends the program (rejected write) or continues at
`start + n` with `1 ≤ n` and `start + n ≤ L`, so a fuel of `L` iterations
always ends the loop.  With `maxSamples = 0` an accepted iteration at
`start < L` continues at the same `start` after a write of no sample, and on
a device that accepts every call no amount of fuel ends the loop.  With
`maxSamples < 0` an iteration at `start < L` builds its chunk from an iterator
range that ends before it starts: it has no defined behaviour and issues no
write. -/
theorem C23_chunk_loop_progress (lib : Lib) (info : StreamInfo) (handle : Int) (dev : Device)
    (run : Bool) (s : StreamOut) (values : List ℚ) :
    (-2147483636 ≤ lib.maxBytes →
      (1 ≤ (StreamOut.configured lib info handle).maxSamples ↔ 20 ≤ lib.maxBytes)
        ∧ ((StreamOut.configured lib info handle).maxSamples = 0
            ↔ 16 ≤ lib.maxBytes ∧ lib.maxBytes ≤ 19)
        ∧ ((StreamOut.configured lib info handle).maxSamples < 0 ↔ lib.maxBytes < 16))
    ∧ (1 ≤ s.maxSamples →
        ∀ (fuel : Nat) (start : Int) (trace : List DevOp), 0 ≤ start →
          start < (values.length : Int) →
          ∃ n : Int, 1 ≤ n ∧ start + n ≤ (values.length : Int)
            ∧ (dev.err trace.length = 0 →
                ∃ op : DevOp,
                  UpdateStreamOutBuffer.loop dev run s values (fuel + 1) start trace
                    = UpdateStreamOutBuffer.loop dev run s values fuel (start + n)
                        (trace ++ [op]))
            ∧ (dev.err trace.length ≠ 0 →
                ∃ (code : Int) (t : List DevOp),
                  UpdateStreamOutBuffer.loop dev run s values (fuel + 1) start trace
                    = Outcome.exited code t))
    ∧ (1 ≤ s.maxSamples →
        ∀ (fuel : Nat) (trace : List DevOp), values.length ≤ fuel →
          ∃ t : List DevOp,
            UpdateStreamOutBuffer.loop dev run s values fuel 0 trace = Outcome.done () t
              ∨ ∃ code : Int,
                  UpdateStreamOutBuffer.loop dev run s values fuel 0 trace
                    = Outcome.exited code t)
    ∧ (s.maxSamples = 0 →
        ∀ (fuel : Nat) (start : Int) (trace : List DevOp), start < (values.length : Int) →
          (dev.err trace.length = 0 →
              UpdateStreamOutBuffer.loop dev run s values (fuel + 1) start trace
                = UpdateStreamOutBuffer.loop dev run s values fuel start
                    (trace ++ [DevOp.eWriteNameArray s.handle s.bufferRegString 0 []]))
            ∧ ((∀ k, dev.err k = 0) →
                UpdateStreamOutBuffer.loop dev run s values fuel start trace
                  = Outcome.outOfFuel
                      (trace ++ List.replicate fuel
                        (DevOp.eWriteNameArray s.handle s.bufferRegString 0 []))))
    ∧ (s.maxSamples < 0 →
        ∀ (fuel : Nat) (start : Int) (trace : List DevOp), start < (values.length : Int) →
          UpdateStreamOutBuffer.loop dev run s values (fuel + 1) start trace
            = Outcome.undefined trace) := by
  refine ⟨?_, ?_, ?_, ?_, ?_⟩
  · intro hlo
    rw [configured_max_samples lib info handle hlo]
    have h := tdiv_four_cases (min lib.maxBytes 524 - 12)
    refine ⟨?_, ?_, ?_⟩
    · rw [h.1]; omega
    · rw [h.2]; omega
    · have h1 := h.1
      have h2 := h.2
      omega
  · intro hM fuel start trace h0 hlt
    refine ⟨if (values.length : Int) - start > s.maxSamples then s.maxSamples
      else (values.length : Int) - start, ?_, ?_, ?_, ?_⟩
    · split <;> omega
    · split <;> omega
    · intro herr
      exact ⟨_, loop_step dev run s values fuel start trace hlt (by omega) herr _ rfl⟩
    · intro herr
      exact loop_step_error dev run s values fuel start trace hlt (by omega) herr
  · intro hM fuel trace hfuel
    exact loop_ends dev run s values hM fuel 0 trace (le_refl _) (by omega)
  · intro hM fuel start trace hlt
    refine ⟨?_, fun hdev => loop_stalls dev run s values hM hdev start hlt fuel trace⟩
    intro herr
    have hn : (0 : Int) = if (values.length : Int) - start > s.maxSamples then s.maxSamples
        else (values.length : Int) - start := by
      rw [hM, if_pos (by omega)]
    rw [loop_step dev run s values fuel start trace hlt (by omega) herr 0 hn]
    have hend : ¬ start + 0 ≥ (values.length : Int) := by omega
    rw [if_neg hend, add_zero]
    simp
  · intro hM fuel start trace hlt
    rw [UpdateStreamOutBuffer.loop]
    have hn : (if (values.length : Int) - start > s.maxSamples then s.maxSamples
        else (values.length : Int) - start) = s.maxSamples := by
      rw [if_pos (by omega)]
    simp only [hlt, if_true, hn, hM]

theorem C23_chunk_loop_progress_witness :
    (-2147483636 ≤ demoLib.maxBytes)
      ∧ (1 ≤ (StreamOut.configured demoLib demoInfo 7).maxSamples ↔ 20 ≤ demoLib.maxBytes)
      ∧ (1 ≤ demoStream0.maxSamples)
      ∧ (demoState.values.length ≤ 5)
      ∧ ∃ t : List DevOp,
          UpdateStreamOutBuffer.loop okDevice false demoStream0 demoState.values 5 0 []
              = Outcome.done () t
            ∨ ∃ code : Int,
                UpdateStreamOutBuffer.loop okDevice false demoStream0 demoState.values 5 0 []
                  = Outcome.exited code t :=
  ⟨by decide,
    ((C23_chunk_loop_progress demoLib demoInfo 7 okDevice false demoStream0
      demoState.values).1 (by decide)).1,
    by decide, by decide,
    (C23_chunk_loop_progress demoLib demoInfo 7 okDevice false demoStream0
      demoState.values).2.2.1 (by decide) 5 [] (by decide)⟩

end StreamOutModel
